import Mathlib

/-!
# TinyDB slotted table page and tuple codec

A shallow embedding of `src/storage/page/table_page.cpp` and
`src/storage/table/tuple.cpp`.

The page is embedded at the level of bytes: a frame is a map from byte
offsets (relative to `GetRawPointer()`) to bytes, and every header field and
slot entry is read and written through little-endian 32-bit accessors at the
offsets of the on-disk layout.  Offsets at or beyond the page size denote the
memory that follows the frame.  32-bit unsigned arithmetic is modelled on
`Nat` with explicit reduction modulo `2^32`; the layout constants are taken as
32-bit values, and on a well-formed page none of the sums of the fit checks
wraps around.  A failed `TINYDB_ASSERT` aborts the operation, which is modelled
by the result `none`.  Out-parameters are returned as part of the result.
-/

namespace TinyDB

/-! ## Bytes, raw memory and 32-bit arithmetic -/

/-- One byte of storage. -/
abbrev Byte := Fin 256

/-- The low byte of a natural number. -/
def byteOf (v : Nat) : Byte := ⟨v % 256, Nat.mod_lt _ (by decide)⟩

/-- Raw storage addressed by byte offset from the start of the frame. -/
abbrev RawMem := Nat → Byte

/-- The modulus of `uint32_t` arithmetic. -/
def U32 : Nat := 4294967296

/-- Addition of `uint32_t` values. -/
def add32 (a b : Nat) : Nat := (a + b) % U32

/-- Subtraction of `uint32_t` values (wraps around below zero). -/
def sub32 (a b : Nat) : Nat := (a + (U32 - b % U32)) % U32

/-- Multiplication of `uint32_t` values. -/
def mul32 (a b : Nat) : Nat := (a * b) % U32

/-- The four bytes of a `uint32_t` in little-endian order. -/
def le32 (v : Nat) : List Byte :=
  [byteOf v, byteOf (v / 256), byteOf (v / 65536), byteOf (v / 16777216)]

/-- Read a little-endian `uint32_t` at offset `a`
(`*reinterpret_cast<uint32_t *>(ptr + a)`). -/
def get_u32 (m : RawMem) (a : Nat) : Nat :=
  (m a).val + 256 * (m (a + 1)).val + 65536 * (m (a + 2)).val + 16777216 * (m (a + 3)).val

/-- Copy the bytes `bs` to offset `dst` (`memcpy(ptr + dst, bs, bs.length)`). -/
def memcpy (m : RawMem) (dst : Nat) (bs : List Byte) : RawMem :=
  fun x => if dst ≤ x ∧ x < dst + bs.length then bs.getD (x - dst) 0 else m x

/-- Write a little-endian `uint32_t` at offset `a`. -/
def set_u32 (m : RawMem) (a : Nat) (v : Nat) : RawMem := memcpy m a (le32 v)

/-- Overlap-aware move of `n` bytes from offset `src` to offset `dst`
(`memmove(ptr + dst, ptr + src, n)`). -/
def memmove (m : RawMem) (dst src n : Nat) : RawMem :=
  fun x => if dst ≤ x ∧ x < dst + n then m (src + (x - dst)) else m x

/-- The `n` bytes stored at offsets `a, a+1, ..., a+n-1`. -/
def readBytes (m : RawMem) (a n : Nat) : List Byte :=
  (List.range n).map (fun i => m (a + i))

/-! ## Record identifiers and tuples -/

/-- Modelled from the spec: the reserved invalid page id (`common/config.h` is
not part of the sources); it is the all-ones 32-bit pattern of `-1`. -/
def INVALID_PAGE_ID : Nat := 4294967295

/-- Record identifier `(page_id, slot_id)`. -/
structure RID where
  page_id : Nat
  slot_id : Nat
deriving DecidableEq, Repr

/-- Modelled from the spec: the default-constructed RID is the invalid rid
(`common/rid.h` is not part of the sources). -/
def RID.invalid : RID := ⟨INVALID_PAGE_ID, 0⟩

/-- In-memory tuple (`tuple.h`): `allocated_`, `rid_`, `size_` and the bytes
at `data_`. -/
structure Tuple where
  allocated : Bool
  rid : RID
  size : Nat
  data : List Byte
deriving DecidableEq, Repr

/-- The default tuple `Tuple()`. -/
def Tuple.default : Tuple := ⟨false, RID.invalid, 0, []⟩

/-- The tuple is a value of its C++ type holding owned storage: `size_` is a
`uint32_t` and `data_` points at exactly `size_` bytes. -/
def Tuple.Valid (t : Tuple) : Prop := t.size < U32 ∧ t.data.length = t.size

instance (t : Tuple) : Decidable t.Valid := by
  unfold Tuple.Valid; infer_instance

/-- Modelled from the spec: `Tuple::GetSize` (called by `table_page.cpp`, not
declared in the `tuple.h` of the sources) is the payload byte length. -/
def Tuple.GetSize (t : Tuple) : Nat := t.size

/-- Modelled from the spec: `Tuple::SetRID` (not in the sources) stores the rid. -/
def Tuple.SetRID (t : Tuple) (rid : RID) : Tuple := { t with rid := rid }

/-- The `size_` bytes found at `data_`; a position past the end of the stored
list reads as 0. -/
def Tuple.payload (t : Tuple) : List Byte :=
  (List.range t.size).map (fun i => t.data.getD i 0)

/-- The codec routine `Tuple::SerializeTo(storage)`: the 4-byte size, then `size_` payload bytes. -/
def Tuple.SerializeTo (t : Tuple) (m : RawMem) (storage : Nat) : RawMem :=
  memcpy (memcpy m storage (le32 t.size)) (storage + 4) t.payload

/-- The codec routine `Tuple::DeserializeFrom(storage)`: reads the size prefix, then copies that
many payload bytes. -/
def Tuple.DeserializeFrom (m : RawMem) (storage : Nat) : Tuple :=
  let size := get_u32 m storage
  { Tuple.default with size := size, data := readBytes m (storage + 4) size, allocated := true }

/-- Modelled from the spec: `Tuple::DeserializeFromInplace(storage, size)` (not
in the sources) is the second, prefix-free form: it takes the externally
supplied length and copies that many bytes. -/
def Tuple.DeserializeFromInplace (t : Tuple) (m : RawMem) (storage size : Nat) : Tuple :=
  { t with size := size, data := readBytes m storage size, allocated := true }

/-- Modelled from the spec: the two-argument `Tuple::DeserializeFrom(storage, size)`
used by `ApplyDelete` (not in the sources) builds a fresh tuple from `size`
raw bytes. -/
def Tuple.DeserializeFromSized (m : RawMem) (storage size : Nat) : Tuple :=
  Tuple.default.DeserializeFromInplace m storage size

/-! ## Write-ahead log collaborators -/

/-- Modelled from the spec: the kinds of log record the page emits
(`recovery/log_record.h` is not part of the sources). -/
inductive LogRecordType where
  | INSERT
  | MARKDELETE
  | UPDATE
  | APPLYDELETE
  | ROLLBACKDELETE
deriving DecidableEq, Repr

/-- Modelled from the spec: a log record carries the transaction id, the
previous LSN, its kind, the rid and the tuple images handed to its constructor,
in the order of the call: one tuple for `INSERT`, `APPLYDELETE` and the dummy
of `MARKDELETE` and `ROLLBACKDELETE`, the old and the new tuple for `UPDATE`
(`recovery/log_record.h` is not part of the sources). -/
structure LogRecord where
  txn_id : Nat
  prev_lsn : Nat
  type : LogRecordType
  rid : RID
  tuples : List Tuple
deriving DecidableEq, Repr

/-- Modelled from the spec: the log manager accepts records and hands out
increasing sequence numbers (`recovery/log_manager.h` is not part of the
sources). -/
structure LogManager where
  records : List LogRecord
  next_lsn : Nat
deriving DecidableEq, Repr

/-- Modelled from the spec: `LogManager::AppendLogRecord` appends the record
and returns its LSN. -/
def LogManager.AppendLogRecord (lm : LogManager) (r : LogRecord) : Nat × LogManager :=
  (lm.next_lsn, { records := lm.records ++ [r], next_lsn := lm.next_lsn + 1 })

/-- Modelled from the spec: the transaction context supplies the transaction id
and the previous LSN (`concurrency/transaction_context.h` is not part of the
sources). -/
structure TransactionContext where
  txn_id : Nat
  prev_lsn : Nat
deriving DecidableEq, Repr

/-- Modelled from the spec: `TransactionContext::SetPrevLSN` stores the LSN of
the transaction's latest record. -/
def TransactionContext.SetPrevLSN (txn : TransactionContext) (lsn : Nat) : TransactionContext :=
  { txn with prev_lsn := lsn }

/-! ## Table page layout

`storage/page/table_page.h` is not part of the sources; the accessors below
are modelled from the bit-exact page layout of the specification. -/

/-- A table page frame: the raw bytes at `GetRawPointer()`. -/
abbrev TablePage := RawMem

/-- Modelled from the spec: the header occupies 24 bytes. -/
def SIZE_TABLE_PAGE_HEADER : Nat := 24

/-- Modelled from the spec: a slot entry is `(u32 offset, u32 size)`. -/
def SIZE_SLOT : Nat := 8

/-- Modelled from the spec: the delete mark is the high bit of the size field. -/
def DELETE_MASK : Nat := 2147483648

/-- Modelled from the spec: `page_id` is the header field at offset 0. -/
def GetPageId (pg : TablePage) : Nat := get_u32 pg 0

/-- Modelled from the spec: `LSN` is the header field at offset 4. -/
def GetLSN (pg : TablePage) : Nat := get_u32 pg 4

/-- Modelled from the spec: `prev_page_id` is the header field at offset 8. -/
def GetPrevPageId (pg : TablePage) : Nat := get_u32 pg 8

/-- Modelled from the spec: `next_page_id` is the header field at offset 12. -/
def GetNextPageId (pg : TablePage) : Nat := get_u32 pg 12

/-- Modelled from the spec: `free_space_pointer` is the header field at offset 16. -/
def GetFreeSpacePointer (pg : TablePage) : Nat := get_u32 pg 16

/-- Modelled from the spec: `tuple_count` is the header field at offset 20. -/
def GetTupleCount (pg : TablePage) : Nat := get_u32 pg 20

/-- Modelled from the spec: setter of the header field at offset 0. -/
def SetPageId (pg : TablePage) (v : Nat) : TablePage := set_u32 pg 0 v

/-- Modelled from the spec: setter of the header field at offset 4. -/
def SetLSN (pg : TablePage) (v : Nat) : TablePage := set_u32 pg 4 v

/-- Modelled from the spec: setter of the header field at offset 8. -/
def SetPrevPageId (pg : TablePage) (v : Nat) : TablePage := set_u32 pg 8 v

/-- Modelled from the spec: setter of the header field at offset 12. -/
def SetNextPageId (pg : TablePage) (v : Nat) : TablePage := set_u32 pg 12 v

/-- Modelled from the spec: setter of the header field at offset 16. -/
def SetFreeSpacePointer (pg : TablePage) (v : Nat) : TablePage := set_u32 pg 16 v

/-- Modelled from the spec: setter of the header field at offset 20. -/
def SetTupleCount (pg : TablePage) (v : Nat) : TablePage := set_u32 pg 20 v

/-- Modelled from the spec: byte offset of slot entry `slot_id` in the directory. -/
def slotEntry (slot_id : Nat) : Nat := SIZE_TABLE_PAGE_HEADER + SIZE_SLOT * slot_id

/-- Modelled from the spec: the `tuple_offset` half of a slot entry. -/
def GetTupleOffset (pg : TablePage) (slot_id : Nat) : Nat := get_u32 pg (slotEntry slot_id)

/-- Modelled from the spec: the `tuple_size` half of a slot entry. -/
def GetTupleSize (pg : TablePage) (slot_id : Nat) : Nat := get_u32 pg (slotEntry slot_id + 4)

/-- Modelled from the spec: setter of the `tuple_offset` half of a slot entry. -/
def SetTupleOffset (pg : TablePage) (slot_id v : Nat) : TablePage :=
  set_u32 pg (slotEntry slot_id) v

/-- Modelled from the spec: setter of the `tuple_size` half of a slot entry. -/
def SetTupleSize (pg : TablePage) (slot_id v : Nat) : TablePage :=
  set_u32 pg (slotEntry slot_id + 4) v

/-- Modelled from the spec: free bytes are
`free_space_pointer - (header_end + tuple_count * SLOT_SIZE)`, in `uint32_t`. -/
def GetFreeSpaceRemaining (pg : TablePage) : Nat :=
  sub32 (sub32 (GetFreeSpacePointer pg) SIZE_TABLE_PAGE_HEADER) (mul32 SIZE_SLOT (GetTupleCount pg))

/-- Modelled from the spec: a size field is skipped by readers when its high bit
is set (marked-deleted) or when it is 0 (free slot). -/
def IsDeleted (tuple_size : Nat) : Bool :=
  decide (DELETE_MASK ≤ tuple_size % U32) || decide (tuple_size = 0)

/-- Modelled from the spec: a slot refers to a tuple when its size field is not 0. -/
def IsValid (tuple_size : Nat) : Bool := decide (tuple_size ≠ 0)

/-- Modelled from the spec: set the high bit of a size field. -/
def SetDeletedFlag (tuple_size : Nat) : Nat :=
  if DELETE_MASK ≤ tuple_size % U32 then tuple_size else tuple_size + DELETE_MASK

/-- Modelled from the spec: clear the high bit of a size field. -/
def UnsetDeletedFlag (tuple_size : Nat) : Nat :=
  if DELETE_MASK ≤ tuple_size % U32 then tuple_size - DELETE_MASK else tuple_size

/-! ## Page operations (`table_page.cpp`) -/

/-- What an operation leaves behind: the page bytes, the transaction context
and the log manager (`none` stands for a null pointer). -/
structure PageState where
  page : TablePage
  txn : Option TransactionContext
  log_manager : Option LogManager

/-- The logging block shared by all mutating operations:
`if (log_manager != nullptr) { assert(txn != nullptr); lsn = Append(log); SetLSN(lsn); txn->SetPrevLSN(lsn); }`.
The record is built from the transaction context by `mk`. -/
def logBlock (pg : TablePage) (txn : Option TransactionContext) (log_manager : Option LogManager)
    (mk : TransactionContext → LogRecord) : Option PageState :=
  match log_manager with
  | none => some ⟨pg, txn, none⟩
  | some lm =>
    match txn with
    | none => none
    | some t =>
      let r := lm.AppendLogRecord (mk t)
      some ⟨SetLSN pg r.1, some (t.SetPrevLSN r.1), some r.2⟩

/-- The operation `TablePage::Init`. -/
def Init (pg : TablePage) (page_id page_size prev_page_id : Nat)
    (_txn : Option TransactionContext) (_log_manager : Option LogManager) : TablePage :=
  let pg := SetPageId pg page_id
  let pg := SetPrevPageId pg prev_page_id
  let pg := SetNextPageId pg INVALID_PAGE_ID
  let pg := SetFreeSpacePointer pg page_size
  SetTupleCount pg 0

/-- The slot search loop of `InsertTuple`: starting at `i`, the first slot below
`tuple_cnt` whose size is 0, else `tuple_cnt`; `fuel` bounds the iterations. -/
def findFreeSlot (pg : TablePage) (tuple_cnt : Nat) : Nat → Nat → Nat
  | 0, _ => tuple_cnt
  | fuel + 1, i =>
    if i < tuple_cnt then
      if GetTupleSize pg i = 0 then i else findFreeSlot pg tuple_cnt fuel (i + 1)
    else tuple_cnt

/-- Result of `InsertTuple`: the returned flag, the rid written through the
out-parameter (`none` when it was not written) and the state left behind. -/
structure InsertResult where
  ok : Bool
  rid : Option RID
  state : PageState

/-- The operation `TablePage::InsertTuple`. -/
def InsertTuple (pg : TablePage) (tuple : Tuple) (txn : Option TransactionContext)
    (log_manager : Option LogManager) : Option InsertResult :=
  if ¬ (tuple.GetSize > 0) then none
  else if GetFreeSpaceRemaining pg < tuple.GetSize then some ⟨false, none, ⟨pg, txn, log_manager⟩⟩
  else
    let tuple_cnt := GetTupleCount pg
    let slot_id := findFreeSlot pg tuple_cnt tuple_cnt 0
    if slot_id = tuple_cnt ∧ GetFreeSpaceRemaining pg < add32 tuple.GetSize SIZE_SLOT then
      some ⟨false, none, ⟨pg, txn, log_manager⟩⟩
    else
      let pg := SetFreeSpacePointer pg (sub32 (GetFreeSpacePointer pg) tuple.GetSize)
      let pg := tuple.SerializeTo pg (GetFreeSpacePointer pg)
      let pg := SetTupleOffset pg slot_id (GetFreeSpacePointer pg)
      let pg := SetTupleSize pg slot_id tuple.GetSize
      let rid : RID := ⟨GetPageId pg, slot_id⟩
      let pg := if slot_id = tuple_cnt then SetTupleCount pg (add32 tuple_cnt 1) else pg
      match logBlock pg txn log_manager
          (fun t => ⟨t.txn_id, t.prev_lsn, LogRecordType.INSERT, ⟨GetPageId pg, slot_id⟩,
            [tuple]⟩) with
      | none => none
      | some st => some ⟨true, some rid, st⟩

/-- Result of an operation that returns a flag. -/
structure BoolResult where
  ok : Bool
  state : PageState

/-- The operation `TablePage::MarkDelete`. -/
def MarkDelete (pg : TablePage) (rid : RID) (txn : Option TransactionContext)
    (log_manager : Option LogManager) : Option BoolResult :=
  if rid.page_id ≠ GetPageId pg then none
  else
    let slot_id := rid.slot_id
    if slot_id ≥ GetTupleCount pg then some ⟨false, ⟨pg, txn, log_manager⟩⟩
    else
      let tuple_size := GetTupleSize pg slot_id
      if tuple_size = 0 then some ⟨false, ⟨pg, txn, log_manager⟩⟩
      else if IsDeleted tuple_size then none
      else
        match logBlock pg txn log_manager
            (fun t => ⟨t.txn_id, t.prev_lsn, LogRecordType.MARKDELETE, rid, [Tuple.default]⟩) with
        | none => none
        | some st =>
          some ⟨true, { st with page := SetTupleSize st.page slot_id (SetDeletedFlag tuple_size) }⟩

/-- The offset fix-up loop of `UpdateTuple`, for slots `i, i+1, ...` below
`tuple_cnt`; `fuel` bounds the iterations. -/
def updateOffsets (tuple_cnt tuple_offset tuple_size new_size : Nat) :
    Nat → Nat → TablePage → TablePage
  | 0, _, pg => pg
  | fuel + 1, i, pg =>
    if i < tuple_cnt then
      let tuple_offset_i := GetTupleOffset pg i
      let pg :=
        if GetTupleSize pg i ≠ 0 ∧ tuple_offset_i < add32 tuple_offset tuple_size then
          SetTupleOffset pg i (sub32 (add32 tuple_offset_i tuple_size) new_size)
        else pg
      updateOffsets tuple_cnt tuple_offset tuple_size new_size fuel (i + 1) pg
    else pg

/-- Result of `UpdateTuple`: the flag, the tuple behind the `old_tuple`
out-parameter and the state left behind. -/
structure UpdateResult where
  ok : Bool
  old_tuple : Tuple
  state : PageState

/-- The operation `TablePage::UpdateTuple`.  The two pointer expressions
`ptr + free_space_ptr + tuple_size - size` and `ptr + tuple_offset + tuple_size - size`
are offsets in `Nat`; after the fit check on a well-formed page they do not go
below the start of the frame. -/
def UpdateTuple (pg : TablePage) (new_tuple old_tuple : Tuple) (rid : RID)
    (txn : Option TransactionContext) (log_manager : Option LogManager) : Option UpdateResult :=
  if rid.page_id ≠ GetPageId pg then none
  else if ¬ (new_tuple.GetSize > 0) then none
  else
    let slot_id := rid.slot_id
    if slot_id ≥ GetTupleCount pg then some ⟨false, old_tuple, ⟨pg, txn, log_manager⟩⟩
    else
      let tuple_size := GetTupleSize pg slot_id
      if tuple_size = 0 then some ⟨false, old_tuple, ⟨pg, txn, log_manager⟩⟩
      else if IsDeleted tuple_size then none
      else if add32 (GetFreeSpaceRemaining pg) tuple_size < new_tuple.GetSize then
        some ⟨false, old_tuple, ⟨pg, txn, log_manager⟩⟩
      else
        let tuple_offset := GetTupleOffset pg slot_id
        let old_tuple := (old_tuple.DeserializeFromInplace pg tuple_offset tuple_size).SetRID rid
        let free_space_ptr := GetFreeSpacePointer pg
        let pg := memmove pg (free_space_ptr + tuple_size - new_tuple.GetSize) free_space_ptr
          (sub32 tuple_offset free_space_ptr)
        let pg := new_tuple.SerializeTo pg (tuple_offset + tuple_size - new_tuple.GetSize)
        let pg := SetTupleSize pg slot_id new_tuple.GetSize
        let pg := SetFreeSpacePointer pg (sub32 (add32 free_space_ptr tuple_size) new_tuple.GetSize)
        let tuple_cnt := GetTupleCount pg
        let pg := updateOffsets tuple_cnt tuple_offset tuple_size new_tuple.GetSize tuple_cnt 0 pg
        match logBlock pg txn log_manager
            (fun t => ⟨t.txn_id, t.prev_lsn, LogRecordType.UPDATE, rid, [old_tuple, new_tuple]⟩) with
        | none => none
        | some st => some ⟨true, old_tuple, st⟩

/-- The offset fix-up loop of `ApplyDelete`, for slots `i, i+1, ...` below
`tuple_cnt`; `fuel` bounds the iterations. -/
def deleteOffsets (tuple_cnt tuple_offset tuple_size : Nat) : Nat → Nat → TablePage → TablePage
  | 0, _, pg => pg
  | fuel + 1, i, pg =>
    if i < tuple_cnt then
      let tuple_offset_i := GetTupleOffset pg i
      let pg :=
        if GetTupleSize pg i ≠ 0 ∧ tuple_offset_i < tuple_offset then
          SetTupleOffset pg i (add32 tuple_offset_i tuple_size)
        else pg
      deleteOffsets tuple_cnt tuple_offset tuple_size fuel (i + 1) pg
    else pg

/-- The operation `TablePage::ApplyDelete`. -/
def ApplyDelete (pg : TablePage) (rid : RID) (txn : Option TransactionContext)
    (log_manager : Option LogManager) : Option PageState :=
  if rid.page_id ≠ GetPageId pg then none
  else
    let slot_id := rid.slot_id
    if ¬ (slot_id < GetTupleCount pg) then none
    else
      let tuple_offset := GetTupleOffset pg slot_id
      let tuple_size := GetTupleSize pg slot_id
      if ¬ IsValid tuple_size then none
      else
        let tuple_size := if IsDeleted tuple_size then UnsetDeletedFlag tuple_size else tuple_size
        match logBlock pg txn log_manager
            (fun t => ⟨t.txn_id, t.prev_lsn, LogRecordType.APPLYDELETE, rid,
              [Tuple.DeserializeFromSized pg tuple_offset tuple_size]⟩) with
        | none => none
        | some st =>
          let pg := st.page
          let free_space_ptr := GetFreeSpacePointer pg
          let pg := memmove pg (free_space_ptr + tuple_size) free_space_ptr
            (sub32 tuple_offset free_space_ptr)
          let pg := SetTupleSize pg slot_id 0
          let pg := SetTupleOffset pg slot_id 0
          let pg := SetFreeSpacePointer pg (add32 free_space_ptr tuple_size)
          let tuple_cnt := GetTupleCount pg
          some { st with page := deleteOffsets tuple_cnt tuple_offset tuple_size tuple_cnt 0 pg }

/-- The operation `TablePage::RollbackDelete`. -/
def RollbackDelete (pg : TablePage) (rid : RID) (txn : Option TransactionContext)
    (log_manager : Option LogManager) : Option PageState :=
  if rid.page_id ≠ GetPageId pg then none
  else
    let slot_id := rid.slot_id
    if ¬ (slot_id < GetTupleCount pg) then none
    else
      let tuple_size := GetTupleSize pg slot_id
      match logBlock pg txn log_manager
          (fun t => ⟨t.txn_id, t.prev_lsn, LogRecordType.ROLLBACKDELETE, rid, [Tuple.default]⟩) with
      | none => none
      | some st =>
        if IsDeleted tuple_size then
          some { st with page := SetTupleSize st.page slot_id (UnsetDeletedFlag tuple_size) }
        else some st

/-- The operation `TablePage::GetTuple`: the flag and the tuple behind the out-parameter. -/
def GetTuple (pg : TablePage) (rid : RID) (tuple : Tuple) : Option (Bool × Tuple) :=
  if rid.page_id ≠ GetPageId pg then none
  else
    let slot_id := rid.slot_id
    if slot_id ≥ GetTupleCount pg then some (false, tuple)
    else
      let tuple_size := GetTupleSize pg slot_id
      if IsDeleted tuple_size then some (false, tuple)
      else
        let tuple_offset := GetTupleOffset pg slot_id
        some (true, (tuple.DeserializeFromInplace pg tuple_offset tuple_size).SetRID rid)

/-- The scan loop shared by `GetFirstTupleRid` and `GetNextTupleRid`: the first
slot at or after `i` and below `tuple_cnt` that is not skipped. -/
def findTuple (pg : TablePage) (tuple_cnt : Nat) : Nat → Nat → Option Nat
  | 0, _ => none
  | fuel + 1, i =>
    if i < tuple_cnt then
      if ¬ IsDeleted (GetTupleSize pg i) then some i else findTuple pg tuple_cnt fuel (i + 1)
    else none

/-- The operation `TablePage::GetFirstTupleRid`: the flag and the rid written through the
out-parameter. -/
def GetFirstTupleRid (pg : TablePage) : Bool × RID :=
  let tuple_cnt := GetTupleCount pg
  match findTuple pg tuple_cnt tuple_cnt 0 with
  | some i => (true, ⟨GetPageId pg, i⟩)
  | none => (false, ⟨INVALID_PAGE_ID, 0⟩)

/-- The operation `TablePage::GetNextTupleRid`. -/
def GetNextTupleRid (pg : TablePage) (cur_rid : RID) : Option (Bool × RID) :=
  if cur_rid.page_id ≠ GetPageId pg then none
  else
    let tuple_cnt := GetTupleCount pg
    match findTuple pg tuple_cnt tuple_cnt (add32 cur_rid.slot_id 1) with
    | some i => some (true, ⟨GetPageId pg, i⟩)
    | none => some (false, ⟨INVALID_PAGE_ID, 0⟩)

/-! ## Named parts of the operations

The byte writes of the successful paths, named so that lemmas can refer to
them; each operation above is its guard sequence followed by these writes and
the logging block. -/

/-- The writes of a successful `InsertTuple` before the tuple count is touched. -/
def insertWrites (pg : TablePage) (tuple : Tuple) (slot_id : Nat) : TablePage :=
  let pg := SetFreeSpacePointer pg (sub32 (GetFreeSpacePointer pg) tuple.GetSize)
  let pg := tuple.SerializeTo pg (GetFreeSpacePointer pg)
  let pg := SetTupleOffset pg slot_id (GetFreeSpacePointer pg)
  SetTupleSize pg slot_id tuple.GetSize

/-- The page a successful `InsertTuple` hands to its logging block. -/
def insertPage (pg : TablePage) (tuple : Tuple) (slot_id tuple_cnt : Nat) : TablePage :=
  if slot_id = tuple_cnt then SetTupleCount (insertWrites pg tuple slot_id) (add32 tuple_cnt 1)
  else insertWrites pg tuple slot_id

/-- The writes of a successful `UpdateTuple` before the offset fix-up loop. -/
def updateWrites (pg : TablePage) (new_tuple : Tuple) (slot_id : Nat) : TablePage :=
  let tuple_size := GetTupleSize pg slot_id
  let tuple_offset := GetTupleOffset pg slot_id
  let free_space_ptr := GetFreeSpacePointer pg
  let pg := memmove pg (free_space_ptr + tuple_size - new_tuple.GetSize) free_space_ptr
    (sub32 tuple_offset free_space_ptr)
  let pg := new_tuple.SerializeTo pg (tuple_offset + tuple_size - new_tuple.GetSize)
  let pg := SetTupleSize pg slot_id new_tuple.GetSize
  SetFreeSpacePointer pg (sub32 (add32 free_space_ptr tuple_size) new_tuple.GetSize)

/-- The page a successful `UpdateTuple` hands to its logging block. -/
def updatePage (pg : TablePage) (new_tuple : Tuple) (slot_id : Nat) : TablePage :=
  let pg' := updateWrites pg new_tuple slot_id
  updateOffsets (GetTupleCount pg') (GetTupleOffset pg slot_id) (GetTupleSize pg slot_id)
    new_tuple.GetSize (GetTupleCount pg') 0 pg'

/-- The writes of `ApplyDelete` after its logging block and before the offset
fix-up loop; `tuple_offset` and `tuple_size` are the values read on entry (the
size with its delete bit stripped). -/
def deleteWrites (pg : TablePage) (slot_id tuple_offset tuple_size : Nat) : TablePage :=
  let free_space_ptr := GetFreeSpacePointer pg
  let pg := memmove pg (free_space_ptr + tuple_size) free_space_ptr
    (sub32 tuple_offset free_space_ptr)
  let pg := SetTupleSize pg slot_id 0
  let pg := SetTupleOffset pg slot_id 0
  SetFreeSpacePointer pg (add32 free_space_ptr tuple_size)

/-- The page `ApplyDelete` leaves behind, from the page its logging block
produced. -/
def deletePage (pg : TablePage) (slot_id tuple_offset tuple_size : Nat) : TablePage :=
  let pg' := deleteWrites pg slot_id tuple_offset tuple_size
  deleteOffsets (GetTupleCount pg') tuple_offset tuple_size (GetTupleCount pg') 0 pg'

/-- The common shape of the two offset fix-up loops: every slot `i, i+1, ...`
below `tuple_cnt` whose size is not 0 and whose offset `o` satisfies `c o` gets
the offset `g o`. -/
def offsetLoop (tuple_cnt : Nat) (c : Nat → Bool) (g : Nat → Nat) :
    Nat → Nat → TablePage → TablePage
  | 0, _, pg => pg
  | fuel + 1, i, pg =>
    if i < tuple_cnt then
      let tuple_offset_i := GetTupleOffset pg i
      let pg :=
        if GetTupleSize pg i ≠ 0 ∧ c tuple_offset_i = true then
          SetTupleOffset pg i (g tuple_offset_i)
        else pg
      offsetLoop tuple_cnt c g fuel (i + 1) pg
    else pg

/-! ## Specification vocabulary -/

/-- The size the slot's payload occupies: the size field with the delete bit
stripped. -/
def trueSize (tuple_size : Nat) : Nat := tuple_size % DELETE_MASK

/-- Free bytes of the page as a natural number:
`free_space_pointer - (24 + 8 * tuple_count)`. -/
def freeBytes (pg : TablePage) : Nat :=
  GetFreeSpacePointer pg - (SIZE_TABLE_PAGE_HEADER + SIZE_SLOT * GetTupleCount pg)

/-- Some slot of the directory is free (its size field is 0). -/
def HasFreeSlot (pg : TablePage) : Prop :=
  ∃ i, i < GetTupleCount pg ∧ GetTupleSize pg i = 0

/-- Slot `k` is the smallest free slot of the directory, or `tuple_count` when
no slot is free. -/
def IsFirstFreeSlot (pg : TablePage) (k : Nat) : Prop :=
  (∀ j, j < k → j < GetTupleCount pg → GetTupleSize pg j ≠ 0)
  ∧ ((k < GetTupleCount pg ∧ GetTupleSize pg k = 0)
    ∨ (k = GetTupleCount pg ∧ ¬ HasFreeSlot pg))

/-- The rid names a live slot of this page: it carries the page's id, its slot
is inside the directory, and the slot's size is neither 0 nor delete-marked. -/
def LiveSlot (pg : TablePage) (rid : RID) : Prop :=
  rid.page_id = GetPageId pg ∧ rid.slot_id < GetTupleCount pg
  ∧ GetTupleSize pg rid.slot_id ≠ 0 ∧ GetTupleSize pg rid.slot_id < DELETE_MASK

instance (pg : TablePage) (rid : RID) : Decidable (LiveSlot pg rid) := by
  unfold LiveSlot; infer_instance

/-- Slot `i` owns payload bytes (it is live or marked-deleted with a non-empty
payload). -/
def OwnsPayload (pg : TablePage) (i : Nat) : Prop := trueSize (GetTupleSize pg i) ≠ 0

instance (pg : TablePage) (i : Nat) : Decidable (OwnsPayload pg i) := by
  unfold OwnsPayload; infer_instance

/-- The payload ranges of slots `i` and `j` do not overlap. -/
def SlotsDisjoint (pg : TablePage) (i j : Nat) : Prop :=
  GetTupleOffset pg i + trueSize (GetTupleSize pg i) ≤ GetTupleOffset pg j
  ∨ GetTupleOffset pg j + trueSize (GetTupleSize pg j) ≤ GetTupleOffset pg i

instance (pg : TablePage) (i j : Nat) : Decidable (SlotsDisjoint pg i j) := by
  unfold SlotsDisjoint; infer_instance

/-- The payload of slot `i` lies between the free space pointer and the end of
the page, and is disjoint from the payload of every other slot of the
directory that owns payload. -/
def SlotOk (page_size : Nat) (pg : TablePage) (i : Nat) : Prop :=
  OwnsPayload pg i →
    (GetFreeSpacePointer pg ≤ GetTupleOffset pg i
      ∧ GetTupleOffset pg i + trueSize (GetTupleSize pg i) ≤ page_size)
    ∧ ∀ j, j < GetTupleCount pg → i ≠ j → OwnsPayload pg j → SlotsDisjoint pg i j

instance (page_size : Nat) (pg : TablePage) (i : Nat) : Decidable (SlotOk page_size pg i) := by
  unfold SlotOk; infer_instance

/-- A well-formed page of `page_size` bytes: the directory ends at or below the
free space pointer, the free space pointer is inside the page, every slot that
owns payload (live or marked-deleted) has its bytes between the free space
pointer and the end of the page, and two such slots own disjoint ranges. -/
def WellFormed (page_size : Nat) (pg : TablePage) : Prop :=
  page_size < U32
  ∧ SIZE_TABLE_PAGE_HEADER + SIZE_SLOT * GetTupleCount pg ≤ GetFreeSpacePointer pg
  ∧ GetFreeSpacePointer pg ≤ page_size
  ∧ ∀ i, i < GetTupleCount pg → SlotOk page_size pg i

instance (page_size : Nat) (pg : TablePage) : Decidable (WellFormed page_size pg) := by
  unfold WellFormed; infer_instance

/-- The calling convention of the logging block: a non-null log manager comes
with a non-null transaction context. -/
def CtxOk (txn : Option TransactionContext) (log_manager : Option LogManager) : Prop :=
  log_manager.isSome = true → txn.isSome = true

instance (txn : Option TransactionContext) (log_manager : Option LogManager) :
    Decidable (CtxOk txn log_manager) := by
  unfold CtxOk; infer_instance

/-- Pages reachable from `Init(page_size)` by the five page operations, with
arbitrary arguments. -/
inductive Reachable (page_size : Nat) : TablePage → Prop where
  | init (pg : TablePage) (page_id prev_page_id : Nat) (txn : Option TransactionContext)
      (lm : Option LogManager) :
      Reachable page_size (Init pg page_id page_size prev_page_id txn lm)
  | insert {pg : TablePage} (tuple : Tuple) (txn : Option TransactionContext)
      (lm : Option LogManager) (r : InsertResult) :
      Reachable page_size pg → InsertTuple pg tuple txn lm = some r →
      Reachable page_size r.state.page
  | markDelete {pg : TablePage} (rid : RID) (txn : Option TransactionContext)
      (lm : Option LogManager) (r : BoolResult) :
      Reachable page_size pg → MarkDelete pg rid txn lm = some r →
      Reachable page_size r.state.page
  | update {pg : TablePage} (new_tuple old_tuple : Tuple) (rid : RID)
      (txn : Option TransactionContext) (lm : Option LogManager) (r : UpdateResult) :
      Reachable page_size pg → UpdateTuple pg new_tuple old_tuple rid txn lm = some r →
      Reachable page_size r.state.page
  | applyDelete {pg : TablePage} (rid : RID) (txn : Option TransactionContext)
      (lm : Option LogManager) (st : PageState) :
      Reachable page_size pg → ApplyDelete pg rid txn lm = some st →
      Reachable page_size st.page
  | rollbackDelete {pg : TablePage} (rid : RID) (txn : Option TransactionContext)
      (lm : Option LogManager) (st : PageState) :
      Reachable page_size pg → RollbackDelete pg rid txn lm = some st →
      Reachable page_size st.page

/-- Insert the tuples of a list one after the other into the same page,
collecting the returned flags. -/
def insertMany : PageState → List Tuple → Option (List Bool × PageState)
  | st, [] => some ([], st)
  | st, t :: ts =>
    match InsertTuple st.page t st.txn st.log_manager with
    | none => none
    | some r =>
      match insertMany r.state ts with
      | none => none
      | some (flags, st') => some (r.ok :: flags, st')

/-! ## Concrete pages and tuples used as test inputs -/

/-- A freshly initialised 4096-byte page with id 7 on zeroed memory. -/
def examplePage : TablePage := Init (fun _ => 0) 7 4096 INVALID_PAGE_ID none none

/-- An 8-byte tuple. -/
def exampleTuple : Tuple := ⟨true, RID.invalid, 8, [1, 2, 3, 4, 5, 6, 7, 8]⟩

/-- A 6-byte tuple. -/
def exampleTuple6 : Tuple := ⟨true, RID.invalid, 6, [9, 9, 9, 9, 9, 9]⟩

/-- A tuple of `n` bytes, all equal to `b`. -/
def constTuple (n : Nat) (b : Byte) : Tuple := ⟨true, RID.invalid, n, List.replicate n b⟩

/-- A freshly initialised 482-byte page with id 7: after one 200-byte insert it
has 250 free bytes. -/
def smallPage : TablePage := Init (fun _ => 0) 7 482 INVALID_PAGE_ID none none

/-- The page obtained by applying `InsertTuple` (without logging) to a page;
the page itself when the call aborts. -/
def pageAfterInsert (pg : TablePage) (t : Tuple) : TablePage :=
  match InsertTuple pg t none none with
  | some r => r.state.page
  | none => pg

/-- The page obtained by applying `UpdateTuple` (without logging) to a page;
the page itself when the call aborts. -/
def pageAfterUpdate (pg : TablePage) (t : Tuple) (rid : RID) : TablePage :=
  match UpdateTuple pg t Tuple.default rid none none with
  | some r => r.state.page
  | none => pg

/-! ## Calls that return a flag -/

/-- A call of one of the three page operations that return a flag. -/
inductive FlagCall where
  | insert (tuple : Tuple)
  | markDelete (rid : RID)
  | update (new_tuple old_tuple : Tuple) (rid : RID)

/-- Run a flag-returning call: the flag and the state left behind. -/
def FlagCall.run (pg : TablePage) (txn : Option TransactionContext)
    (log_manager : Option LogManager) : FlagCall → Option BoolResult
  | FlagCall.insert tuple =>
    (InsertTuple pg tuple txn log_manager).map (fun r => ⟨r.ok, r.state⟩)
  | FlagCall.markDelete rid => MarkDelete pg rid txn log_manager
  | FlagCall.update new_tuple old_tuple rid =>
    (UpdateTuple pg new_tuple old_tuple rid txn log_manager).map (fun r => ⟨r.ok, r.state⟩)

/-! ## Slot enumeration vocabulary -/

/-- Slot `i` of the directory holds a tuple that readers see: it is inside the
directory and its size is neither 0 (free) nor delete-marked. -/
def LiveAt (pg : TablePage) (i : Nat) : Prop :=
  i < GetTupleCount pg ∧ GetTupleSize pg i ≠ 0 ∧ GetTupleSize pg i < DELETE_MASK

instance (pg : TablePage) (i : Nat) : Decidable (LiveAt pg i) := by
  unfold LiveAt; infer_instance

/-- Slot `k` is the smallest slot at or after `start` that readers see. -/
def IsFirstLiveFrom (pg : TablePage) (start k : Nat) : Prop :=
  start ≤ k ∧ LiveAt pg k ∧ ∀ j, start ≤ j → j < k → ¬ LiveAt pg j

/-- No slot at or after `start` is one that readers see. -/
def NoLiveFrom (pg : TablePage) (start : Nat) : Prop :=
  ∀ j, start ≤ j → ¬ LiveAt pg j

/-- A 5-byte tuple. -/
def exampleTuple5 : Tuple := ⟨true, RID.invalid, 5, [21, 22, 23, 24, 25]⟩

/-- The 4096-byte page with id 7 after inserting the 8-byte, the 6-byte and the
5-byte example tuples, in slots 0, 1 and 2. -/
def threeTuplePage : TablePage :=
  pageAfterInsert (pageAfterInsert (pageAfterInsert examplePage exampleTuple) exampleTuple6)
    exampleTuple5

/-- The page obtained by applying `MarkDelete` (without logging) to a page; the
page itself when the call aborts. -/
def pageAfterMark (pg : TablePage) (rid : RID) : TablePage :=
  match MarkDelete pg rid none none with
  | some r => r.state.page
  | none => pg

/-! ## Space accounting vocabulary -/

/-- The sum `f 0 + f 1 + ... + f (n - 1)`. -/
def sumSlots (f : Nat → Nat) : Nat → Nat
  | 0 => 0
  | n + 1 => sumSlots f n + f n

/-- The bytes owned by the slots of the directory: the sum of the sizes with
the delete bit stripped (a free slot counts 0). -/
def usedBytes (pg : TablePage) : Nat :=
  sumSlots (fun i => trueSize (GetTupleSize pg i)) (GetTupleCount pg)

/-- The sum of the sizes of the live slots (size not 0 and delete bit clear). -/
def liveBytes (pg : TablePage) : Nat :=
  sumSlots (fun i => if GetTupleSize pg i < DELETE_MASK then GetTupleSize pg i else 0)
    (GetTupleCount pg)

/-- The state `st` carries the stamp of exactly one record of kind `ty` for
`rid`, appended to the log `l` on behalf of the transaction `t` as it was on
entry: the log manager is the one `AppendLogRecord` returned, its records are
the old ones followed by the new one, and the LSN returned for the record is
both the page header's LSN and the transaction's prev-LSN. -/
def Stamped (t : TransactionContext) (l : LogManager) (ty : LogRecordType) (rid : RID)
    (st : PageState) : Prop :=
  ∃ tuples : List Tuple,
    st.log_manager = some (l.AppendLogRecord ⟨t.txn_id, t.prev_lsn, ty, rid, tuples⟩).2
    ∧ (l.AppendLogRecord ⟨t.txn_id, t.prev_lsn, ty, rid, tuples⟩).2.records
        = l.records ++ [⟨t.txn_id, t.prev_lsn, ty, rid, tuples⟩]
    ∧ GetLSN st.page = (l.AppendLogRecord ⟨t.txn_id, t.prev_lsn, ty, rid, tuples⟩).1
    ∧ st.txn = some ⟨t.txn_id, (l.AppendLogRecord ⟨t.txn_id, t.prev_lsn, ty, rid, tuples⟩).1⟩

/-- A call of one of the five mutating page operations. -/
inductive PageOp where
  | insert (tuple : Tuple)
  | markDelete (rid : RID)
  | update (new_tuple old_tuple : Tuple) (rid : RID)
  | applyDelete (rid : RID)
  | rollbackDelete (rid : RID)

/-- What a mutating call leaves behind: whether it succeeded (the returned flag;
the two `void` operations succeed when they return), the rid it operated on
(its argument, or the rid `InsertTuple` wrote through its out-parameter) and the
state. -/
structure OpResult where
  ok : Bool
  rid : Option RID
  state : PageState

/-- Run a mutating call; `none` when an assertion of the operation fails. -/
def PageOp.run (pg : TablePage) (txn : Option TransactionContext)
    (log_manager : Option LogManager) : PageOp → Option OpResult
  | PageOp.insert tuple =>
    (InsertTuple pg tuple txn log_manager).map (fun r => ⟨r.ok, r.rid, r.state⟩)
  | PageOp.markDelete rid =>
    (MarkDelete pg rid txn log_manager).map (fun r => ⟨r.ok, some rid, r.state⟩)
  | PageOp.update new_tuple old_tuple rid =>
    (UpdateTuple pg new_tuple old_tuple rid txn log_manager).map
      (fun r => ⟨r.ok, some rid, r.state⟩)
  | PageOp.applyDelete rid =>
    (ApplyDelete pg rid txn log_manager).map (fun st => ⟨true, some rid, st⟩)
  | PageOp.rollbackDelete rid =>
    (RollbackDelete pg rid txn log_manager).map (fun st => ⟨true, some rid, st⟩)

/-- The kind of log record each operation constructs. -/
def PageOp.recordType : PageOp → LogRecordType
  | PageOp.insert _ => LogRecordType.INSERT
  | PageOp.markDelete _ => LogRecordType.MARKDELETE
  | PageOp.update _ _ _ => LogRecordType.UPDATE
  | PageOp.applyDelete _ => LogRecordType.APPLYDELETE
  | PageOp.rollbackDelete _ => LogRecordType.ROLLBACKDELETE

/-- The call is an `ApplyDelete`, the one operation that moves payload bytes
after it has stamped the LSN. -/
def PageOp.isApplyDelete : PageOp → Bool
  | PageOp.applyDelete _ => true
  | _ => false

/-! ## Order of effects inside an operation -/

/-- The kinds of effect of a mutating operation, as far as the order of logging
and page writes goes: a write to the header (other than the LSN), the slot
directory or the payload; `log_manager->AppendLogRecord(log)`; `SetLSN(lsn)`;
`txn->SetPrevLSN(lsn)`. -/
inductive EffectKind where
  | pageWrite
  | appendLog
  | stampLSN
  | setPrevLSN
deriving DecidableEq, Repr

/-- What a running operation works on: the state and its local variable `lsn`. -/
structure Frame where
  state : PageState
  lsn : Nat

/-- One effect: its kind and what it does. -/
structure Effect where
  kind : EffectKind
  run : Frame → Frame

/-- A statement that writes the page. -/
def Effect.write (f : TablePage → TablePage) : Effect :=
  ⟨EffectKind.pageWrite, fun fr => { fr with state := { fr.state with page := f fr.state.page } }⟩

/-- The statement `auto lsn = log_manager->AppendLogRecord(log)`, the record
being built from the current page and transaction. -/
def Effect.append (mk : TablePage → TransactionContext → LogRecord) : Effect :=
  ⟨EffectKind.appendLog, fun fr =>
    match fr.state.log_manager, fr.state.txn with
    | some lm, some t =>
      let r := lm.AppendLogRecord (mk fr.state.page t)
      ⟨{ fr.state with log_manager := some r.2 }, r.1⟩
    | _, _ => fr⟩

/-- The statement `SetLSN(lsn)`. -/
def Effect.stamp : Effect :=
  ⟨EffectKind.stampLSN,
    fun fr => { fr with state := { fr.state with page := SetLSN fr.state.page fr.lsn } }⟩

/-- The statement `txn->SetPrevLSN(lsn)`. -/
def Effect.prev : Effect :=
  ⟨EffectKind.setPrevLSN, fun fr =>
    { fr with state := { fr.state with txn := fr.state.txn.map (fun t => t.SetPrevLSN fr.lsn) } }⟩

/-- The statements of the logging block, in the order of the source; nothing
when the log manager is null. -/
def logEffects (log_manager : Option LogManager)
    (mk : TablePage → TransactionContext → LogRecord) : List Effect :=
  match log_manager with
  | none => []
  | some _ => [Effect.append mk, Effect.stamp, Effect.prev]

/-- Run a sequence of effects from left to right. -/
def runEffects : List Effect → Frame → Frame
  | [], fr => fr
  | e :: es, fr => runEffects es (e.run fr)

/-- The kinds of a sequence of effects, in order. -/
def effectKinds (es : List Effect) : List EffectKind := es.map (fun e => e.kind)

/-- The statements `InsertTuple` executes on `pg`, in the order of the source;
none on the two `return false` exits. -/
def InsertTupleEffects (pg : TablePage) (tuple : Tuple) (log_manager : Option LogManager) :
    List Effect :=
  if GetFreeSpaceRemaining pg < tuple.GetSize then []
  else
    let tuple_cnt := GetTupleCount pg
    let slot_id := findFreeSlot pg tuple_cnt tuple_cnt 0
    if slot_id = tuple_cnt ∧ GetFreeSpaceRemaining pg < add32 tuple.GetSize SIZE_SLOT then []
    else
      [Effect.write (fun p => SetFreeSpacePointer p (sub32 (GetFreeSpacePointer p) tuple.GetSize)),
        Effect.write (fun p => tuple.SerializeTo p (GetFreeSpacePointer p)),
        Effect.write (fun p => SetTupleOffset p slot_id (GetFreeSpacePointer p)),
        Effect.write (fun p => SetTupleSize p slot_id tuple.GetSize)]
      ++ (if slot_id = tuple_cnt then
            [Effect.write (fun p => SetTupleCount p (add32 tuple_cnt 1))] else [])
      ++ logEffects log_manager
          (fun p t => ⟨t.txn_id, t.prev_lsn, LogRecordType.INSERT, ⟨GetPageId p, slot_id⟩,
            [tuple]⟩)

/-- The statements `MarkDelete` executes on `pg`, in the order of the source;
none on the two `return false` exits and when the double-marking assertion
fails. -/
def MarkDeleteEffects (pg : TablePage) (rid : RID) (log_manager : Option LogManager) :
    List Effect :=
  let slot_id := rid.slot_id
  if slot_id ≥ GetTupleCount pg then []
  else
    let tuple_size := GetTupleSize pg slot_id
    if tuple_size = 0 then []
    else if IsDeleted tuple_size then []
    else
      logEffects log_manager
          (fun _ t => ⟨t.txn_id, t.prev_lsn, LogRecordType.MARKDELETE, rid, [Tuple.default]⟩)
      ++ [Effect.write (fun p => SetTupleSize p slot_id (SetDeletedFlag tuple_size))]

/-- The statements `UpdateTuple` executes on `pg`, in the order of the source;
none on the `return false` exits and when the double-marking assertion fails.
The fix-up loop counts as one page write. -/
def UpdateTupleEffects (pg : TablePage) (new_tuple old_tuple : Tuple) (rid : RID)
    (log_manager : Option LogManager) : List Effect :=
  let slot_id := rid.slot_id
  if slot_id ≥ GetTupleCount pg then []
  else
    let tuple_size := GetTupleSize pg slot_id
    if tuple_size = 0 then []
    else if IsDeleted tuple_size then []
    else if add32 (GetFreeSpaceRemaining pg) tuple_size < new_tuple.GetSize then []
    else
      let tuple_offset := GetTupleOffset pg slot_id
      let old_tuple := (old_tuple.DeserializeFromInplace pg tuple_offset tuple_size).SetRID rid
      let free_space_ptr := GetFreeSpacePointer pg
      [Effect.write (fun p => memmove p (free_space_ptr + tuple_size - new_tuple.GetSize)
          free_space_ptr (sub32 tuple_offset free_space_ptr)),
        Effect.write (fun p =>
          new_tuple.SerializeTo p (tuple_offset + tuple_size - new_tuple.GetSize)),
        Effect.write (fun p => SetTupleSize p slot_id new_tuple.GetSize),
        Effect.write (fun p => SetFreeSpacePointer p
          (sub32 (add32 free_space_ptr tuple_size) new_tuple.GetSize)),
        Effect.write (fun p => updateOffsets (GetTupleCount p) tuple_offset tuple_size
          new_tuple.GetSize (GetTupleCount p) 0 p)]
      ++ logEffects log_manager
          (fun _ t => ⟨t.txn_id, t.prev_lsn, LogRecordType.UPDATE, rid, [old_tuple, new_tuple]⟩)

/-- The statements `ApplyDelete` executes on `pg`, in the order of the source;
none when an assertion fails.  The local `free_space_ptr` is read after the
logging block, which leaves that header field as it was on entry.  The fix-up
loop counts as one page write. -/
def ApplyDeleteEffects (pg : TablePage) (rid : RID) (log_manager : Option LogManager) :
    List Effect :=
  let slot_id := rid.slot_id
  if ¬ (slot_id < GetTupleCount pg) then []
  else
    let tuple_offset := GetTupleOffset pg slot_id
    let tuple_size := GetTupleSize pg slot_id
    if ¬ IsValid tuple_size then []
    else
      let tuple_size := if IsDeleted tuple_size then UnsetDeletedFlag tuple_size else tuple_size
      let free_space_ptr := GetFreeSpacePointer pg
      logEffects log_manager
          (fun _ t => ⟨t.txn_id, t.prev_lsn, LogRecordType.APPLYDELETE, rid,
            [Tuple.DeserializeFromSized pg tuple_offset tuple_size]⟩)
      ++ [Effect.write (fun p => memmove p (free_space_ptr + tuple_size) free_space_ptr
            (sub32 tuple_offset free_space_ptr)),
          Effect.write (fun p => SetTupleSize p slot_id 0),
          Effect.write (fun p => SetTupleOffset p slot_id 0),
          Effect.write (fun p => SetFreeSpacePointer p (add32 free_space_ptr tuple_size)),
          Effect.write (fun p => deleteOffsets (GetTupleCount p) tuple_offset tuple_size
            (GetTupleCount p) 0 p)]

/-- The statements `RollbackDelete` executes on `pg`, in the order of the
source; none when an assertion fails. -/
def RollbackDeleteEffects (pg : TablePage) (rid : RID) (log_manager : Option LogManager) :
    List Effect :=
  let slot_id := rid.slot_id
  if ¬ (slot_id < GetTupleCount pg) then []
  else
    let tuple_size := GetTupleSize pg slot_id
    logEffects log_manager
        (fun _ t => ⟨t.txn_id, t.prev_lsn, LogRecordType.ROLLBACKDELETE, rid, [Tuple.default]⟩)
    ++ (if IsDeleted tuple_size then
          [Effect.write (fun p => SetTupleSize p slot_id (UnsetDeletedFlag tuple_size))]
        else [])

/-- The statements a mutating call executes. -/
def PageOp.effects (pg : TablePage) (log_manager : Option LogManager) : PageOp → List Effect
  | PageOp.insert tuple => InsertTupleEffects pg tuple log_manager
  | PageOp.markDelete rid => MarkDeleteEffects pg rid log_manager
  | PageOp.update new_tuple old_tuple rid => UpdateTupleEffects pg new_tuple old_tuple rid log_manager
  | PageOp.applyDelete rid => ApplyDeleteEffects pg rid log_manager
  | PageOp.rollbackDelete rid => RollbackDeleteEffects pg rid log_manager

/-- The operations whose source has the logging block before the page writes. -/
def PageOp.logsFirst : PageOp → Bool
  | PageOp.insert _ => false
  | PageOp.update _ _ _ => false
  | _ => true

/-- The log append precedes every page write of the sequence (the LSN stamp is
not a page write in this sense). -/
def AppendFirst (tr : List EffectKind) : Prop :=
  ∀ i, i < tr.length → tr.get? i = some EffectKind.pageWrite →
    EffectKind.appendLog ∈ tr.take i

instance (tr : List EffectKind) : Decidable (AppendFirst tr) := by
  unfold AppendFirst; infer_instance

/-- The sequence is a non-empty run of page writes followed by the logging
block: append, LSN stamp, prev-LSN update. -/
def WritesThenAppend (tr : List EffectKind) : Prop :=
  4 ≤ tr.length
  ∧ tr = List.replicate (tr.length - 3) EffectKind.pageWrite
      ++ [EffectKind.appendLog, EffectKind.stampLSN, EffectKind.setPrevLSN]

instance (tr : List EffectKind) : Decidable (WritesThenAppend tr) := by
  unfold WritesThenAppend; infer_instance

/-- The sequence is the logging block (append, LSN stamp, prev-LSN update)
followed by page writes only. -/
def AppendThenWrites (tr : List EffectKind) : Prop :=
  3 ≤ tr.length
  ∧ tr = [EffectKind.appendLog, EffectKind.stampLSN, EffectKind.setPrevLSN]
      ++ List.replicate (tr.length - 3) EffectKind.pageWrite

instance (tr : List EffectKind) : Decidable (AppendThenWrites tr) := by
  unfold AppendThenWrites; infer_instance

/-- The 4096-byte page with id 7 after inserting the 8-byte and the 6-byte
example tuples, in slots 0 and 1. -/
def twoTuplePage : TablePage :=
  pageAfterInsert (pageAfterInsert examplePage exampleTuple) exampleTuple6

/-! ## Raw memory lemmas -/

theorem get_u32_lt (m : RawMem) (a : Nat) : get_u32 m a < U32 := by
  unfold get_u32 U32
  have h0 := (m a).isLt
  have h1 := (m (a + 1)).isLt
  have h2 := (m (a + 2)).isLt
  have h3 := (m (a + 3)).isLt
  omega

theorem get_u32_congr (m m' : RawMem) (a : Nat)
    (h : ∀ x, a ≤ x → x < a + 4 → m' x = m x) : get_u32 m' a = get_u32 m a := by
  unfold get_u32
  rw [h a (by omega) (by omega), h (a + 1) (by omega) (by omega),
    h (a + 2) (by omega) (by omega), h (a + 3) (by omega) (by omega)]

theorem memcpy_outside (m : RawMem) (dst : Nat) (bs : List Byte) (x : Nat)
    (h : x < dst ∨ dst + bs.length ≤ x) : memcpy m dst bs x = m x := by
  unfold memcpy
  rw [if_neg (by omega)]

theorem memcpy_inside (m : RawMem) (dst : Nat) (bs : List Byte) (i : Nat)
    (h : i < bs.length) : memcpy m dst bs (dst + i) = bs.getD i 0 := by
  unfold memcpy
  rw [if_pos (by omega), Nat.add_sub_cancel_left]

theorem le32_length (v : Nat) : (le32 v).length = 4 := rfl

theorem set_u32_outside (m : RawMem) (a v x : Nat) (h : x < a ∨ a + 4 ≤ x) :
    set_u32 m a v x = m x := by
  unfold set_u32
  exact memcpy_outside m a (le32 v) x (by rw [le32_length]; exact h)

theorem get_u32_memcpy_le32 (m : RawMem) (a v : Nat) :
    get_u32 (memcpy m a (le32 v)) a = v % U32 := by
  have e0 : memcpy m a (le32 v) a = byteOf v := by
    have := memcpy_inside m a (le32 v) 0 (by simp [le32])
    simpa using this
  have e1 : memcpy m a (le32 v) (a + 1) = byteOf (v / 256) :=
    memcpy_inside m a (le32 v) 1 (by simp [le32])
  have e2 : memcpy m a (le32 v) (a + 2) = byteOf (v / 65536) :=
    memcpy_inside m a (le32 v) 2 (by simp [le32])
  have e3 : memcpy m a (le32 v) (a + 3) = byteOf (v / 16777216) :=
    memcpy_inside m a (le32 v) 3 (by simp [le32])
  unfold get_u32
  rw [e0, e1, e2, e3]
  simp only [byteOf, U32]
  omega

theorem get_set_u32_same (m : RawMem) (a v : Nat) : get_u32 (set_u32 m a v) a = v % U32 :=
  get_u32_memcpy_le32 m a v

theorem get_set_u32_disj (m : RawMem) (a b v : Nat) (h : b + 4 ≤ a ∨ a + 4 ≤ b) :
    get_u32 (set_u32 m a v) b = get_u32 m b := by
  apply get_u32_congr
  intro x h1 h2
  exact set_u32_outside m a v x (by omega)

theorem memmove_outside (m : RawMem) (dst src n x : Nat) (h : x < dst ∨ dst + n ≤ x) :
    memmove m dst src n x = m x := by
  unfold memmove
  rw [if_neg (by omega)]

theorem memmove_inside (m : RawMem) (dst src n i : Nat) (h : i < n) :
    memmove m dst src n (dst + i) = m (src + i) := by
  unfold memmove
  rw [if_pos (by omega), Nat.add_sub_cancel_left]

theorem readBytes_length (m : RawMem) (a n : Nat) : (readBytes m a n).length = n := by
  simp [readBytes]

theorem readBytes_congr (m m' : RawMem) (a n : Nat)
    (h : ∀ x, a ≤ x → x < a + n → m' x = m x) : readBytes m' a n = readBytes m a n := by
  unfold readBytes
  apply List.map_congr_left
  intro i hi
  rw [List.mem_range] at hi
  exact h (a + i) (by omega) (by omega)

theorem readBytes_memcpy (m : RawMem) (a : Nat) (bs : List Byte) :
    readBytes (memcpy m a bs) a bs.length = bs := by
  apply List.ext_getElem
  · simp [readBytes]
  · intro i h1 h2
    simp only [readBytes, List.getElem_map, List.getElem_range]
    rw [memcpy_inside m a bs i h2, List.getD_eq_getElem _ _ h2]

theorem readBytes_append (m : RawMem) (a n k : Nat) :
    readBytes m a (n + k) = readBytes m a n ++ readBytes m (a + n) k := by
  apply List.ext_getElem
  · simp [readBytes]
  · intro i h1 h2
    simp only [readBytes, List.getElem_map, List.getElem_range, List.getElem_append,
      List.length_map, List.length_range]
    split
    · rfl
    · congr 1; omega

theorem Tuple.payload_length (t : Tuple) : t.payload.length = t.size := by
  simp [Tuple.payload]

theorem Tuple.payload_eq_data (t : Tuple) (h : t.data.length = t.size) : t.payload = t.data := by
  apply List.ext_getElem
  · simp [Tuple.payload, h]
  · intro i h1 h2
    simp only [Tuple.payload, List.getElem_map, List.getElem_range]
    exact List.getD_eq_getElem _ _ h2

theorem SerializeTo_outside (t : Tuple) (m : RawMem) (a x : Nat)
    (h : x < a ∨ a + 4 + t.size ≤ x) : t.SerializeTo m a x = m x := by
  unfold Tuple.SerializeTo
  rw [memcpy_outside _ _ _ _ (by rw [Tuple.payload_length]; omega),
    memcpy_outside _ _ _ _ (by rw [le32_length]; omega)]

theorem SerializeTo_size (t : Tuple) (m : RawMem) (a : Nat) :
    readBytes (t.SerializeTo m a) a 4 = le32 t.size := by
  unfold Tuple.SerializeTo
  rw [readBytes_congr (memcpy m a (le32 t.size)) _ a 4
    (fun x h1 h2 => memcpy_outside _ _ _ _ (by omega))]
  exact readBytes_memcpy m a (le32 t.size)

theorem SerializeTo_payload (t : Tuple) (m : RawMem) (a : Nat) :
    readBytes (t.SerializeTo m a) (a + 4) t.size = t.payload := by
  unfold Tuple.SerializeTo
  have := readBytes_memcpy (memcpy m a (le32 t.size)) (a + 4) t.payload
  rwa [Tuple.payload_length] at this

theorem get_u32_SerializeTo (t : Tuple) (m : RawMem) (a : Nat) :
    get_u32 (t.SerializeTo m a) a = t.size % U32 := by
  unfold Tuple.SerializeTo
  rw [get_u32_congr (memcpy m a (le32 t.size)) _ a
    (fun x h1 h2 => memcpy_outside _ _ _ _ (by omega))]
  exact get_u32_memcpy_le32 m a t.size

/-! ## Tuple codec -/

/-- C4. Tuple codec round trip: for every tuple `t` holding `t.size` payload
bytes, `DeserializeFrom` applied to the buffer written by `t.SerializeTo` yields
a tuple with the same size, `allocated = true` and the same payload bytes; and
`SerializeTo` writes exactly the 4-byte little-endian size followed by the
payload bytes, leaving every other byte of the buffer as it was. -/
theorem tuple_codec_roundtrip (t : Tuple) (m : RawMem) (a : Nat) (hv : t.Valid) :
    (Tuple.DeserializeFrom (t.SerializeTo m a) a).size = t.size
    ∧ (Tuple.DeserializeFrom (t.SerializeTo m a) a).allocated = true
    ∧ (Tuple.DeserializeFrom (t.SerializeTo m a) a).data = t.data
    ∧ readBytes (t.SerializeTo m a) a (4 + t.size) = le32 t.size ++ t.data
    ∧ ∀ x, x < a ∨ a + 4 + t.size ≤ x → t.SerializeTo m a x = m x := by
  obtain ⟨hlt, hlen⟩ := hv
  have hsz : get_u32 (t.SerializeTo m a) a = t.size := by
    rw [get_u32_SerializeTo, Nat.mod_eq_of_lt hlt]
  refine ⟨?_, rfl, ?_, ?_, ?_⟩
  · simp only [Tuple.DeserializeFrom]; exact hsz
  · simp only [Tuple.DeserializeFrom]
    rw [hsz, SerializeTo_payload, Tuple.payload_eq_data t hlen]
  · rw [readBytes_append, SerializeTo_size, SerializeTo_payload, Tuple.payload_eq_data t hlen]
  · intro x hx
    exact SerializeTo_outside t m a x hx

/-- A concrete instance of the codec round trip: a 3-byte tuple written at
offset 10 of a zeroed buffer. -/
theorem tuple_codec_roundtrip_witness :
    (⟨true, RID.invalid, 3, [1, 2, 3]⟩ : Tuple).Valid
    ∧ (Tuple.DeserializeFrom
        ((⟨true, RID.invalid, 3, [1, 2, 3]⟩ : Tuple).SerializeTo (fun _ => 0) 10) 10).data
      = [1, 2, 3] :=
  ⟨by decide, (tuple_codec_roundtrip ⟨true, RID.invalid, 3, [1, 2, 3]⟩ (fun _ => 0) 10
    (by decide)).2.2.1⟩

/-! ## Logging block and slot search -/

theorem logBlock_frame (pg : TablePage) (txn : Option TransactionContext)
    (lm : Option LogManager) (mk : TransactionContext → LogRecord) (st : PageState)
    (h : logBlock pg txn lm mk = some st) : ∀ x, x < 4 ∨ 8 ≤ x → st.page x = pg x := by
  intro x hx
  unfold logBlock at h
  cases lm with
  | none =>
    simp only [Option.some.injEq] at h
    rw [← h]
  | some l =>
    cases txn with
    | none => simp at h
    | some t =>
      simp only [Option.some.injEq] at h
      rw [← h]
      exact set_u32_outside pg 4 _ x (by omega)

theorem logBlock_isSome (pg : TablePage) (txn : Option TransactionContext)
    (lm : Option LogManager) (mk : TransactionContext → LogRecord) (h : CtxOk txn lm) :
    ∃ st, logBlock pg txn lm mk = some st ∧ CtxOk st.txn st.log_manager := by
  unfold logBlock
  cases lm with
  | none => exact ⟨_, rfl, by simp [CtxOk]⟩
  | some l =>
    cases txn with
    | none => simp [CtxOk] at h
    | some t => exact ⟨_, rfl, by simp [CtxOk]⟩

theorem GetFreeSpaceRemaining_eq (pg : TablePage)
    (h : SIZE_TABLE_PAGE_HEADER + SIZE_SLOT * GetTupleCount pg ≤ GetFreeSpacePointer pg) :
    GetFreeSpaceRemaining pg = freeBytes pg := by
  have hlt : GetFreeSpacePointer pg < U32 := get_u32_lt pg 16
  unfold GetFreeSpaceRemaining freeBytes sub32 mul32
  simp only [SIZE_TABLE_PAGE_HEADER, SIZE_SLOT, U32] at *
  omega

theorem findFreeSlot_spec (pg : TablePage) (cnt : Nat) :
    ∀ fuel i, i + fuel = cnt →
      i ≤ findFreeSlot pg cnt fuel i ∧ findFreeSlot pg cnt fuel i ≤ cnt
      ∧ (∀ j, i ≤ j → j < findFreeSlot pg cnt fuel i → GetTupleSize pg j ≠ 0)
      ∧ (findFreeSlot pg cnt fuel i < cnt → GetTupleSize pg (findFreeSlot pg cnt fuel i) = 0) := by
  intro fuel
  induction fuel with
  | zero =>
    intro i hi
    simp only [findFreeSlot]
    refine ⟨by omega, le_refl _, fun j h1 h2 => by omega, fun h => by omega⟩
  | succ n ih =>
    intro i hi
    simp only [findFreeSlot]
    rw [if_pos (by omega)]
    by_cases hz : GetTupleSize pg i = 0
    · rw [if_pos hz]
      exact ⟨le_refl _, by omega, fun j h1 h2 => by omega, fun _ => hz⟩
    · rw [if_neg hz]
      obtain ⟨h1, h2, h3, h4⟩ := ih (i + 1) (by omega)
      refine ⟨by omega, h2, ?_, h4⟩
      intro j hj1 hj2
      by_cases hji : j = i
      · rw [hji]; exact hz
      · exact h3 j (by omega) hj2

theorem findFreeSlot_isFirst (pg : TablePage) :
    IsFirstFreeSlot pg (findFreeSlot pg (GetTupleCount pg) (GetTupleCount pg) 0) := by
  obtain ⟨_, h2, h3, h4⟩ := findFreeSlot_spec pg (GetTupleCount pg) (GetTupleCount pg) 0 (by omega)
  refine ⟨fun j hj _ => h3 j (Nat.zero_le _) hj, ?_⟩
  by_cases hk : findFreeSlot pg (GetTupleCount pg) (GetTupleCount pg) 0 < GetTupleCount pg
  · exact Or.inl ⟨hk, h4 hk⟩
  · right
    have hk' : findFreeSlot pg (GetTupleCount pg) (GetTupleCount pg) 0 = GetTupleCount pg := by
      omega
    refine ⟨hk', ?_⟩
    rintro ⟨i, hi, hz⟩
    exact h3 i (Nat.zero_le _) (by omega) hz

theorem IsFirstFreeSlot_unique (pg : TablePage) (k k' : Nat)
    (h : IsFirstFreeSlot pg k) (h' : IsFirstFreeSlot pg k') : k = k' := by
  obtain ⟨h1, h2⟩ := h
  obtain ⟨h1', h2'⟩ := h'
  rcases h2 with ⟨a, b⟩ | ⟨a, b⟩ <;> rcases h2' with ⟨a', b'⟩ | ⟨a', b'⟩
  · by_contra hne
    rcases Nat.lt_or_gt_of_ne hne with hlt | hgt
    · exact h1' k hlt a b
    · exact h1 k' hgt a' b'
  · exact absurd ⟨k, a, b⟩ b'
  · exact absurd ⟨k', a', b'⟩ b
  · omega



/-! ## InsertTuple: inversion -/

theorem get_u32_SerializeTo_disj (t : Tuple) (m : RawMem) (a b : Nat)
    (h : b + 4 ≤ a ∨ a + 4 + t.size ≤ b) : get_u32 (t.SerializeTo m a) b = get_u32 m b := by
  apply get_u32_congr
  intro x h1 h2
  exact SerializeTo_outside t m a x (by omega)

theorem get_u32_memmove_disj (m : RawMem) (dst src n b : Nat)
    (h : b + 4 ≤ dst ∨ dst + n ≤ b) : get_u32 (memmove m dst src n) b = get_u32 m b := by
  apply get_u32_congr
  intro x h1 h2
  exact memmove_outside m dst src n x (by omega)

theorem logBlock_ne_none (pg : TablePage) (txn : Option TransactionContext)
    (lm : Option LogManager) (mk : TransactionContext → LogRecord) (h : CtxOk txn lm) :
    logBlock pg txn lm mk ≠ none := by
  obtain ⟨st, hst, _⟩ := logBlock_isSome pg txn lm mk h
  rw [hst]; simp

/-- Inversion of `InsertTuple`: a result is either one of the two early
`return false` exits, which leave everything as it was, or the success exit. -/
theorem InsertTuple_inv (pg : TablePage) (tuple : Tuple) (txn : Option TransactionContext)
    (lm : Option LogManager) (r : InsertResult) (h : InsertTuple pg tuple txn lm = some r) :
    0 < tuple.size ∧
    ((r.ok = false ∧ r.rid = none ∧ r.state.page = pg ∧ r.state.txn = txn
        ∧ r.state.log_manager = lm
        ∧ (GetFreeSpaceRemaining pg < tuple.size
          ∨ (findFreeSlot pg (GetTupleCount pg) (GetTupleCount pg) 0 = GetTupleCount pg
            ∧ GetFreeSpaceRemaining pg < add32 tuple.size SIZE_SLOT)))
    ∨ (r.ok = true ∧ ¬ GetFreeSpaceRemaining pg < tuple.size
        ∧ ¬ (findFreeSlot pg (GetTupleCount pg) (GetTupleCount pg) 0 = GetTupleCount pg
            ∧ GetFreeSpaceRemaining pg < add32 tuple.size SIZE_SLOT)
        ∧ r.rid = some ⟨GetPageId (insertWrites pg tuple
            (findFreeSlot pg (GetTupleCount pg) (GetTupleCount pg) 0)),
            findFreeSlot pg (GetTupleCount pg) (GetTupleCount pg) 0⟩
        ∧ ∃ mk, logBlock (insertPage pg tuple
            (findFreeSlot pg (GetTupleCount pg) (GetTupleCount pg) 0) (GetTupleCount pg))
            txn lm mk = some r.state)) := by
  unfold InsertTuple at h
  simp only [Tuple.GetSize, gt_iff_lt] at h
  by_cases hpos : 0 < tuple.size
  · refine ⟨hpos, ?_⟩
    simp only [hpos, not_true_eq_false, if_false] at h
    by_cases h1 : GetFreeSpaceRemaining pg < tuple.size
    · left
      rw [if_pos h1] at h
      simp only [Option.some.injEq] at h
      subst h
      exact ⟨rfl, rfl, rfl, rfl, rfl, Or.inl h1⟩
    · rw [if_neg h1] at h
      by_cases h2 : findFreeSlot pg (GetTupleCount pg) (GetTupleCount pg) 0 = GetTupleCount pg
          ∧ GetFreeSpaceRemaining pg < add32 tuple.size SIZE_SLOT
      · left
        rw [if_pos h2] at h
        simp only [Option.some.injEq] at h
        subst h
        exact ⟨rfl, rfl, rfl, rfl, rfl, Or.inr h2⟩
      · right
        rw [if_neg h2] at h
        split at h
        · exact absurd h (by simp)
        · rename_i st hst
          simp only [Option.some.injEq] at h
          subst h
          exact ⟨rfl, h1, h2, rfl, _, hst⟩
  · simp only [hpos, not_false_eq_true, if_true] at h
    exact absurd h (by simp)

theorem InsertTuple_isSome (pg : TablePage) (tuple : Tuple) (txn : Option TransactionContext)
    (lm : Option LogManager) (hpos : 0 < tuple.size) (hctx : CtxOk txn lm) :
    ∃ r, InsertTuple pg tuple txn lm = some r := by
  unfold InsertTuple
  simp only [Tuple.GetSize, gt_iff_lt, hpos, not_true_eq_false, if_false]
  split
  · exact ⟨_, rfl⟩
  · split
    · exact ⟨_, rfl⟩
    · split
      · rename_i hnone
        exact absurd hnone (logBlock_ne_none _ _ _ _ hctx)
      · exact ⟨_, rfl⟩


/-! ## InsertTuple: the page after a successful insert -/

/-- Normal form of the writes of a successful insert, under the fit check. -/
theorem insertWrites_eq (pg : TablePage) (tuple : Tuple) (k : Nat)
    (hfit : tuple.size + 24 ≤ GetFreeSpacePointer pg) :
    insertWrites pg tuple k =
      set_u32 (set_u32 (tuple.SerializeTo
        (set_u32 pg 16 (GetFreeSpacePointer pg - tuple.size))
        (GetFreeSpacePointer pg - tuple.size)) (slotEntry k)
        (GetFreeSpacePointer pg - tuple.size)) (slotEntry k + 4) tuple.size := by
  have hlt : GetFreeSpacePointer pg < U32 := get_u32_lt pg 16
  have e0 : sub32 (GetFreeSpacePointer pg) tuple.size = GetFreeSpacePointer pg - tuple.size := by
    unfold sub32; simp only [U32] at *; omega
  unfold insertWrites
  simp only [Tuple.GetSize, e0]
  have hf : 24 ≤ GetFreeSpacePointer pg - tuple.size
      ∧ GetFreeSpacePointer pg - tuple.size < U32 := by omega
  clear hfit hlt e0
  generalize GetFreeSpacePointer pg - tuple.size = f at *
  have e1 : GetFreeSpacePointer (SetFreeSpacePointer pg f) = f := by
    unfold GetFreeSpacePointer SetFreeSpacePointer
    rw [get_set_u32_same]
    exact Nat.mod_eq_of_lt hf.2
  have e2 : GetFreeSpacePointer (tuple.SerializeTo (SetFreeSpacePointer pg f) f) = f := by
    unfold GetFreeSpacePointer
    rw [get_u32_SerializeTo_disj _ _ _ _ (by omega)]
    exact e1
  simp only [e1, e2]
  rfl

/-- Bytes of the page after a successful insert, below the new free space
pointer: only the free space pointer, the tuple count and the chosen slot
entry have changed. -/
theorem insertPage_low (pg : TablePage) (tuple : Tuple) (k : Nat)
    (hfit : tuple.size + 24 ≤ GetFreeSpacePointer pg) (x : Nat)
    (hx : x < GetFreeSpacePointer pg - tuple.size) (h16 : x < 16 ∨ 24 ≤ x)
    (hk : x < slotEntry k ∨ slotEntry k + 8 ≤ x) :
    insertPage pg tuple k (GetTupleCount pg) x = pg x := by
  have hw : insertWrites pg tuple k x = pg x := by
    rw [insertWrites_eq pg tuple k hfit, set_u32_outside _ _ _ _ (by omega),
      set_u32_outside _ _ _ _ (by omega), SerializeTo_outside _ _ _ _ (by omega),
      set_u32_outside _ _ _ _ (by omega)]
  unfold insertPage
  split
  · unfold SetTupleCount
    rw [set_u32_outside _ _ _ _ (by omega), hw]
  · exact hw

/-- Bytes of the page after a successful insert, from the new free space
pointer on: what `SerializeTo` wrote there. -/
theorem insertPage_high (pg : TablePage) (tuple : Tuple) (k : Nat)
    (hfit : tuple.size + 24 ≤ GetFreeSpacePointer pg)
    (hk : slotEntry k + 8 ≤ GetFreeSpacePointer pg - tuple.size) (x : Nat)
    (hx : GetFreeSpacePointer pg - tuple.size ≤ x) :
    insertPage pg tuple k (GetTupleCount pg) x
      = tuple.SerializeTo pg (GetFreeSpacePointer pg - tuple.size) x := by
  have hs : tuple.SerializeTo (set_u32 pg 16 (GetFreeSpacePointer pg - tuple.size))
      (GetFreeSpacePointer pg - tuple.size) x
      = tuple.SerializeTo pg (GetFreeSpacePointer pg - tuple.size) x := by
    unfold Tuple.SerializeTo memcpy
    split
    · rfl
    · split
      · rfl
      · exact set_u32_outside _ _ _ _ (by omega)
  have hw : insertWrites pg tuple k x
      = tuple.SerializeTo pg (GetFreeSpacePointer pg - tuple.size) x := by
    rw [insertWrites_eq pg tuple k hfit, set_u32_outside _ _ _ _ (by omega),
      set_u32_outside _ _ _ _ (by omega), hs]
  unfold insertPage
  split
  · unfold SetTupleCount
    rw [set_u32_outside _ _ _ _ (by omega), hw]
  · exact hw

theorem insertPage_fsp (pg : TablePage) (tuple : Tuple) (k : Nat)
    (hfit : tuple.size + 24 ≤ GetFreeSpacePointer pg)
    (hk : slotEntry k + 8 ≤ GetFreeSpacePointer pg - tuple.size) :
    GetFreeSpacePointer (insertPage pg tuple k (GetTupleCount pg))
      = GetFreeSpacePointer pg - tuple.size := by
  have hlt : GetFreeSpacePointer pg < U32 := get_u32_lt pg 16
  have hw : GetFreeSpacePointer (insertWrites pg tuple k)
      = GetFreeSpacePointer pg - tuple.size := by
    rw [insertWrites_eq pg tuple k hfit]
    unfold slotEntry SIZE_TABLE_PAGE_HEADER SIZE_SLOT at *
    show get_u32 _ 16 = _
    rw [get_set_u32_disj _ _ _ _ (by omega), get_set_u32_disj _ _ _ _ (by omega),
      get_u32_SerializeTo_disj _ _ _ _ (by omega), get_set_u32_same]
    apply Nat.mod_eq_of_lt
    omega
  unfold insertPage
  split
  · rw [← hw]
    show get_u32 (set_u32 _ 20 _) 16 = _
    exact get_set_u32_disj _ _ _ _ (by omega)
  · exact hw

theorem insertPage_count (pg : TablePage) (tuple : Tuple) (k : Nat)
    (hfit : tuple.size + 24 ≤ GetFreeSpacePointer pg)
    (hdir : SIZE_TABLE_PAGE_HEADER + SIZE_SLOT * GetTupleCount pg ≤ GetFreeSpacePointer pg)
    (hk : slotEntry k + 8 ≤ GetFreeSpacePointer pg - tuple.size) :
    GetTupleCount (insertPage pg tuple k (GetTupleCount pg))
      = if k = GetTupleCount pg then GetTupleCount pg + 1 else GetTupleCount pg := by
  have hlt : GetFreeSpacePointer pg < U32 := get_u32_lt pg 16
  unfold insertPage
  split
  · unfold GetTupleCount SetTupleCount
    rw [get_set_u32_same]
    unfold add32
    rw [Nat.mod_mod]
    apply Nat.mod_eq_of_lt
    unfold GetTupleCount SIZE_TABLE_PAGE_HEADER SIZE_SLOT U32 at *
    omega
  · rw [insertWrites_eq pg tuple k hfit]
    unfold slotEntry SIZE_TABLE_PAGE_HEADER SIZE_SLOT at *
    unfold GetTupleCount
    rw [get_set_u32_disj _ _ _ _ (by omega), get_set_u32_disj _ _ _ _ (by omega),
      get_u32_SerializeTo_disj _ _ _ _ (by omega), get_set_u32_disj _ _ _ _ (by omega)]

theorem insertPage_slot (pg : TablePage) (tuple : Tuple) (k : Nat)
    (hfit : tuple.size + 24 ≤ GetFreeSpacePointer pg) :
    GetTupleOffset (insertPage pg tuple k (GetTupleCount pg)) k
        = GetFreeSpacePointer pg - tuple.size
    ∧ GetTupleSize (insertPage pg tuple k (GetTupleCount pg)) k = tuple.size := by
  have hlt : GetFreeSpacePointer pg < U32 := get_u32_lt pg 16
  have hw : GetTupleOffset (insertWrites pg tuple k) k = GetFreeSpacePointer pg - tuple.size
      ∧ GetTupleSize (insertWrites pg tuple k) k = tuple.size := by
    rw [insertWrites_eq pg tuple k hfit]
    unfold GetTupleOffset GetTupleSize
    constructor
    · rw [get_set_u32_disj _ _ _ _ (by omega), get_set_u32_same]
      apply Nat.mod_eq_of_lt; omega
    · rw [get_set_u32_same]
      apply Nat.mod_eq_of_lt; omega
  unfold insertPage
  split
  · rw [← hw.1, ← hw.2]
    unfold GetTupleOffset GetTupleSize SetTupleCount
    unfold slotEntry SIZE_TABLE_PAGE_HEADER SIZE_SLOT at *
    exact ⟨get_set_u32_disj _ _ _ _ (by omega), get_set_u32_disj _ _ _ _ (by omega)⟩
  · exact hw

theorem insertPage_other (pg : TablePage) (tuple : Tuple) (k i : Nat)
    (hfit : tuple.size + 24 ≤ GetFreeSpacePointer pg)
    (hi : slotEntry i + 8 ≤ GetFreeSpacePointer pg - tuple.size) (hik : i ≠ k) :
    GetTupleOffset (insertPage pg tuple k (GetTupleCount pg)) i = GetTupleOffset pg i
    ∧ GetTupleSize (insertPage pg tuple k (GetTupleCount pg)) i = GetTupleSize pg i := by
  unfold GetTupleOffset GetTupleSize
  unfold slotEntry SIZE_TABLE_PAGE_HEADER SIZE_SLOT at *
  constructor
  · apply get_u32_congr
    intro x h1 h2
    exact insertPage_low pg tuple k hfit x (by omega) (by omega)
      (by unfold slotEntry SIZE_TABLE_PAGE_HEADER SIZE_SLOT; omega)
  · apply get_u32_congr
    intro x h1 h2
    exact insertPage_low pg tuple k hfit x (by omega) (by omega)
      (by unfold slotEntry SIZE_TABLE_PAGE_HEADER SIZE_SLOT; omega)

theorem insertPage_pageId (pg : TablePage) (tuple : Tuple) (k : Nat)
    (hfit : tuple.size + 24 ≤ GetFreeSpacePointer pg) :
    GetPageId (insertPage pg tuple k (GetTupleCount pg)) = GetPageId pg
    ∧ GetPageId (insertWrites pg tuple k) = GetPageId pg := by
  unfold GetPageId
  constructor
  · apply get_u32_congr
    intro x h1 h2
    exact insertPage_low pg tuple k hfit x (by omega) (by omega)
      (by unfold slotEntry SIZE_TABLE_PAGE_HEADER SIZE_SLOT; omega)
  · rw [insertWrites_eq pg tuple k hfit]
    unfold slotEntry SIZE_TABLE_PAGE_HEADER SIZE_SLOT
    rw [get_set_u32_disj _ _ _ _ (by omega), get_set_u32_disj _ _ _ _ (by omega),
      get_u32_SerializeTo_disj _ _ _ _ (by omega), get_set_u32_disj _ _ _ _ (by omega)]


/-! ## InsertTuple: effect of a successful insert -/

/-- Two pages that differ at most in the LSN field have the same page id, free
space pointer, tuple count and slot directory. -/
theorem fields_of_lsn_frame (pg pg' : TablePage)
    (h : ∀ x, x < 4 ∨ 8 ≤ x → pg' x = pg x) :
    GetPageId pg' = GetPageId pg
    ∧ GetFreeSpacePointer pg' = GetFreeSpacePointer pg
    ∧ GetTupleCount pg' = GetTupleCount pg
    ∧ (∀ i, GetTupleOffset pg' i = GetTupleOffset pg i)
    ∧ (∀ i, GetTupleSize pg' i = GetTupleSize pg i) := by
  refine ⟨?_, ?_, ?_, ?_, ?_⟩
  · exact get_u32_congr _ _ _ (fun x h1 h2 => h x (by omega))
  · exact get_u32_congr _ _ _ (fun x h1 h2 => h x (by omega))
  · exact get_u32_congr _ _ _ (fun x h1 h2 => h x (by omega))
  · intro i
    exact get_u32_congr _ _ _ (fun x h1 h2 => h x (by
      unfold slotEntry SIZE_TABLE_PAGE_HEADER SIZE_SLOT at h1; omega))
  · intro i
    exact get_u32_congr _ _ _ (fun x h1 h2 => h x (by
      unfold slotEntry SIZE_TABLE_PAGE_HEADER SIZE_SLOT at h1; omega))

/-- What a successful `InsertTuple` does to a page whose directory ends at or
below the free space pointer. -/
theorem InsertTuple_true_spec (pg : TablePage) (tuple : Tuple)
    (txn : Option TransactionContext) (lm : Option LogManager) (r : InsertResult)
    (hdir : SIZE_TABLE_PAGE_HEADER + SIZE_SLOT * GetTupleCount pg ≤ GetFreeSpacePointer pg)
    (h : InsertTuple pg tuple txn lm = some r) (hok : r.ok = true) :
    tuple.size ≤ freeBytes pg
    ∧ (findFreeSlot pg (GetTupleCount pg) (GetTupleCount pg) 0 = GetTupleCount pg →
        tuple.size + 8 ≤ freeBytes pg)
    ∧ r.rid = some ⟨GetPageId pg, findFreeSlot pg (GetTupleCount pg) (GetTupleCount pg) 0⟩
    ∧ GetPageId r.state.page = GetPageId pg
    ∧ GetFreeSpacePointer r.state.page = GetFreeSpacePointer pg - tuple.size
    ∧ GetTupleCount r.state.page
        = (if findFreeSlot pg (GetTupleCount pg) (GetTupleCount pg) 0 = GetTupleCount pg
            then GetTupleCount pg + 1 else GetTupleCount pg)
    ∧ GetTupleOffset r.state.page (findFreeSlot pg (GetTupleCount pg) (GetTupleCount pg) 0)
        = GetFreeSpacePointer pg - tuple.size
    ∧ GetTupleSize r.state.page (findFreeSlot pg (GetTupleCount pg) (GetTupleCount pg) 0)
        = tuple.size
    ∧ (∀ i, i < GetTupleCount pg →
        i ≠ findFreeSlot pg (GetTupleCount pg) (GetTupleCount pg) 0 →
        GetTupleOffset r.state.page i = GetTupleOffset pg i
        ∧ GetTupleSize r.state.page i = GetTupleSize pg i)
    ∧ (∀ x, GetFreeSpacePointer pg - tuple.size ≤ x →
        r.state.page x = tuple.SerializeTo pg (GetFreeSpacePointer pg - tuple.size) x) := by
  obtain ⟨hpos, hcase⟩ := InsertTuple_inv pg tuple txn lm r h
  rcases hcase with ⟨hf, _⟩ | ⟨_, h1, h2, hrid, mk, hlog⟩
  · rw [hok] at hf; exact absurd hf (by simp)
  have hfree := GetFreeSpaceRemaining_eq pg hdir
  have hlt : GetFreeSpacePointer pg < U32 := get_u32_lt pg 16
  have hU : U32 = 4294967296 := rfl
  obtain ⟨_, hkle, _, _⟩ :=
    findFreeSlot_spec pg (GetTupleCount pg) (GetTupleCount pg) 0 (by omega)
  generalize findFreeSlot pg (GetTupleCount pg) (GetTupleCount pg) 0 = k at *
  rw [hfree] at h1 h2
  have hfb : freeBytes pg + (24 + 8 * GetTupleCount pg) = GetFreeSpacePointer pg := by
    unfold freeBytes SIZE_TABLE_PAGE_HEADER SIZE_SLOT at *; omega
  have hs1 : tuple.size ≤ freeBytes pg := by omega
  have hs2 : k = GetTupleCount pg → tuple.size + 8 ≤ freeBytes pg := by
    intro hk
    have : ¬ freeBytes pg < add32 tuple.size SIZE_SLOT := fun hc => h2 ⟨hk, hc⟩
    unfold add32 SIZE_SLOT at this
    rw [hU] at this
    omega
  have hfit : tuple.size + 24 ≤ GetFreeSpacePointer pg := by omega
  have hke : slotEntry k + 8 ≤ GetFreeSpacePointer pg - tuple.size := by
    unfold slotEntry SIZE_TABLE_PAGE_HEADER SIZE_SLOT
    by_cases hk : k = GetTupleCount pg
    · have := hs2 hk; omega
    · omega
  have hfr := logBlock_frame _ _ _ _ _ hlog
  obtain ⟨f1, f2, f3, f4, f5⟩ := fields_of_lsn_frame _ _ hfr
  obtain ⟨p1, p2⟩ := insertPage_pageId pg tuple k hfit
  obtain ⟨s1, s2⟩ := insertPage_slot pg tuple k hfit
  refine ⟨hs1, hs2, ?_, ?_, ?_, ?_, ?_, ?_, ?_, ?_⟩
  · rw [hrid, p2]
  · rw [f1, p1]
  · rw [f2, insertPage_fsp pg tuple k hfit hke]
  · rw [f3, insertPage_count pg tuple k hfit hdir hke]
  · rw [f4, s1]
  · rw [f5, s2]
  · intro i hi hik
    rw [f4, f5]
    exact insertPage_other pg tuple k i hfit (by
      unfold slotEntry SIZE_TABLE_PAGE_HEADER SIZE_SLOT; omega) hik
  · intro x hx
    rw [hfr x (by omega)]
    exact insertPage_high pg tuple k hfit hke x hx


/-! ## InsertTuple: fit check -/

/-- The fit check of `InsertTuple` in terms of the free bytes. -/
theorem InsertTuple_ok_iff (pg : TablePage) (tuple : Tuple)
    (txn : Option TransactionContext) (lm : Option LogManager) (r : InsertResult)
    (hdir : SIZE_TABLE_PAGE_HEADER + SIZE_SLOT * GetTupleCount pg ≤ GetFreeSpacePointer pg)
    (h : InsertTuple pg tuple txn lm = some r) :
    r.ok = true ↔
      (tuple.size ≤ freeBytes pg
        ∧ (findFreeSlot pg (GetTupleCount pg) (GetTupleCount pg) 0 = GetTupleCount pg →
          tuple.size + 8 ≤ freeBytes pg)) := by
  constructor
  · intro hok
    obtain ⟨h1, h2, _⟩ := InsertTuple_true_spec pg tuple txn lm r hdir h hok
    exact ⟨h1, h2⟩
  · rintro ⟨h1, h2⟩
    obtain ⟨_, hcase⟩ := InsertTuple_inv pg tuple txn lm r h
    rcases hcase with ⟨_, _, _, _, _, hf⟩ | ⟨hok, _⟩
    · exfalso
      rw [GetFreeSpaceRemaining_eq pg hdir] at hf
      have hU : U32 = 4294967296 := rfl
      rcases hf with hf | ⟨hk, hf⟩
      · omega
      · have := h2 hk
        have hle : add32 tuple.size SIZE_SLOT ≤ tuple.size + 8 := by
          unfold add32 SIZE_SLOT; exact Nat.mod_le _ _
        omega
    · exact hok

theorem findFreeSlot_eq_count_iff (pg : TablePage) :
    findFreeSlot pg (GetTupleCount pg) (GetTupleCount pg) 0 = GetTupleCount pg
      ↔ ¬ HasFreeSlot pg := by
  obtain ⟨_, h2⟩ := findFreeSlot_isFirst pg
  constructor
  · intro hk
    rcases h2 with ⟨a, _⟩ | ⟨_, b⟩
    · omega
    · exact b
  · intro hn
    rcases h2 with ⟨a, b⟩ | ⟨a, _⟩
    · exact absurd ⟨_, a, b⟩ hn
    · exact a

/-- C5. Insert fit check: on a well-formed page, for a tuple of size `s > 0`,
`InsertTuple` returns a result, and it returns `true` exactly when either some
slot of the directory is free and `free_bytes ≥ s`, or no slot is free and
`free_bytes ≥ s + 8`.  In particular a tuple of exactly `free_bytes` bytes
succeeds when a free slot exists, and a tuple of `free_bytes - 1` bytes fails
when a new slot is needed. -/
theorem insert_fit_check (page_size : Nat) (pg : TablePage) (tuple : Tuple)
    (txn : Option TransactionContext) (lm : Option LogManager)
    (hwf : WellFormed page_size pg) (hpos : 0 < tuple.size) (hctx : CtxOk txn lm) :
    ∃ r, InsertTuple pg tuple txn lm = some r
      ∧ (r.ok = true ↔
          (HasFreeSlot pg ∧ tuple.size ≤ freeBytes pg)
          ∨ (¬ HasFreeSlot pg ∧ tuple.size + 8 ≤ freeBytes pg))
      ∧ (HasFreeSlot pg → tuple.size = freeBytes pg → r.ok = true)
      ∧ (¬ HasFreeSlot pg → tuple.size + 1 = freeBytes pg → r.ok = false) := by
  obtain ⟨r, hr⟩ := InsertTuple_isSome pg tuple txn lm hpos hctx
  have hiff := InsertTuple_ok_iff pg tuple txn lm r hwf.2.1 hr
  rw [findFreeSlot_eq_count_iff] at hiff
  have hmain : r.ok = true ↔
      (HasFreeSlot pg ∧ tuple.size ≤ freeBytes pg)
      ∨ (¬ HasFreeSlot pg ∧ tuple.size + 8 ≤ freeBytes pg) := by
    rw [hiff]
    by_cases hf : HasFreeSlot pg
    · simp only [hf, not_true_eq_false, false_implies, and_true, true_and, false_and, or_false]
    · simp only [hf, not_false_eq_true, true_implies, false_and, true_and, false_or]
      constructor
      · exact fun h => h.2
      · exact fun h => ⟨by omega, h⟩
  refine ⟨r, hr, hmain, ?_, ?_⟩
  · intro hf hs
    exact hmain.2 (Or.inl ⟨hf, by omega⟩)
  · intro hf hs
    cases hok : r.ok with
    | false => rfl
    | true =>
      rcases hmain.1 hok with ⟨a, _⟩ | ⟨_, b⟩
      · exact absurd a hf
      · omega


/-! ## Init and inserts into a page without free slots -/

theorem logBlock_ctx (pg : TablePage) (txn : Option TransactionContext)
    (lm : Option LogManager) (mk : TransactionContext → LogRecord) (st : PageState)
    (h : logBlock pg txn lm mk = some st) : CtxOk st.txn st.log_manager := by
  unfold logBlock at h
  cases lm with
  | none =>
    simp only [Option.some.injEq] at h
    rw [← h]; simp [CtxOk]
  | some l =>
    cases txn with
    | none => simp at h
    | some t =>
      simp only [Option.some.injEq] at h
      rw [← h]; simp [CtxOk]

theorem InsertTuple_ctx (pg : TablePage) (tuple : Tuple) (txn : Option TransactionContext)
    (lm : Option LogManager) (r : InsertResult) (hctx : CtxOk txn lm)
    (h : InsertTuple pg tuple txn lm = some r) : CtxOk r.state.txn r.state.log_manager := by
  obtain ⟨_, hcase⟩ := InsertTuple_inv pg tuple txn lm r h
  rcases hcase with ⟨_, _, _, h1, h2, _⟩ | ⟨_, _, _, _, mk, hlog⟩
  · rw [h1, h2]; exact hctx
  · exact logBlock_ctx _ _ _ _ _ hlog

theorem Init_fields (pg : TablePage) (page_id page_size prev_page_id : Nat)
    (txn : Option TransactionContext) (lm : Option LogManager) :
    GetPageId (Init pg page_id page_size prev_page_id txn lm) = page_id % U32
    ∧ GetFreeSpacePointer (Init pg page_id page_size prev_page_id txn lm) = page_size % U32
    ∧ GetTupleCount (Init pg page_id page_size prev_page_id txn lm) = 0 := by
  unfold Init SetPageId SetPrevPageId SetNextPageId SetFreeSpacePointer SetTupleCount
  refine ⟨?_, ?_, ?_⟩
  · show get_u32 _ 0 = _
    rw [get_set_u32_disj _ _ _ _ (by omega), get_set_u32_disj _ _ _ _ (by omega),
      get_set_u32_disj _ _ _ _ (by omega), get_set_u32_disj _ _ _ _ (by omega),
      get_set_u32_same]
  · show get_u32 _ 16 = _
    rw [get_set_u32_disj _ _ _ _ (by omega), get_set_u32_same]
  · show get_u32 _ 20 = _
    rw [get_set_u32_same]; rfl

theorem Init_wf (pg : TablePage) (page_id page_size prev_page_id : Nat)
    (txn : Option TransactionContext) (lm : Option LogManager)
    (h24 : 24 ≤ page_size) (hP : page_size < U32) :
    WellFormed page_size (Init pg page_id page_size prev_page_id txn lm) := by
  obtain ⟨_, h2, h3⟩ := Init_fields pg page_id page_size prev_page_id txn lm
  rw [Nat.mod_eq_of_lt hP] at h2
  refine ⟨hP, ?_, ?_, ?_⟩
  · rw [h2, h3]; unfold SIZE_TABLE_PAGE_HEADER SIZE_SLOT; omega
  · rw [h2]
  · intro i hi
    rw [h3] at hi
    omega

/-- Inserting into a page without free slots: the tuple goes to slot
`tuple_count`, and the page still has no free slot afterwards. -/
theorem InsertTuple_dense (pg : TablePage) (tuple : Tuple) (txn : Option TransactionContext)
    (lm : Option LogManager) (r : InsertResult)
    (hdir : SIZE_TABLE_PAGE_HEADER + SIZE_SLOT * GetTupleCount pg ≤ GetFreeSpacePointer pg)
    (hnf : ¬ HasFreeSlot pg) (h : InsertTuple pg tuple txn lm = some r) :
    (r.ok = true ↔ tuple.size + 8 ≤ freeBytes pg)
    ∧ (r.ok = false → r.state.page = pg)
    ∧ (r.ok = true →
      r.rid = some ⟨GetPageId pg, GetTupleCount pg⟩
      ∧ GetPageId r.state.page = GetPageId pg
      ∧ GetTupleCount r.state.page = GetTupleCount pg + 1
      ∧ GetFreeSpacePointer r.state.page = GetFreeSpacePointer pg - tuple.size
      ∧ ¬ HasFreeSlot r.state.page
      ∧ SIZE_TABLE_PAGE_HEADER + SIZE_SLOT * GetTupleCount r.state.page
          ≤ GetFreeSpacePointer r.state.page) := by
  have hk := (findFreeSlot_eq_count_iff pg).2 hnf
  have hiff := InsertTuple_ok_iff pg tuple txn lm r hdir h
  rw [hk] at hiff
  refine ⟨?_, ?_, ?_⟩
  · rw [hiff]
    constructor
    · exact fun h => h.2 rfl
    · exact fun h => ⟨by omega, fun _ => h⟩
  · intro hok
    obtain ⟨_, hcase⟩ := InsertTuple_inv pg tuple txn lm r h
    rcases hcase with ⟨_, _, hp, _⟩ | ⟨hok', _⟩
    · exact hp
    · rw [hok] at hok'; exact absurd hok' (by simp)
  · intro hok
    obtain ⟨hpos, _⟩ := InsertTuple_inv pg tuple txn lm r h
    obtain ⟨h1, h2, h3, h4, h5, h6, h7, h8, h9, _⟩ :=
      InsertTuple_true_spec pg tuple txn lm r hdir h hok
    rw [hk] at h2 h3 h6 h7 h8 h9
    simp only [if_true] at h6
    have hfit := h2 rfl
    refine ⟨h3, h4, h6, h5, ?_, ?_⟩
    · rintro ⟨i, hi, hz⟩
      rw [h6] at hi
      by_cases hic : i = GetTupleCount pg
      · rw [hic, h8] at hz; omega
      · rw [(h9 i (by omega) hic).2] at hz
        exact hnf ⟨i, by omega, hz⟩
    · rw [h5, h6]
      unfold freeBytes SIZE_TABLE_PAGE_HEADER SIZE_SLOT at *
      omega


/-! ## InsertTuple: slot selection -/

/-- Three inserts that fit into a freshly initialised page succeed and are
placed in slots 0, 1 and 2 of that page. -/
theorem three_inserts_fresh (m0 : TablePage) (page_id page_size prev_page_id : Nat)
    (txn0 : Option TransactionContext) (lm0 : Option LogManager)
    (t1 t2 t3 : Tuple) (txn1 txn2 txn3 : Option TransactionContext)
    (lm1 lm2 lm3 : Option LogManager)
    (h24 : 24 ≤ page_size) (hP : page_size < U32) (hid : page_id < U32)
    (p1 : 0 < t1.size) (p2 : 0 < t2.size) (p3 : 0 < t3.size)
    (c1 : CtxOk txn1 lm1) (c2 : CtxOk txn2 lm2) (c3 : CtxOk txn3 lm3)
    (hfit : t1.size + t2.size + t3.size + 48 ≤ page_size) :
    ∃ r1 r2 r3,
      InsertTuple (Init m0 page_id page_size prev_page_id txn0 lm0) t1 txn1 lm1 = some r1
      ∧ r1.ok = true ∧ r1.rid = some ⟨page_id, 0⟩
      ∧ InsertTuple r1.state.page t2 txn2 lm2 = some r2
      ∧ r2.ok = true ∧ r2.rid = some ⟨page_id, 1⟩
      ∧ InsertTuple r2.state.page t3 txn3 lm3 = some r3
      ∧ r3.ok = true ∧ r3.rid = some ⟨page_id, 2⟩ := by
  obtain ⟨i1, i2, i3⟩ := Init_fields m0 page_id page_size prev_page_id txn0 lm0
  rw [Nat.mod_eq_of_lt hid] at i1
  rw [Nat.mod_eq_of_lt hP] at i2
  have hwf := Init_wf m0 page_id page_size prev_page_id txn0 lm0 h24 hP
  generalize Init m0 page_id page_size prev_page_id txn0 lm0 = pg0 at *
  have hnf0 : ¬ HasFreeSlot pg0 := by
    rintro ⟨i, hi, _⟩
    rw [i3] at hi; omega
  have hU : SIZE_TABLE_PAGE_HEADER = 24 ∧ SIZE_SLOT = 8 := ⟨rfl, rfl⟩
  -- first insert
  obtain ⟨r1, hr1⟩ := InsertTuple_isSome pg0 t1 txn1 lm1 p1 c1
  obtain ⟨a1, _, b1⟩ := InsertTuple_dense pg0 t1 txn1 lm1 r1 hwf.2.1 hnf0 hr1
  have ok1 : r1.ok = true := a1.2 (by
    unfold freeBytes; rw [i2, i3, hU.1, hU.2]; omega)
  obtain ⟨rid1, pid1, cnt1, fsp1, nf1, dir1⟩ := b1 ok1
  -- second insert
  obtain ⟨r2, hr2⟩ := InsertTuple_isSome r1.state.page t2 txn2 lm2 p2 c2
  obtain ⟨a2, _, b2⟩ := InsertTuple_dense r1.state.page t2 txn2 lm2 r2 dir1 nf1 hr2
  have ok2 : r2.ok = true := a2.2 (by
    unfold freeBytes; rw [fsp1, cnt1, i2, i3, hU.1, hU.2]; omega)
  obtain ⟨rid2, pid2, cnt2, fsp2, nf2, dir2⟩ := b2 ok2
  -- third insert
  obtain ⟨r3, hr3⟩ := InsertTuple_isSome r2.state.page t3 txn3 lm3 p3 c3
  obtain ⟨a3, _, b3⟩ := InsertTuple_dense r2.state.page t3 txn3 lm3 r3 dir2 nf2 hr3
  have ok3 : r3.ok = true := a3.2 (by
    unfold freeBytes; rw [fsp2, cnt2, fsp1, cnt1, i2, i3, hU.1, hU.2]; omega)
  obtain ⟨rid3, _, _, _, _, _⟩ := b3 ok3
  refine ⟨r1, r2, r3, hr1, ok1, ?_, hr2, ok2, ?_, hr3, ok3, ?_⟩
  · rw [rid1, i1, i3]
  · rw [rid2, pid1, i1, cnt1, i3]
  · rw [rid3, pid2, pid1, i1, cnt2, cnt1, i3]

/-- C6. Insert slot selection: whenever `InsertTuple` succeeds on a well-formed
page, the returned rid is `(page_id, k)` where `k` is the smallest slot of the
directory whose size is 0, or `tuple_count` when no slot is free; the tuple
count grows by one exactly in the latter case.  Hence three inserts that fit
into a freshly initialised page succeed with slot ids 0, 1, 2 on that page. -/
theorem insert_slot_selection (page_size : Nat) (pg : TablePage) (tuple : Tuple)
    (txn : Option TransactionContext) (lm : Option LogManager) (r : InsertResult)
    (hwf : WellFormed page_size pg) (h : InsertTuple pg tuple txn lm = some r)
    (hok : r.ok = true) :
    (∃ k, r.rid = some ⟨GetPageId pg, k⟩ ∧ IsFirstFreeSlot pg k
      ∧ GetTupleCount r.state.page
          = (if k = GetTupleCount pg then GetTupleCount pg + 1 else GetTupleCount pg))
    ∧ (∀ (m0 : TablePage) (page_id size0 prev_page_id : Nat)
        (txn0 : Option TransactionContext) (lm0 : Option LogManager) (t1 t2 t3 : Tuple)
        (txn1 txn2 txn3 : Option TransactionContext) (lm1 lm2 lm3 : Option LogManager),
        24 ≤ size0 → size0 < U32 → page_id < U32 →
        0 < t1.size → 0 < t2.size → 0 < t3.size →
        CtxOk txn1 lm1 → CtxOk txn2 lm2 → CtxOk txn3 lm3 →
        t1.size + t2.size + t3.size + 48 ≤ size0 →
        ∃ r1 r2 r3,
          InsertTuple (Init m0 page_id size0 prev_page_id txn0 lm0) t1 txn1 lm1 = some r1
          ∧ r1.ok = true ∧ r1.rid = some ⟨page_id, 0⟩
          ∧ InsertTuple r1.state.page t2 txn2 lm2 = some r2
          ∧ r2.ok = true ∧ r2.rid = some ⟨page_id, 1⟩
          ∧ InsertTuple r2.state.page t3 txn3 lm3 = some r3
          ∧ r3.ok = true ∧ r3.rid = some ⟨page_id, 2⟩) := by
  obtain ⟨_, _, h3, _, _, h6, _⟩ := InsertTuple_true_spec pg tuple txn lm r hwf.2.1 h hok
  refine ⟨⟨_, h3, findFreeSlot_isFirst pg, h6⟩, ?_⟩
  intro m0 page_id size0 prev_page_id txn0 lm0 t1 t2 t3 txn1 txn2 txn3 lm1 lm2 lm3
    h24 hP hid p1 p2 p3 c1 c2 c3 hfit
  exact three_inserts_fresh m0 page_id size0 prev_page_id txn0 lm0 t1 t2 t3 txn1 txn2 txn3
    lm1 lm2 lm3 h24 hP hid p1 p2 p3 c1 c2 c3 hfit


/-! ## InsertTuple: capacity of a fresh page -/

/-- Repeated inserts of `s`-byte tuples into a page without free slots that
already holds `k` tuples of `s` bytes: the `i`-th further insert succeeds
exactly when `k + i` is below the capacity. -/
theorem insertMany_dense (page_size s : Nat) (hs : 0 < s) :
    ∀ (ts : List Tuple) (k : Nat) (st : PageState),
      (∀ t, t ∈ ts → t.size = s) →
      CtxOk st.txn st.log_manager →
      ¬ HasFreeSlot st.page →
      SIZE_TABLE_PAGE_HEADER + SIZE_SLOT * GetTupleCount st.page
        ≤ GetFreeSpacePointer st.page →
      GetFreeSpacePointer st.page + k * s = page_size →
      GetTupleCount st.page = k →
      ∃ st', insertMany st ts
        = some ((List.range ts.length).map
            (fun i => decide (k + i < (page_size - 24) / (s + 8))), st') := by
  intro ts
  induction ts with
  | nil =>
    intro k st _ _ _ _ _ _
    exact ⟨st, rfl⟩
  | cons t ts ih =>
    intro k st hall hctx hnf hdir hfsp hcnt
    have hts : t.size = s := hall t (List.mem_cons_self _ _)
    have hall' : ∀ t', t' ∈ ts → t'.size = s := fun t' ht' =>
      hall t' (List.mem_cons_of_mem _ ht')
    obtain ⟨r, hr⟩ := InsertTuple_isSome st.page t st.txn st.log_manager (by omega) hctx
    obtain ⟨a, b, c⟩ := InsertTuple_dense st.page t st.txn st.log_manager r hdir hnf hr
    have hctx' := InsertTuple_ctx st.page t st.txn st.log_manager r hctx hr
    have hcap : r.ok = true ↔ k < (page_size - 24) / (s + 8) := by
      rw [a, Nat.lt_iff_add_one_le, Nat.le_div_iff_mul_le (by omega)]
      have e : (k + 1) * (s + 8) = k * s + 8 * k + s + 8 := by ring
      rw [e, hts]
      unfold freeBytes SIZE_TABLE_PAGE_HEADER SIZE_SLOT at *
      omega
    have hlist : (List.range (t :: ts).length).map
        (fun i => decide (k + i < (page_size - 24) / (s + 8)))
        = decide (k < (page_size - 24) / (s + 8))
          :: (List.range ts.length).map
            (fun i => decide (k + 1 + i < (page_size - 24) / (s + 8))) := by
      rw [List.length_cons, List.range_succ_eq_map, List.map_cons, List.map_map]
      congr 1
      apply List.map_congr_left
      intro i _
      simp only [Function.comp, Nat.succ_eq_add_one]
      congr 1
      rw [Nat.add_assoc, Nat.add_comm 1 i]
    rw [hlist]
    unfold insertMany
    rw [hr]
    cases hok : r.ok with
    | true =>
      obtain ⟨_, _, cnt', fsp', nf', dir'⟩ := c hok
      obtain ⟨st', hst'⟩ := ih (k + 1) r.state hall' hctx' nf' dir' (by
        rw [fsp', hts]
        have e : (k + 1) * s = k * s + s := by ring
        have hfit := a.1 hok
        unfold freeBytes at hfit
        rw [e]; omega) (by rw [cnt', hcnt])
      refine ⟨st', ?_⟩
      simp only [hst']
      rw [decide_eq_true (hcap.1 hok), hok]
    | false =>
      have hpg := b hok
      have hnk : ¬ k < (page_size - 24) / (s + 8) := fun hlt => by
        have := hcap.2 hlt
        rw [hok] at this
        exact absurd this (by simp)
      obtain ⟨st', hst'⟩ := ih k r.state hall' hctx' (by rw [hpg]; exact hnf)
        (by rw [hpg]; exact hdir) (by rw [hpg]; exact hfsp) (by rw [hpg]; exact hcnt)
      refine ⟨st', ?_⟩
      simp only [hst']
      rw [decide_eq_false hnk, hok]
      congr 3
      apply List.map_congr_left
      intro i _
      rw [decide_eq_false (by omega), decide_eq_false (by omega)]

/-- C8. Page capacity: starting from a page freshly initialised with
`Init(page_size)`, inserting tuples of the same size `s > 0` one after the other
succeeds exactly for the first `floor((page_size - 24) / (s + 8))` of them and
fails for every later one; for `page_size = 4096` and `s = 100` this is 37
tuples per page, so that 1000 such tuples need `ceil(1000 / 37) = 28` pages. -/
theorem page_capacity (m0 : TablePage) (page_id page_size prev_page_id : Nat)
    (txn0 : Option TransactionContext) (lm0 : Option LogManager)
    (txn : Option TransactionContext) (lm : Option LogManager)
    (ts : List Tuple) (s : Nat)
    (h24 : 24 ≤ page_size) (hP : page_size < U32) (hs : 0 < s)
    (hall : ∀ t, t ∈ ts → t.size = s) (hctx : CtxOk txn lm) :
    (∃ st', insertMany ⟨Init m0 page_id page_size prev_page_id txn0 lm0, txn, lm⟩ ts
        = some ((List.range ts.length).map
            (fun i => decide (i < (page_size - 24) / (s + 8))), st'))
    ∧ (4096 - 24) / (100 + 8) = 37 ∧ (1000 + 37 - 1) / 37 = 28 := by
  obtain ⟨_, i2, i3⟩ := Init_fields m0 page_id page_size prev_page_id txn0 lm0
  rw [Nat.mod_eq_of_lt hP] at i2
  have hwf := Init_wf m0 page_id page_size prev_page_id txn0 lm0 h24 hP
  refine ⟨?_, by decide, by decide⟩
  obtain ⟨st', hst'⟩ := insertMany_dense page_size s hs ts 0
    ⟨Init m0 page_id page_size prev_page_id txn0 lm0, txn, lm⟩ hall hctx
    (by
      rintro ⟨i, hi, _⟩
      rw [i3] at hi; omega)
    hwf.2.1 (by rw [i2]; omega) i3
  refine ⟨st', ?_⟩
  rw [hst']
  simp only [Nat.zero_add]


/-! ## MarkDelete, RollbackDelete and GetTuple: inversion -/

theorem IsDeleted_live (sz : Nat) (h0 : sz ≠ 0) (h1 : sz < DELETE_MASK) : IsDeleted sz = false := by
  unfold IsDeleted
  unfold DELETE_MASK U32 at *
  simp only [Bool.or_eq_false_iff, decide_eq_false_iff_not]
  omega

theorem IsDeleted_false_iff (sz : Nat) (hlt : sz < U32) :
    IsDeleted sz = false ↔ sz ≠ 0 ∧ sz < DELETE_MASK := by
  unfold IsDeleted
  unfold DELETE_MASK U32 at *
  simp only [Bool.or_eq_false_iff, decide_eq_false_iff_not]
  omega

/-- Inversion of `MarkDelete`. -/
theorem MarkDelete_inv (pg : TablePage) (rid : RID) (txn : Option TransactionContext)
    (lm : Option LogManager) (r : BoolResult) (h : MarkDelete pg rid txn lm = some r) :
    rid.page_id = GetPageId pg ∧
    ((r.ok = false ∧ r.state.page = pg ∧ r.state.txn = txn ∧ r.state.log_manager = lm
        ∧ (GetTupleCount pg ≤ rid.slot_id ∨ GetTupleSize pg rid.slot_id = 0))
    ∨ (r.ok = true ∧ rid.slot_id < GetTupleCount pg ∧ GetTupleSize pg rid.slot_id ≠ 0
        ∧ IsDeleted (GetTupleSize pg rid.slot_id) = false
        ∧ ∃ mk st, logBlock pg txn lm mk = some st
          ∧ r.state.page = SetTupleSize st.page rid.slot_id
              (SetDeletedFlag (GetTupleSize pg rid.slot_id))
          ∧ r.state.txn = st.txn ∧ r.state.log_manager = st.log_manager)) := by
  unfold MarkDelete at h
  by_cases hp : rid.page_id = GetPageId pg
  · refine ⟨hp, ?_⟩
    simp only [hp, ne_eq, not_true_eq_false, if_false, ge_iff_le] at h
    by_cases h1 : GetTupleCount pg ≤ rid.slot_id
    · rw [if_pos h1] at h
      simp only [Option.some.injEq] at h
      subst h
      exact Or.inl ⟨rfl, rfl, rfl, rfl, Or.inl h1⟩
    · rw [if_neg h1] at h
      by_cases h2 : GetTupleSize pg rid.slot_id = 0
      · rw [if_pos h2] at h
        simp only [Option.some.injEq] at h
        subst h
        exact Or.inl ⟨rfl, rfl, rfl, rfl, Or.inr h2⟩
      · rw [if_neg h2] at h
        cases h3 : IsDeleted (GetTupleSize pg rid.slot_id) with
        | true => simp [h3] at h
        | false =>
          simp only [h3, Bool.false_eq_true, if_false] at h
          split at h
          · exact absurd h (by simp)
          · rename_i st hst
            simp only [Option.some.injEq] at h
            subst h
            exact Or.inr ⟨rfl, by omega, h2, rfl, _, st, hst, rfl, rfl, rfl⟩
  · simp only [ne_eq, hp, not_false_eq_true, if_true] at h
    exact absurd h (by simp)

theorem MarkDelete_isSome (pg : TablePage) (rid : RID) (txn : Option TransactionContext)
    (lm : Option LogManager) (hlive : LiveSlot pg rid) (hctx : CtxOk txn lm) :
    ∃ r, MarkDelete pg rid txn lm = some r ∧ r.ok = true := by
  obtain ⟨hp, hs, h0, h1⟩ := hlive
  unfold MarkDelete
  simp only [hp, ne_eq, not_true_eq_false, if_false, ge_iff_le]
  rw [if_neg (by omega), if_neg h0, IsDeleted_live _ h0 h1]
  simp only [Bool.false_eq_true, if_false]
  split
  · rename_i hnone
    exact absurd hnone (logBlock_ne_none _ _ _ _ hctx)
  · exact ⟨_, rfl, rfl⟩

/-- Inversion of `RollbackDelete`. -/
theorem RollbackDelete_inv (pg : TablePage) (rid : RID) (txn : Option TransactionContext)
    (lm : Option LogManager) (st' : PageState) (h : RollbackDelete pg rid txn lm = some st') :
    rid.page_id = GetPageId pg ∧ rid.slot_id < GetTupleCount pg
    ∧ ∃ mk st, logBlock pg txn lm mk = some st
      ∧ st'.txn = st.txn ∧ st'.log_manager = st.log_manager
      ∧ st'.page = (if IsDeleted (GetTupleSize pg rid.slot_id) then
          SetTupleSize st.page rid.slot_id (UnsetDeletedFlag (GetTupleSize pg rid.slot_id))
        else st.page) := by
  unfold RollbackDelete at h
  by_cases hp : rid.page_id = GetPageId pg
  · simp only [hp, ne_eq, not_true_eq_false, if_false] at h
    by_cases h1 : rid.slot_id < GetTupleCount pg
    · simp only [h1, not_true_eq_false, if_false] at h
      refine ⟨hp, h1, ?_⟩
      split at h
      · exact absurd h (by simp)
      · rename_i st hst
        refine ⟨_, st, hst, ?_⟩
        split at h
        · rename_i hd
          simp only [Option.some.injEq] at h
          subst h
          simp only [hd, if_true, and_self]
        · rename_i hd
          simp only [Option.some.injEq] at h
          subst h
          simp only [hd, if_false, and_self, Bool.false_eq_true]
    · simp only [h1, not_false_eq_true, if_true] at h
      exact absurd h (by simp)
  · simp only [ne_eq, hp, not_false_eq_true, if_true] at h
    exact absurd h (by simp)

theorem RollbackDelete_isSome (pg : TablePage) (rid : RID) (txn : Option TransactionContext)
    (lm : Option LogManager) (hp : rid.page_id = GetPageId pg)
    (hs : rid.slot_id < GetTupleCount pg) (hctx : CtxOk txn lm) :
    ∃ st, RollbackDelete pg rid txn lm = some st := by
  unfold RollbackDelete
  simp only [hp, ne_eq, not_true_eq_false, if_false, hs]
  split
  · rename_i hnone
    exact absurd hnone (logBlock_ne_none _ _ _ _ hctx)
  · split
    · exact ⟨_, rfl⟩
    · exact ⟨_, rfl⟩

/-- The result of `GetTuple` on a live slot. -/
theorem GetTuple_live (pg : TablePage) (rid : RID) (t0 : Tuple) (hlive : LiveSlot pg rid) :
    GetTuple pg rid t0 = some (true,
      ⟨true, rid, GetTupleSize pg rid.slot_id,
        readBytes pg (GetTupleOffset pg rid.slot_id) (GetTupleSize pg rid.slot_id)⟩) := by
  obtain ⟨hp, hs, h0, h1⟩ := hlive
  unfold GetTuple
  simp only [hp, ne_eq, not_true_eq_false, if_false, ge_iff_le]
  rw [if_neg (by omega), IsDeleted_live _ h0 h1]
  rfl


/-! ## MarkDelete then RollbackDelete -/

theorem SetDeletedFlag_live (sz : Nat) (h1 : sz < DELETE_MASK) :
    SetDeletedFlag sz = sz + DELETE_MASK := by
  unfold SetDeletedFlag
  unfold DELETE_MASK U32 at *
  rw [if_neg (by omega)]

theorem UnsetDeletedFlag_marked (sz : Nat) (h1 : sz < DELETE_MASK) :
    IsDeleted (sz + DELETE_MASK) = true ∧ UnsetDeletedFlag (sz + DELETE_MASK) = sz := by
  unfold IsDeleted UnsetDeletedFlag
  unfold DELETE_MASK U32 at *
  constructor
  · simp only [Bool.or_eq_true, decide_eq_true_eq]
    omega
  · rw [if_pos (by omega)]
    omega

/-- The bytes of a page after `MarkDelete` then `RollbackDelete` on a live slot:
outside the LSN field and the slot's size field nothing has changed, and the
size field holds its old value again. -/
theorem mark_rollback_frame (pg : TablePage) (rid : RID)
    (txn txn2 : Option TransactionContext) (lm lm2 : Option LogManager)
    (hlive : LiveSlot pg rid) (hctx : CtxOk txn lm) (hctx2 : CtxOk txn2 lm2) :
    ∃ r1 st2, MarkDelete pg rid txn lm = some r1 ∧ r1.ok = true
      ∧ RollbackDelete r1.state.page rid txn2 lm2 = some st2
      ∧ GetTupleSize st2.page rid.slot_id = GetTupleSize pg rid.slot_id
      ∧ ∀ x, (x < 4 ∨ 8 ≤ x) →
          (x < slotEntry rid.slot_id + 4 ∨ slotEntry rid.slot_id + 8 ≤ x) →
          st2.page x = pg x := by
  have hlt : GetTupleSize pg rid.slot_id < U32 := get_u32_lt _ _
  have hU : U32 = 4294967296 ∧ DELETE_MASK = 2147483648 := ⟨rfl, rfl⟩
  have hE : slotEntry rid.slot_id = 24 + 8 * rid.slot_id := rfl
  obtain ⟨r1, hr1, hok1⟩ := MarkDelete_isSome pg rid txn lm hlive hctx
  obtain ⟨hp, hs, h0, h1⟩ := hlive
  obtain ⟨_, hcase⟩ := MarkDelete_inv pg rid txn lm r1 hr1
  rcases hcase with ⟨hf, _⟩ | ⟨_, _, _, _, mk, st, hlog, hpage, _, _⟩
  · rw [hok1] at hf; exact absurd hf (by simp)
  have hfr := logBlock_frame _ _ _ _ _ hlog
  rw [SetDeletedFlag_live _ h1] at hpage
  -- the page after the mark
  have hpage1 : ∀ x, (x < 4 ∨ 8 ≤ x) →
      (x < slotEntry rid.slot_id + 4 ∨ slotEntry rid.slot_id + 8 ≤ x) →
      r1.state.page x = pg x := by
    intro x hx1 hx2
    rw [hpage]
    unfold SetTupleSize
    rw [set_u32_outside _ _ _ _ (by omega)]
    exact hfr x hx1
  have hsz1 : GetTupleSize r1.state.page rid.slot_id
      = GetTupleSize pg rid.slot_id + DELETE_MASK := by
    rw [hpage]
    unfold SetTupleSize
    show get_u32 (set_u32 _ _ _) (slotEntry rid.slot_id + 4) = _
    rw [get_set_u32_same]
    apply Nat.mod_eq_of_lt
    omega
  have hid1 : GetPageId r1.state.page = GetPageId pg :=
    get_u32_congr _ _ _ (fun x _ _ => hpage1 x (by omega) (by omega))
  have hcnt1 : GetTupleCount r1.state.page = GetTupleCount pg :=
    get_u32_congr _ _ _ (fun x _ _ => hpage1 x (by omega) (by omega))
  obtain ⟨st2, hst2⟩ := RollbackDelete_isSome r1.state.page rid txn2 lm2
    (by rw [hid1]; exact hp) (by rw [hcnt1]; exact hs) hctx2
  obtain ⟨_, _, mk2, stL, hlog2, _, _, hpage2⟩ :=
    RollbackDelete_inv r1.state.page rid txn2 lm2 st2 hst2
  have hfr2 := logBlock_frame _ _ _ _ _ hlog2
  obtain ⟨hd, hu⟩ := UnsetDeletedFlag_marked _ h1
  rw [hsz1, hd, if_pos rfl, hu] at hpage2
  refine ⟨r1, st2, hr1, hok1, hst2, ?_, ?_⟩
  · rw [hpage2]
    unfold SetTupleSize
    show get_u32 (set_u32 _ _ _) (slotEntry rid.slot_id + 4) = _
    rw [get_set_u32_same]
    exact Nat.mod_eq_of_lt hlt
  · intro x hx1 hx2
    rw [hpage2]
    unfold SetTupleSize
    rw [set_u32_outside _ _ _ _ (by omega), hfr2 x hx1]
    exact hpage1 x hx1 hx2

/-- C3. Mark-then-rollback: on a well-formed page, for a rid naming a live slot,
`MarkDelete(r)` succeeds, the following `RollbackDelete(r)` completes, and
afterwards `GetTuple(r)` returns true with the very tuple (size, payload bytes,
rid) it returned before the mark; the slot's directory entry (offset and size)
is identical to its value before the mark. -/
theorem mark_then_rollback (page_size : Nat) (pg : TablePage) (rid : RID)
    (txn txn2 : Option TransactionContext) (lm lm2 : Option LogManager) (t0 : Tuple)
    (hwf : WellFormed page_size pg) (hlive : LiveSlot pg rid)
    (hctx : CtxOk txn lm) (hctx2 : CtxOk txn2 lm2) :
    ∃ r1 st2 t, MarkDelete pg rid txn lm = some r1 ∧ r1.ok = true
      ∧ RollbackDelete r1.state.page rid txn2 lm2 = some st2
      ∧ GetTuple pg rid t0 = some (true, t)
      ∧ GetTuple st2.page rid t0 = some (true, t)
      ∧ GetTupleOffset st2.page rid.slot_id = GetTupleOffset pg rid.slot_id
      ∧ GetTupleSize st2.page rid.slot_id = GetTupleSize pg rid.slot_id := by
  obtain ⟨r1, st2, hr1, hok1, hst2, hsz, hfr⟩ :=
    mark_rollback_frame pg rid txn txn2 lm lm2 hlive hctx hctx2
  have hE : slotEntry rid.slot_id = 24 + 8 * rid.slot_id := rfl
  have hU : DELETE_MASK = 2147483648 ∧ SIZE_TABLE_PAGE_HEADER = 24 ∧ SIZE_SLOT = 8 :=
    ⟨rfl, rfl, rfl⟩
  obtain ⟨hp, hs, h0, h1⟩ := hlive
  obtain ⟨_, hdir, _, hslots⟩ := hwf
  unfold SIZE_TABLE_PAGE_HEADER SIZE_SLOT at hdir
  have hown : OwnsPayload pg rid.slot_id := by
    unfold OwnsPayload trueSize
    rw [Nat.mod_eq_of_lt h1]; exact h0
  obtain ⟨⟨hlo, _⟩, _⟩ := hslots rid.slot_id hs hown
  have hoff : GetTupleOffset st2.page rid.slot_id = GetTupleOffset pg rid.slot_id :=
    get_u32_congr _ _ _ (fun x _ _ => hfr x (by omega) (by omega))
  have hid : GetPageId st2.page = GetPageId pg :=
    get_u32_congr _ _ _ (fun x _ _ => hfr x (by omega) (by omega))
  have hcnt : GetTupleCount st2.page = GetTupleCount pg :=
    get_u32_congr _ _ _ (fun x _ _ => hfr x (by omega) (by omega))
  have hbytes : readBytes st2.page (GetTupleOffset pg rid.slot_id)
      (GetTupleSize pg rid.slot_id)
      = readBytes pg (GetTupleOffset pg rid.slot_id) (GetTupleSize pg rid.slot_id) :=
    readBytes_congr _ _ _ _ (fun x _ _ => hfr x (by omega) (by omega))
  have hlive2 : LiveSlot st2.page rid :=
    ⟨by rw [hid]; exact hp, by rw [hcnt]; exact hs, by rw [hsz]; exact h0,
      by rw [hsz]; exact h1⟩
  refine ⟨r1, st2, _, hr1, hok1, hst2, GetTuple_live pg rid t0 ⟨hp, hs, h0, h1⟩, ?_, hoff, hsz⟩
  rw [GetTuple_live st2.page rid t0 hlive2, hsz, hoff, hbytes]


/-! ## Offset fix-up loops -/

theorem updateOffsets_eq_offsetLoop (cnt off sz new : Nat) :
    ∀ fuel i pg, updateOffsets cnt off sz new fuel i pg
      = offsetLoop cnt (fun o => decide (o < add32 off sz))
          (fun o => sub32 (add32 o sz) new) fuel i pg := by
  intro fuel
  induction fuel with
  | zero => intro i pg; rfl
  | succ n ih =>
    intro i pg
    simp only [updateOffsets, offsetLoop, decide_eq_true_eq]
    split
    · exact ih _ _
    · rfl

theorem deleteOffsets_eq_offsetLoop (cnt off sz : Nat) :
    ∀ fuel i pg, deleteOffsets cnt off sz fuel i pg
      = offsetLoop cnt (fun o => decide (o < off)) (fun o => add32 o sz) fuel i pg := by
  intro fuel
  induction fuel with
  | zero => intro i pg; rfl
  | succ n ih =>
    intro i pg
    simp only [deleteOffsets, offsetLoop, decide_eq_true_eq]
    split
    · exact ih _ _
    · rfl

/-- The fix-up loop touches only the offset fields of the slots it visits, and
each visited slot gets its new offset from its own old entry. -/
theorem offsetLoop_spec (cnt : Nat) (c : Nat → Bool) (g : Nat → Nat) :
    ∀ fuel i pg,
      (∀ x, (∀ j, i ≤ j → j < cnt → j < i + fuel →
          (x < slotEntry j ∨ slotEntry j + 4 ≤ x)) →
        offsetLoop cnt c g fuel i pg x = pg x)
      ∧ (∀ j, i ≤ j → j < cnt → j < i + fuel →
        GetTupleOffset (offsetLoop cnt c g fuel i pg) j
          = if GetTupleSize pg j ≠ 0 ∧ c (GetTupleOffset pg j) = true
              then g (GetTupleOffset pg j) % U32 else GetTupleOffset pg j) := by
  intro fuel
  induction fuel with
  | zero =>
    intro i pg
    exact ⟨fun x _ => rfl, fun j h1 _ h3 => by omega⟩
  | succ n ih =>
    intro i pg
    have hE : ∀ j, slotEntry j = 24 + 8 * j := fun j => rfl
    by_cases hi : i < cnt
    · simp only [offsetLoop, if_pos hi]
      generalize hmid : (if GetTupleSize pg i ≠ 0 ∧ c (GetTupleOffset pg i) = true then
          SetTupleOffset pg i (g (GetTupleOffset pg i)) else pg) = mid
      have hmidfr : ∀ x, (x < slotEntry i ∨ slotEntry i + 4 ≤ x) → mid x = pg x := by
        intro x hx
        rw [← hmid]
        split
        · exact set_u32_outside _ _ _ _ hx
        · rfl
      obtain ⟨ih1, ih2⟩ := ih (i + 1) mid
      constructor
      · intro x hx
        rw [ih1 x (fun j h1 h2 h3 => hx j (by omega) h2 (by omega))]
        exact hmidfr x (hx i (le_refl _) hi (by omega))
      · intro j h1 h2 h3
        by_cases hji : j = i
        · subst hji
          have e1 : GetTupleOffset (offsetLoop cnt c g n (j + 1) mid) j = GetTupleOffset mid j :=
            get_u32_congr _ _ _ (fun x hx1 hx2 => ih1 x (fun j' h1' _ _ => by
              rw [hE] at hx1 hx2 ⊢; omega))
          rw [e1, ← hmid]
          split
          · exact get_set_u32_same _ _ _
          · rfl
        · rw [ih2 j (by omega) h2 (by omega)]
          have e2 : GetTupleOffset mid j = GetTupleOffset pg j :=
            get_u32_congr _ _ _ (fun x hx1 hx2 => hmidfr x (by
              rw [hE] at hx1 hx2 ⊢; omega))
          have e3 : GetTupleSize mid j = GetTupleSize pg j :=
            get_u32_congr _ _ _ (fun x hx1 hx2 => hmidfr x (by
              rw [hE] at hx1 hx2 ⊢; omega))
          rw [e2, e3]
    · simp only [offsetLoop, if_neg hi]
      exact ⟨fun x _ => trivial, fun j h1 h2 _ => by omega⟩


/-! ## UpdateTuple: inversion -/

/-- Inversion of `UpdateTuple`. -/
theorem UpdateTuple_inv (pg : TablePage) (new_tuple old_tuple : Tuple) (rid : RID)
    (txn : Option TransactionContext) (lm : Option LogManager) (r : UpdateResult)
    (h : UpdateTuple pg new_tuple old_tuple rid txn lm = some r) :
    rid.page_id = GetPageId pg ∧ 0 < new_tuple.size ∧
    ((r.ok = false ∧ r.old_tuple = old_tuple ∧ r.state.page = pg ∧ r.state.txn = txn
        ∧ r.state.log_manager = lm
        ∧ (GetTupleCount pg ≤ rid.slot_id ∨ GetTupleSize pg rid.slot_id = 0
          ∨ (rid.slot_id < GetTupleCount pg ∧ GetTupleSize pg rid.slot_id ≠ 0
            ∧ IsDeleted (GetTupleSize pg rid.slot_id) = false
            ∧ add32 (GetFreeSpaceRemaining pg) (GetTupleSize pg rid.slot_id)
                < new_tuple.size)))
    ∨ (r.ok = true ∧ rid.slot_id < GetTupleCount pg ∧ GetTupleSize pg rid.slot_id ≠ 0
        ∧ IsDeleted (GetTupleSize pg rid.slot_id) = false
        ∧ ¬ add32 (GetFreeSpaceRemaining pg) (GetTupleSize pg rid.slot_id) < new_tuple.size
        ∧ r.old_tuple = (old_tuple.DeserializeFromInplace pg
            (GetTupleOffset pg rid.slot_id) (GetTupleSize pg rid.slot_id)).SetRID rid
        ∧ ∃ mk, logBlock (updatePage pg new_tuple rid.slot_id) txn lm mk = some r.state)) := by
  unfold UpdateTuple at h
  by_cases hp : rid.page_id = GetPageId pg
  · simp only [hp, ne_eq, not_true_eq_false, if_false, ge_iff_le, Tuple.GetSize, gt_iff_lt] at h
    by_cases hpos : 0 < new_tuple.size
    · refine ⟨hp, hpos, ?_⟩
      simp only [hpos, not_true_eq_false, if_false] at h
      by_cases h1 : GetTupleCount pg ≤ rid.slot_id
      · rw [if_pos h1] at h
        simp only [Option.some.injEq] at h
        subst h
        exact Or.inl ⟨rfl, rfl, rfl, rfl, rfl, Or.inl h1⟩
      · rw [if_neg h1] at h
        by_cases h2 : GetTupleSize pg rid.slot_id = 0
        · rw [if_pos h2] at h
          simp only [Option.some.injEq] at h
          subst h
          exact Or.inl ⟨rfl, rfl, rfl, rfl, rfl, Or.inr (Or.inl h2)⟩
        · rw [if_neg h2] at h
          cases h3 : IsDeleted (GetTupleSize pg rid.slot_id) with
          | true => simp [h3] at h
          | false =>
            simp only [h3, Bool.false_eq_true, if_false] at h
            by_cases h4 : add32 (GetFreeSpaceRemaining pg) (GetTupleSize pg rid.slot_id)
                < new_tuple.size
            · rw [if_pos h4] at h
              simp only [Option.some.injEq] at h
              subst h
              exact Or.inl ⟨rfl, rfl, rfl, rfl, rfl, Or.inr (Or.inr ⟨by omega, h2, rfl, h4⟩)⟩
            · rw [if_neg h4] at h
              split at h
              · exact absurd h (by simp)
              · rename_i st hst
                simp only [Option.some.injEq] at h
                subst h
                exact Or.inr ⟨rfl, by omega, h2, rfl, h4, rfl, _, hst⟩
    · simp only [hpos, not_false_eq_true, if_true] at h
      exact absurd h (by simp)
  · simp only [ne_eq, hp, not_false_eq_true, if_true] at h
    exact absurd h (by simp)

theorem UpdateTuple_isSome (pg : TablePage) (new_tuple old_tuple : Tuple) (rid : RID)
    (txn : Option TransactionContext) (lm : Option LogManager)
    (hlive : LiveSlot pg rid) (hpos : 0 < new_tuple.size) (hctx : CtxOk txn lm) :
    ∃ r, UpdateTuple pg new_tuple old_tuple rid txn lm = some r := by
  obtain ⟨hp, hs, h0, h1⟩ := hlive
  unfold UpdateTuple
  simp only [hp, ne_eq, not_true_eq_false, if_false, ge_iff_le, Tuple.GetSize, gt_iff_lt, hpos]
  rw [if_neg (by omega), if_neg h0, IsDeleted_live _ h0 h1]
  simp only [Bool.false_eq_true, if_false]
  split
  · exact ⟨_, rfl⟩
  · split
    · rename_i hnone
      exact absurd hnone (logBlock_ne_none _ _ _ _ hctx)
    · exact ⟨_, rfl⟩


/-! ## UpdateTuple: the page writes -/

theorem add32_eq (a b : Nat) (h : a + b < U32) : add32 a b = a + b :=
  Nat.mod_eq_of_lt h

theorem sub32_eq (a b : Nat) (h1 : b ≤ a) (h2 : a < U32) : sub32 a b = a - b := by
  unfold sub32
  unfold U32 at *
  rw [Nat.mod_eq_of_lt (show b < 4294967296 by omega)]
  omega

/-- Normal form of the writes of a successful update before the fix-up loop. -/
theorem updateWrites_eq (pg : TablePage) (new_tuple : Tuple) (k : Nat)
    (hoff : GetFreeSpacePointer pg ≤ GetTupleOffset pg k)
    (hfit : new_tuple.size ≤ GetFreeSpacePointer pg + GetTupleSize pg k)
    (hub : GetFreeSpacePointer pg + GetTupleSize pg k < U32) :
    updateWrites pg new_tuple k =
      set_u32 (set_u32 (new_tuple.SerializeTo
        (memmove pg (GetFreeSpacePointer pg + GetTupleSize pg k - new_tuple.size)
          (GetFreeSpacePointer pg) (GetTupleOffset pg k - GetFreeSpacePointer pg))
        (GetTupleOffset pg k + GetTupleSize pg k - new_tuple.size))
        (slotEntry k + 4) new_tuple.size) 16
        (GetFreeSpacePointer pg + GetTupleSize pg k - new_tuple.size) := by
  have hU : U32 = 4294967296 := rfl
  have hlt : GetTupleOffset pg k < U32 := get_u32_lt _ _
  have e1 : sub32 (GetTupleOffset pg k) (GetFreeSpacePointer pg)
      = GetTupleOffset pg k - GetFreeSpacePointer pg := sub32_eq _ _ hoff hlt
  have e2 : sub32 (add32 (GetFreeSpacePointer pg) (GetTupleSize pg k)) new_tuple.size
      = GetFreeSpacePointer pg + GetTupleSize pg k - new_tuple.size := by
    rw [add32_eq _ _ hub, sub32_eq _ _ hfit hub]
  unfold updateWrites
  simp only [Tuple.GetSize, e1, e2]
  rfl

/-- Bytes below the new free space pointer after the writes of an update: only
the free space pointer and the size field of the slot have changed. -/
theorem updateWrites_low (pg : TablePage) (new_tuple : Tuple) (k : Nat)
    (hoff : GetFreeSpacePointer pg ≤ GetTupleOffset pg k)
    (hfit : new_tuple.size ≤ GetFreeSpacePointer pg + GetTupleSize pg k)
    (hub : GetFreeSpacePointer pg + GetTupleSize pg k < U32) (x : Nat)
    (hx : x < GetFreeSpacePointer pg + GetTupleSize pg k - new_tuple.size)
    (h16 : x < 16 ∨ 20 ≤ x) (hk : x < slotEntry k + 4 ∨ slotEntry k + 8 ≤ x) :
    updateWrites pg new_tuple k x = pg x := by
  rw [updateWrites_eq pg new_tuple k hoff hfit hub, set_u32_outside _ _ _ _ (by omega),
    set_u32_outside _ _ _ _ (by omega), SerializeTo_outside _ _ _ _ (by omega),
    memmove_outside _ _ _ _ _ (by omega)]

/-- Bytes from the new free space pointer on after the writes of an update:
the moved payload region with the serialized new tuple on top of it. -/
theorem updateWrites_high (pg : TablePage) (new_tuple : Tuple) (k : Nat)
    (hoff : GetFreeSpacePointer pg ≤ GetTupleOffset pg k)
    (hfit : new_tuple.size ≤ GetFreeSpacePointer pg + GetTupleSize pg k)
    (hub : GetFreeSpacePointer pg + GetTupleSize pg k < U32)
    (hk : slotEntry k + 8 ≤ GetFreeSpacePointer pg + GetTupleSize pg k - new_tuple.size)
    (x : Nat) (hx : GetFreeSpacePointer pg + GetTupleSize pg k - new_tuple.size ≤ x) :
    updateWrites pg new_tuple k x =
      new_tuple.SerializeTo
        (memmove pg (GetFreeSpacePointer pg + GetTupleSize pg k - new_tuple.size)
          (GetFreeSpacePointer pg) (GetTupleOffset pg k - GetFreeSpacePointer pg))
        (GetTupleOffset pg k + GetTupleSize pg k - new_tuple.size) x := by
  have hE : slotEntry k = 24 + 8 * k := rfl
  rw [updateWrites_eq pg new_tuple k hoff hfit hub, set_u32_outside _ _ _ _ (by omega),
    set_u32_outside _ _ _ _ (by omega)]

theorem updateWrites_fields (pg : TablePage) (new_tuple : Tuple) (k : Nat)
    (hoff : GetFreeSpacePointer pg ≤ GetTupleOffset pg k)
    (hfit : new_tuple.size ≤ GetFreeSpacePointer pg + GetTupleSize pg k)
    (hub : GetFreeSpacePointer pg + GetTupleSize pg k < U32)
    (hk : slotEntry k + 8 ≤ GetFreeSpacePointer pg + GetTupleSize pg k - new_tuple.size) :
    GetFreeSpacePointer (updateWrites pg new_tuple k)
        = GetFreeSpacePointer pg + GetTupleSize pg k - new_tuple.size
    ∧ GetTupleSize (updateWrites pg new_tuple k) k = new_tuple.size
    ∧ GetTupleCount (updateWrites pg new_tuple k) = GetTupleCount pg
    ∧ GetPageId (updateWrites pg new_tuple k) = GetPageId pg
    ∧ (∀ i, slotEntry i + 8 ≤ GetFreeSpacePointer pg + GetTupleSize pg k - new_tuple.size →
        GetTupleOffset (updateWrites pg new_tuple k) i = GetTupleOffset pg i
        ∧ (i ≠ k → GetTupleSize (updateWrites pg new_tuple k) i = GetTupleSize pg i)) := by
  have hE : ∀ j, slotEntry j = 24 + 8 * j := fun j => rfl
  have hk' := hk
  rw [hE] at hk'
  have hEk := hE k
  have hU : U32 = 4294967296 := rfl
  refine ⟨?_, ?_, ?_, ?_, ?_⟩
  · rw [updateWrites_eq pg new_tuple k hoff hfit hub]
    show get_u32 (set_u32 _ 16 _) 16 = _
    rw [get_set_u32_same]
    apply Nat.mod_eq_of_lt; omega
  · rw [updateWrites_eq pg new_tuple k hoff hfit hub]
    show get_u32 (set_u32 _ 16 _) (slotEntry k + 4) = _
    rw [get_set_u32_disj _ _ _ _ (by omega), get_set_u32_same]
    apply Nat.mod_eq_of_lt; omega
  · exact get_u32_congr _ _ _ (fun x h1 h2 =>
      updateWrites_low pg new_tuple k hoff hfit hub x (by omega) (by omega) (by omega))
  · exact get_u32_congr _ _ _ (fun x h1 h2 =>
      updateWrites_low pg new_tuple k hoff hfit hub x (by omega) (by omega) (by omega))
  · intro i hi
    rw [hE] at hi
    constructor
    · exact get_u32_congr _ _ _ (fun x h1 h2 =>
        updateWrites_low pg new_tuple k hoff hfit hub x (by rw [hE] at h2; omega)
          (by rw [hE] at h1; omega) (by rw [hE] at h1 h2 ⊢; omega))
    · intro hik
      exact get_u32_congr _ _ _ (fun x h1 h2 =>
        updateWrites_low pg new_tuple k hoff hfit hub x (by rw [hE] at h2; omega)
          (by rw [hE] at h1; omega) (by rw [hE] at h1 h2 ⊢; omega))


/-! ## UpdateTuple: effect of a successful update -/

theorem sub32_lt (a b : Nat) : sub32 a b < U32 := Nat.mod_lt _ (by decide)

theorem add32_lt (a b : Nat) : add32 a b < U32 := Nat.mod_lt _ (by decide)

/-- A slot that is live owns payload. -/
theorem OwnsPayload_of_live (pg : TablePage) (k : Nat) (h0 : GetTupleSize pg k ≠ 0)
    (h1 : GetTupleSize pg k < DELETE_MASK) :
    OwnsPayload pg k ∧ trueSize (GetTupleSize pg k) = GetTupleSize pg k := by
  unfold OwnsPayload trueSize
  rw [Nat.mod_eq_of_lt h1]
  exact ⟨h0, rfl⟩

/-- What a successful `UpdateTuple` does to a well-formed page. -/
theorem UpdateTuple_true_spec (page_size : Nat) (pg : TablePage) (new_tuple old_tuple : Tuple)
    (rid : RID) (txn : Option TransactionContext) (lm : Option LogManager) (r : UpdateResult)
    (hwf : WellFormed page_size pg)
    (h : UpdateTuple pg new_tuple old_tuple rid txn lm = some r) (hok : r.ok = true) :
    LiveSlot pg rid
    ∧ 0 < new_tuple.size
    ∧ new_tuple.size + 24 + 8 * GetTupleCount pg
        ≤ GetFreeSpacePointer pg + GetTupleSize pg rid.slot_id
    ∧ GetPageId r.state.page = GetPageId pg
    ∧ GetFreeSpacePointer r.state.page
        = GetFreeSpacePointer pg + GetTupleSize pg rid.slot_id - new_tuple.size
    ∧ GetTupleCount r.state.page = GetTupleCount pg
    ∧ GetTupleSize r.state.page rid.slot_id = new_tuple.size
    ∧ (∀ i, i < GetTupleCount pg → i ≠ rid.slot_id →
        GetTupleSize r.state.page i = GetTupleSize pg i)
    ∧ (∀ i, i < GetTupleCount pg →
        GetTupleOffset r.state.page i
          = if GetTupleSize r.state.page i ≠ 0
              ∧ GetTupleOffset pg i < GetTupleOffset pg rid.slot_id + GetTupleSize pg rid.slot_id
            then sub32 (add32 (GetTupleOffset pg i) (GetTupleSize pg rid.slot_id))
              new_tuple.size
            else GetTupleOffset pg i)
    ∧ (∀ x, GetFreeSpacePointer pg + GetTupleSize pg rid.slot_id - new_tuple.size ≤ x →
        r.state.page x = new_tuple.SerializeTo
          (memmove pg (GetFreeSpacePointer pg + GetTupleSize pg rid.slot_id - new_tuple.size)
            (GetFreeSpacePointer pg)
            (GetTupleOffset pg rid.slot_id - GetFreeSpacePointer pg))
          (GetTupleOffset pg rid.slot_id + GetTupleSize pg rid.slot_id - new_tuple.size) x)
    ∧ r.old_tuple = (old_tuple.DeserializeFromInplace pg
        (GetTupleOffset pg rid.slot_id) (GetTupleSize pg rid.slot_id)).SetRID rid := by
  obtain ⟨hp, hpos, hcase⟩ := UpdateTuple_inv pg new_tuple old_tuple rid txn lm r h
  rcases hcase with ⟨hf, _⟩ | ⟨_, hs, h0, hdel, hfit, hold, mk, hlog⟩
  · rw [hok] at hf; exact absurd hf (by simp)
  have hU : U32 = 4294967296 ∧ DELETE_MASK = 2147483648 := ⟨rfl, rfl⟩
  have hE : ∀ j, slotEntry j = 24 + 8 * j := fun j => rfl
  have hszlt : GetTupleSize pg rid.slot_id < U32 := get_u32_lt _ _
  have h1 : GetTupleSize pg rid.slot_id < DELETE_MASK :=
    ((IsDeleted_false_iff _ hszlt).1 hdel).2
  obtain ⟨hP, hdir, hfspP, hslots⟩ := hwf
  obtain ⟨hown, hts⟩ := OwnsPayload_of_live pg rid.slot_id h0 h1
  obtain ⟨⟨hoff, hend⟩, _⟩ := hslots rid.slot_id hs hown
  rw [hts] at hend
  have hfree := GetFreeSpaceRemaining_eq pg hdir
  unfold SIZE_TABLE_PAGE_HEADER SIZE_SLOT at hdir
  have hub : GetFreeSpacePointer pg + GetTupleSize pg rid.slot_id < U32 := by omega
  have hfb : freeBytes pg + (24 + 8 * GetTupleCount pg) = GetFreeSpacePointer pg := by
    unfold freeBytes SIZE_TABLE_PAGE_HEADER SIZE_SLOT; omega
  rw [hfree, add32_eq _ _ (by omega)] at hfit
  have hfit' : new_tuple.size + 24 + 8 * GetTupleCount pg
      ≤ GetFreeSpacePointer pg + GetTupleSize pg rid.slot_id := by omega
  have hfitw : new_tuple.size ≤ GetFreeSpacePointer pg + GetTupleSize pg rid.slot_id := by
    omega
  have hke : ∀ i, i < GetTupleCount pg → slotEntry i + 8
      ≤ GetFreeSpacePointer pg + GetTupleSize pg rid.slot_id - new_tuple.size := by
    intro i hi
    rw [hE]; omega
  obtain ⟨w1, w2, w3, w4, w5⟩ :=
    updateWrites_fields pg new_tuple rid.slot_id hoff hfitw hub (hke _ hs)
  -- the fix-up loop
  have hloop : updatePage pg new_tuple rid.slot_id
      = offsetLoop (GetTupleCount pg)
          (fun o => decide (o < add32 (GetTupleOffset pg rid.slot_id)
            (GetTupleSize pg rid.slot_id)))
          (fun o => sub32 (add32 o (GetTupleSize pg rid.slot_id)) new_tuple.size)
          (GetTupleCount pg) 0 (updateWrites pg new_tuple rid.slot_id) := by
    unfold updatePage
    simp only [w3, Tuple.GetSize]
    exact updateOffsets_eq_offsetLoop _ _ _ _ _ _ _
  obtain ⟨l1, l2⟩ := offsetLoop_spec (GetTupleCount pg)
    (fun o => decide (o < add32 (GetTupleOffset pg rid.slot_id) (GetTupleSize pg rid.slot_id)))
    (fun o => sub32 (add32 o (GetTupleSize pg rid.slot_id)) new_tuple.size)
    (GetTupleCount pg) 0 (updateWrites pg new_tuple rid.slot_id)
  rw [← hloop] at l1 l2
  have hfr := logBlock_frame _ _ _ _ _ hlog
  obtain ⟨f1, f2, f3, f4, f5⟩ := fields_of_lsn_frame _ _ hfr
  -- bytes outside the offset fields of the directory are those of the writes
  have hout : ∀ x, (x < 24 ∨ 24 + 8 * GetTupleCount pg ≤ x ∨ (x - 24) % 8 ≥ 4) →
      updatePage pg new_tuple rid.slot_id x = updateWrites pg new_tuple rid.slot_id x := by
    intro x hx
    apply l1
    intro j _ hj _
    rw [hE]
    omega
  have hsize : ∀ i, i < GetTupleCount pg →
      GetTupleSize (updatePage pg new_tuple rid.slot_id) i
        = GetTupleSize (updateWrites pg new_tuple rid.slot_id) i := by
    intro i hi
    exact get_u32_congr _ _ _ (fun x hx1 hx2 => hout x (by rw [hE] at hx1 hx2; omega))
  refine ⟨⟨hp, hs, h0, h1⟩, hpos, hfit', ?_, ?_, ?_, ?_, ?_, ?_, ?_, hold⟩
  · rw [f1, ← w4]
    exact get_u32_congr _ _ _ (fun x hx1 hx2 => hout x (by omega))
  · rw [f2, ← w1]
    exact get_u32_congr _ _ _ (fun x hx1 hx2 => hout x (by omega))
  · rw [f3, ← w3]
    exact get_u32_congr _ _ _ (fun x hx1 hx2 => hout x (by omega))
  · rw [f5, hsize _ hs, w2]
  · intro i hi hik
    rw [f5, hsize _ hi, (w5 i (hke i hi)).2 hik]
  · intro i hi
    rw [f4, f5, hsize _ hi, l2 i (Nat.zero_le _) hi (by omega), (w5 i (hke i hi)).1,
      add32_eq _ _ (show GetTupleOffset pg rid.slot_id + GetTupleSize pg rid.slot_id < U32 by
        omega)]
    simp only [decide_eq_true_eq]
    rw [Nat.mod_eq_of_lt (sub32_lt _ _)]
  · intro x hx
    rw [hfr x (by omega), hout x (by omega)]
    exact updateWrites_high pg new_tuple rid.slot_id hoff hfitw hub (hke _ hs) x hx


/-! ## UpdateTuple: well-formedness is preserved -/

theorem trueSize_le (sz : Nat) : trueSize sz ≤ sz := Nat.mod_le _ _

theorem size_ne_zero_of_owns (pg : TablePage) (i : Nat) (h : OwnsPayload pg i) :
    GetTupleSize pg i ≠ 0 := by
  intro hz
  unfold OwnsPayload at h
  rw [hz] at h
  exact h rfl

/-- Where a payload-owning slot ends up after a successful update: the updated
slot sits at the top of its old range, a slot below it has moved by the size
difference, and a slot above it has stayed in place. -/
theorem UpdateTuple_slot_pos (page_size : Nat) (pg : TablePage) (new_tuple old_tuple : Tuple)
    (rid : RID) (txn : Option TransactionContext) (lm : Option LogManager) (r : UpdateResult)
    (hwf : WellFormed page_size pg)
    (h : UpdateTuple pg new_tuple old_tuple rid txn lm = some r) (hok : r.ok = true)
    (i : Nat) (hi : i < GetTupleCount pg) (hown : OwnsPayload r.state.page i) :
    (i = rid.slot_id ∧ GetTupleSize r.state.page i = new_tuple.size
      ∧ GetTupleOffset r.state.page i + new_tuple.size
          = GetTupleOffset pg rid.slot_id + GetTupleSize pg rid.slot_id)
    ∨ (i ≠ rid.slot_id ∧ GetTupleSize r.state.page i = GetTupleSize pg i
      ∧ OwnsPayload pg i
      ∧ GetTupleOffset pg i + trueSize (GetTupleSize pg i) ≤ GetTupleOffset pg rid.slot_id
      ∧ GetFreeSpacePointer pg ≤ GetTupleOffset pg i
      ∧ GetTupleOffset r.state.page i + new_tuple.size
          = GetTupleOffset pg i + GetTupleSize pg rid.slot_id)
    ∨ (i ≠ rid.slot_id ∧ GetTupleSize r.state.page i = GetTupleSize pg i
      ∧ OwnsPayload pg i
      ∧ GetTupleOffset pg rid.slot_id + GetTupleSize pg rid.slot_id ≤ GetTupleOffset pg i
      ∧ GetTupleOffset pg i + trueSize (GetTupleSize pg i) ≤ page_size
      ∧ GetTupleOffset r.state.page i = GetTupleOffset pg i) := by
  obtain ⟨⟨_, hs, h0, h1⟩, hpos, hfit, _, _, _, s1, s2, s3, _, _⟩ :=
    UpdateTuple_true_spec page_size pg new_tuple old_tuple rid txn lm r hwf h hok
  obtain ⟨hP, hdir, hfspP, hslots⟩ := hwf
  unfold SIZE_TABLE_PAGE_HEADER SIZE_SLOT at hdir
  obtain ⟨hownk, hts⟩ := OwnsPayload_of_live pg rid.slot_id h0 h1
  obtain ⟨⟨hoff, hend⟩, _⟩ := hslots rid.slot_id hs hownk
  rw [hts] at hend
  have hU : U32 = 4294967296 := rfl
  have hnz := size_ne_zero_of_owns _ _ hown
  have hoffi := s3 i hi
  by_cases hik : i = rid.slot_id
  · left
    subst hik
    rw [if_pos ⟨hnz, by omega⟩, add32_eq _ _ (by omega), sub32_eq _ _ (by omega) (by omega)]
      at hoffi
    exact ⟨rfl, s1, by omega⟩
  · right
    have hsz := s2 i hi hik
    have howni : OwnsPayload pg i := by
      unfold OwnsPayload at hown ⊢
      rw [← hsz]; exact hown
    obtain ⟨⟨hloi, hhii⟩, hdisj⟩ := hslots i hi howni
    have hd := hdisj rid.slot_id hs hik hownk
    unfold SlotsDisjoint at hd
    rw [hts] at hd
    by_cases hlt : GetTupleOffset pg i
        < GetTupleOffset pg rid.slot_id + GetTupleSize pg rid.slot_id
    · left
      rw [if_pos ⟨hnz, hlt⟩] at hoffi
      have hbelow : GetTupleOffset pg i + trueSize (GetTupleSize pg i)
          ≤ GetTupleOffset pg rid.slot_id := by
        rcases hd with hd | hd
        · exact hd
        · omega
      rw [add32_eq _ _ (by omega), sub32_eq _ _ (by omega) (by omega)] at hoffi
      exact ⟨hik, hsz, howni, hbelow, hloi, by omega⟩
    · right
      rw [if_neg (fun hc => hlt hc.2)] at hoffi
      exact ⟨hik, hsz, howni, by omega, hhii, hoffi⟩

/-- Well-formedness is preserved by `UpdateTuple`. -/
theorem UpdateTuple_wf (page_size : Nat) (pg : TablePage) (new_tuple old_tuple : Tuple)
    (rid : RID) (txn : Option TransactionContext) (lm : Option LogManager) (r : UpdateResult)
    (hwf : WellFormed page_size pg)
    (h : UpdateTuple pg new_tuple old_tuple rid txn lm = some r) :
    WellFormed page_size r.state.page := by
  cases hok : r.ok with
  | false =>
    obtain ⟨_, _, hcase⟩ := UpdateTuple_inv pg new_tuple old_tuple rid txn lm r h
    rcases hcase with ⟨_, _, hpg, _⟩ | ⟨ht, _⟩
    · rw [hpg]; exact hwf
    · rw [hok] at ht; exact absurd ht (by simp)
  | true =>
    have hpos := UpdateTuple_slot_pos page_size pg new_tuple old_tuple rid txn lm r hwf h hok
    obtain ⟨⟨_, hs, h0, h1⟩, hnpos, hfit, _, e1, e2, _, _, _, _, _⟩ :=
      UpdateTuple_true_spec page_size pg new_tuple old_tuple rid txn lm r hwf h hok
    obtain ⟨hP, hdir, hfspP, hslots⟩ := hwf
    obtain ⟨hownk, hts⟩ := OwnsPayload_of_live pg rid.slot_id h0 h1
    obtain ⟨⟨hoff, hend⟩, _⟩ := hslots rid.slot_id hs hownk
    rw [hts] at hend
    unfold SIZE_TABLE_PAGE_HEADER SIZE_SLOT at hdir
    refine ⟨hP, ?_, ?_, ?_⟩
    · rw [e1, e2]; unfold SIZE_TABLE_PAGE_HEADER SIZE_SLOT; omega
    · rw [e1]; omega
    · intro i hi hown
      rw [e2] at hi
      have hti := trueSize_le (GetTupleSize r.state.page i)
      refine ⟨?_, ?_⟩
      · rw [e1]
        rcases hpos i hi hown with ⟨_, a, b⟩ | ⟨_, a, _, b, c, d⟩ | ⟨_, a, _, b, c, d⟩
        · rw [a] at hti ⊢; omega
        · rw [a]; omega
        · rw [a]; omega
      · intro j hj hij hownj
        rw [e2] at hj
        have htj := trueSize_le (GetTupleSize r.state.page j)
        unfold SlotsDisjoint
        rcases hpos i hi hown with ⟨ik, a, b⟩ | ⟨ik, a, oi, b, c, d⟩ | ⟨ik, a, oi, b, c, d⟩ <;>
        rcases hpos j hj hownj with ⟨jk, a', b'⟩ | ⟨jk, a', oj, b', c', d'⟩ |
          ⟨jk, a', oj, b', c', d'⟩
        · omega
        · rw [a] at hti ⊢; rw [a']; omega
        · rw [a] at hti ⊢; rw [a']; omega
        · rw [a' ] at htj ⊢; rw [a]; omega
        · have hd := (hslots i hi oi).2 j hj hij oj
          unfold SlotsDisjoint at hd
          rw [a, a']; omega
        · rw [a, a']; omega
        · rw [a'] at htj ⊢; rw [a]; omega
        · rw [a, a']; omega
        · have hd := (hslots i hi oi).2 j hj hij oj
          unfold SlotsDisjoint at hd
          rw [a, a']; omega


/-! ## Well-formedness is preserved by InsertTuple, MarkDelete and RollbackDelete -/

/-- Well-formedness only depends on the free space pointer, the tuple count,
the slot offsets and the sizes with the delete bit stripped. -/
theorem WellFormed_congr (page_size : Nat) (pg pg' : TablePage)
    (h1 : GetFreeSpacePointer pg' = GetFreeSpacePointer pg)
    (h2 : GetTupleCount pg' = GetTupleCount pg)
    (h3 : ∀ i, i < GetTupleCount pg → GetTupleOffset pg' i = GetTupleOffset pg i)
    (h4 : ∀ i, i < GetTupleCount pg →
      trueSize (GetTupleSize pg' i) = trueSize (GetTupleSize pg i))
    (hwf : WellFormed page_size pg) : WellFormed page_size pg' := by
  obtain ⟨hP, hdir, hfspP, hslots⟩ := hwf
  refine ⟨hP, by rw [h1, h2]; exact hdir, by rw [h1]; exact hfspP, ?_⟩
  intro i hi hown
  rw [h2] at hi
  have howni : OwnsPayload pg i := by
    unfold OwnsPayload at hown ⊢
    rw [← h4 i hi]; exact hown
  obtain ⟨hb, hd⟩ := hslots i hi howni
  refine ⟨by rw [h1, h3 i hi, h4 i hi]; exact hb, ?_⟩
  intro j hj hij hownj
  rw [h2] at hj
  have hownj' : OwnsPayload pg j := by
    unfold OwnsPayload at hownj ⊢
    rw [← h4 j hj]; exact hownj
  have := hd j hj hij hownj'
  unfold SlotsDisjoint at this ⊢
  rw [h3 i hi, h3 j hj, h4 i hi, h4 j hj]
  exact this

/-- Well-formedness is preserved by `InsertTuple`. -/
theorem InsertTuple_wf (page_size : Nat) (pg : TablePage) (tuple : Tuple)
    (txn : Option TransactionContext) (lm : Option LogManager) (r : InsertResult)
    (hwf : WellFormed page_size pg) (h : InsertTuple pg tuple txn lm = some r) :
    WellFormed page_size r.state.page := by
  cases hok : r.ok with
  | false =>
    obtain ⟨_, hcase⟩ := InsertTuple_inv pg tuple txn lm r h
    rcases hcase with ⟨_, _, hpg, _⟩ | ⟨ht, _⟩
    · rw [hpg]; exact hwf
    · rw [hok] at ht; exact absurd ht (by simp)
  | true =>
    obtain ⟨hP, hdir, hfspP, hslots⟩ := hwf
    obtain ⟨s1, s2, _, _, e1, e2, e3, e4, e5, _⟩ :=
      InsertTuple_true_spec pg tuple txn lm r hdir h hok
    obtain ⟨_, hkle, _, _⟩ :=
      findFreeSlot_spec pg (GetTupleCount pg) (GetTupleCount pg) 0 (by omega)
    generalize findFreeSlot pg (GetTupleCount pg) (GetTupleCount pg) 0 = k at *
    unfold freeBytes at s1 s2
    unfold SIZE_TABLE_PAGE_HEADER SIZE_SLOT at hdir s1 s2
    have hcnt : ∀ i, i < GetTupleCount r.state.page → i ≠ k → i < GetTupleCount pg := by
      intro i hi hik
      rw [e2] at hi
      split at hi <;> omega
    refine ⟨hP, ?_, ?_, ?_⟩
    · rw [e1, e2]
      unfold SIZE_TABLE_PAGE_HEADER SIZE_SLOT
      split
      · rename_i hk
        have := s2 hk
        omega
      · omega
    · rw [e1]; omega
    · intro i hi hown
      have hti := trueSize_le (GetTupleSize r.state.page i)
      by_cases hik : i = k
      · subst hik
        rw [e4] at hti
        refine ⟨by rw [e1, e3, e4]; omega, ?_⟩
        intro j hj hij hownj
        have hjc := hcnt j hj (fun hc => hij hc.symm)
        obtain ⟨f1, f2⟩ := e5 j hjc (fun hc => hij hc.symm)
        have hownj' : OwnsPayload pg j := by
          unfold OwnsPayload at hownj ⊢
          rw [← f2]; exact hownj
        obtain ⟨⟨hlo, _⟩, _⟩ := hslots j hjc hownj'
        unfold SlotsDisjoint
        rw [e3, e4, f1]
        omega
      · have hic := hcnt i hi hik
        obtain ⟨f1, f2⟩ := e5 i hic hik
        have howni : OwnsPayload pg i := by
          unfold OwnsPayload at hown ⊢
          rw [← f2]; exact hown
        obtain ⟨⟨hlo, hhi⟩, hd⟩ := hslots i hic howni
        refine ⟨by rw [e1, f1, f2]; omega, ?_⟩
        intro j hj hij hownj
        unfold SlotsDisjoint
        by_cases hjk : j = k
        · subst hjk
          have htj := trueSize_le (GetTupleSize r.state.page j)
          rw [e4] at htj
          rw [e3, e4, f1]
          omega
        · have hjc := hcnt j hj hjk
          obtain ⟨g1, g2⟩ := e5 j hjc hjk
          have hownj' : OwnsPayload pg j := by
            unfold OwnsPayload at hownj ⊢
            rw [← g2]; exact hownj
          have := hd j hjc hij hownj'
          unfold SlotsDisjoint at this
          rw [f1, f2, g1, g2]
          exact this

theorem trueSize_SetDeletedFlag (sz : Nat) :
    trueSize (SetDeletedFlag sz % U32) = trueSize sz := by
  unfold trueSize SetDeletedFlag
  unfold DELETE_MASK U32 at *
  split <;> omega

theorem trueSize_UnsetDeletedFlag (sz : Nat) (h : sz < U32) :
    trueSize (UnsetDeletedFlag sz % U32) = trueSize sz := by
  unfold trueSize UnsetDeletedFlag
  unfold DELETE_MASK U32 at *
  split <;> omega

/-- Rewriting the size field of one slot with a value of the same true size
(after the logging block) keeps the page well-formed. -/
theorem WellFormed_setSize (page_size : Nat) (pg stp : TablePage) (k v : Nat)
    (hfr : ∀ x, x < 4 ∨ 8 ≤ x → stp x = pg x)
    (hv : trueSize (v % U32) = trueSize (GetTupleSize pg k))
    (hwf : WellFormed page_size pg) : WellFormed page_size (SetTupleSize stp k v) := by
  have hE : ∀ j, slotEntry j = 24 + 8 * j := fun j => rfl
  have hfr' : ∀ x, (x < 4 ∨ 8 ≤ x) → (x < slotEntry k + 4 ∨ slotEntry k + 8 ≤ x) →
      SetTupleSize stp k v x = pg x := by
    intro x hx1 hx2
    unfold SetTupleSize
    rw [set_u32_outside _ _ _ _ (by omega)]
    exact hfr x hx1
  apply WellFormed_congr page_size pg _ _ _ _ _ hwf
  · exact get_u32_congr _ _ _ (fun x h1 h2 => hfr' x (by omega) (by rw [hE]; omega))
  · exact get_u32_congr _ _ _ (fun x h1 h2 => hfr' x (by omega) (by rw [hE]; omega))
  · intro i _
    exact get_u32_congr _ _ _ (fun x h1 h2 => hfr' x (by rw [hE] at h1; omega)
      (by rw [hE] at h1 h2 ⊢; omega))
  · intro i _
    by_cases hik : i = k
    · subst hik
      have : GetTupleSize (SetTupleSize stp i v) i = v % U32 := get_set_u32_same _ _ _
      rw [this, hv]
    · congr 1
      exact get_u32_congr _ _ _ (fun x h1 h2 => hfr' x (by rw [hE] at h1; omega)
        (by rw [hE] at h1 h2 ⊢; omega))

/-- Well-formedness is preserved by `MarkDelete`. -/
theorem MarkDelete_wf (page_size : Nat) (pg : TablePage) (rid : RID)
    (txn : Option TransactionContext) (lm : Option LogManager) (r : BoolResult)
    (hwf : WellFormed page_size pg) (h : MarkDelete pg rid txn lm = some r) :
    WellFormed page_size r.state.page := by
  obtain ⟨_, hcase⟩ := MarkDelete_inv pg rid txn lm r h
  rcases hcase with ⟨_, hpg, _⟩ | ⟨_, _, _, _, mk, st, hlog, hpage, _, _⟩
  · rw [hpg]; exact hwf
  · rw [hpage]
    exact WellFormed_setSize page_size pg st.page _ _ (logBlock_frame _ _ _ _ _ hlog)
      (trueSize_SetDeletedFlag _) hwf

/-- Well-formedness is preserved by `RollbackDelete`. -/
theorem RollbackDelete_wf (page_size : Nat) (pg : TablePage) (rid : RID)
    (txn : Option TransactionContext) (lm : Option LogManager) (st' : PageState)
    (hwf : WellFormed page_size pg) (h : RollbackDelete pg rid txn lm = some st') :
    WellFormed page_size st'.page := by
  obtain ⟨_, _, mk, st, hlog, _, _, hpage⟩ := RollbackDelete_inv pg rid txn lm st' h
  have hfr := logBlock_frame _ _ _ _ _ hlog
  rw [hpage]
  split
  · exact WellFormed_setSize page_size pg st.page _ _ hfr
      (trueSize_UnsetDeletedFlag _ (get_u32_lt _ _)) hwf
  · obtain ⟨_, f2, f3, f4, f5⟩ := fields_of_lsn_frame _ _ hfr
    exact WellFormed_congr page_size pg _ f2 f3 (fun i _ => f4 i)
      (fun i _ => by rw [f5 i]) hwf


/-! ## ApplyDelete: inversion and page writes -/

/-- The size `ApplyDelete` works with: the size field with its delete bit
stripped. -/
theorem stripped_eq_trueSize (sz : Nat) (h0 : sz ≠ 0) (hlt : sz < U32) :
    (if IsDeleted sz = true then UnsetDeletedFlag sz else sz) = trueSize sz := by
  unfold IsDeleted UnsetDeletedFlag trueSize
  unfold DELETE_MASK U32 at *
  simp only [h0, decide_False, Bool.or_false, decide_eq_true_eq]
  split <;> omega

/-- Inversion of `ApplyDelete`. -/
theorem ApplyDelete_inv (pg : TablePage) (rid : RID) (txn : Option TransactionContext)
    (lm : Option LogManager) (st' : PageState) (h : ApplyDelete pg rid txn lm = some st') :
    rid.page_id = GetPageId pg ∧ rid.slot_id < GetTupleCount pg
    ∧ GetTupleSize pg rid.slot_id ≠ 0
    ∧ ∃ mk st, logBlock pg txn lm mk = some st
      ∧ st'.txn = st.txn ∧ st'.log_manager = st.log_manager
      ∧ st'.page = deletePage st.page rid.slot_id (GetTupleOffset pg rid.slot_id)
          (trueSize (GetTupleSize pg rid.slot_id)) := by
  unfold ApplyDelete at h
  by_cases hp : rid.page_id = GetPageId pg
  · simp only [hp, ne_eq, not_true_eq_false, if_false] at h
    by_cases h1 : rid.slot_id < GetTupleCount pg
    · simp only [h1, not_true_eq_false, if_false] at h
      by_cases h2 : GetTupleSize pg rid.slot_id = 0
      · simp [IsValid, h2] at h
      · simp only [IsValid, ne_eq, h2, not_false_eq_true, decide_True, not_true_eq_false,
          if_false] at h
        rw [stripped_eq_trueSize _ h2 (get_u32_lt _ _)] at h
        refine ⟨hp, h1, h2, ?_⟩
        split at h
        · exact absurd h (by simp)
        · rename_i st hst
          simp only [Option.some.injEq] at h
          subst h
          exact ⟨_, st, hst, rfl, rfl, rfl⟩
    · simp only [h1, not_false_eq_true, if_true] at h
      exact absurd h (by simp)
  · simp only [ne_eq, hp, not_false_eq_true, if_true] at h
    exact absurd h (by simp)

theorem ApplyDelete_isSome (pg : TablePage) (rid : RID) (txn : Option TransactionContext)
    (lm : Option LogManager) (hp : rid.page_id = GetPageId pg)
    (hs : rid.slot_id < GetTupleCount pg) (h0 : GetTupleSize pg rid.slot_id ≠ 0)
    (hctx : CtxOk txn lm) : ∃ st, ApplyDelete pg rid txn lm = some st := by
  unfold ApplyDelete
  simp only [hp, ne_eq, not_true_eq_false, if_false, hs, IsValid, h0, not_false_eq_true,
    decide_True]
  split
  · rename_i hnone
    exact absurd hnone (logBlock_ne_none _ _ _ _ hctx)
  · exact ⟨_, rfl⟩

/-- Bytes below the moved region after the writes of `ApplyDelete`: only the
free space pointer and the slot entry have changed. -/
theorem deleteWrites_low (pg : TablePage) (k off ts x : Nat)
    (hx : x < GetFreeSpacePointer pg + ts) (h16 : x < 16 ∨ 20 ≤ x)
    (hk : x < slotEntry k ∨ slotEntry k + 8 ≤ x) :
    deleteWrites pg k off ts x = pg x := by
  unfold deleteWrites SetFreeSpacePointer SetTupleOffset SetTupleSize
  rw [set_u32_outside _ _ _ _ (by omega), set_u32_outside _ _ _ _ (by omega),
    set_u32_outside _ _ _ _ (by omega), memmove_outside _ _ _ _ _ (by omega)]

/-- Bytes above the directory after the writes of `ApplyDelete`: the payload
region moved up by the size of the deleted tuple. -/
theorem deleteWrites_high (pg : TablePage) (k off ts x : Nat)
    (hk : slotEntry k + 8 ≤ x) :
    deleteWrites pg k off ts x
      = memmove pg (GetFreeSpacePointer pg + ts) (GetFreeSpacePointer pg)
          (sub32 off (GetFreeSpacePointer pg)) x := by
  have hE : slotEntry k = 24 + 8 * k := rfl
  unfold deleteWrites SetFreeSpacePointer SetTupleOffset SetTupleSize
  rw [set_u32_outside _ _ _ _ (by omega), set_u32_outside _ _ _ _ (by omega),
    set_u32_outside _ _ _ _ (by omega)]

theorem deleteWrites_fields (pg : TablePage) (k off ts : Nat)
    (hk : slotEntry k + 8 ≤ GetFreeSpacePointer pg)
    (hub : GetFreeSpacePointer pg + ts < U32) :
    GetFreeSpacePointer (deleteWrites pg k off ts) = GetFreeSpacePointer pg + ts
    ∧ GetTupleSize (deleteWrites pg k off ts) k = 0
    ∧ GetTupleOffset (deleteWrites pg k off ts) k = 0
    ∧ GetTupleCount (deleteWrites pg k off ts) = GetTupleCount pg
    ∧ GetPageId (deleteWrites pg k off ts) = GetPageId pg
    ∧ (∀ i, slotEntry i + 8 ≤ GetFreeSpacePointer pg → i ≠ k →
        GetTupleOffset (deleteWrites pg k off ts) i = GetTupleOffset pg i
        ∧ GetTupleSize (deleteWrites pg k off ts) i = GetTupleSize pg i) := by
  have hE : ∀ j, slotEntry j = 24 + 8 * j := fun j => rfl
  have hEk := hE k
  refine ⟨?_, ?_, ?_, ?_, ?_, ?_⟩
  · unfold deleteWrites SetFreeSpacePointer
    show get_u32 (set_u32 _ 16 _) 16 = _
    rw [get_set_u32_same, Nat.mod_eq_of_lt (add32_lt _ _)]
    exact add32_eq _ _ hub
  · unfold deleteWrites SetFreeSpacePointer SetTupleOffset SetTupleSize
    show get_u32 _ (slotEntry k + 4) = _
    rw [get_set_u32_disj _ _ _ _ (by omega), get_set_u32_disj _ _ _ _ (by omega),
      get_set_u32_same]
    rfl
  · unfold deleteWrites SetFreeSpacePointer SetTupleOffset SetTupleSize
    show get_u32 _ (slotEntry k) = _
    rw [get_set_u32_disj _ _ _ _ (by omega), get_set_u32_same]
    rfl
  · exact get_u32_congr _ _ _ (fun x h1 h2 =>
      deleteWrites_low pg k off ts x (by omega) (by omega) (by omega))
  · exact get_u32_congr _ _ _ (fun x h1 h2 =>
      deleteWrites_low pg k off ts x (by omega) (by omega) (by omega))
  · intro i hi hik
    have hEi := hE i
    constructor
    · exact get_u32_congr _ _ _ (fun x h1 h2 =>
        deleteWrites_low pg k off ts x (by omega) (by omega) (by omega))
    · exact get_u32_congr _ _ _ (fun x h1 h2 =>
        deleteWrites_low pg k off ts x (by omega) (by omega) (by omega))


/-! ## ApplyDelete: effect -/

/-- What `ApplyDelete` does to a well-formed page. -/
theorem ApplyDelete_spec (page_size : Nat) (pg : TablePage) (rid : RID)
    (txn : Option TransactionContext) (lm : Option LogManager) (st' : PageState)
    (hwf : WellFormed page_size pg) (h : ApplyDelete pg rid txn lm = some st') :
    rid.page_id = GetPageId pg ∧ rid.slot_id < GetTupleCount pg
    ∧ GetTupleSize pg rid.slot_id ≠ 0
    ∧ GetPageId st'.page = GetPageId pg
    ∧ GetFreeSpacePointer st'.page
        = GetFreeSpacePointer pg + trueSize (GetTupleSize pg rid.slot_id)
    ∧ GetTupleCount st'.page = GetTupleCount pg
    ∧ GetTupleSize st'.page rid.slot_id = 0
    ∧ GetTupleOffset st'.page rid.slot_id = 0
    ∧ (∀ i, i < GetTupleCount pg → i ≠ rid.slot_id →
        GetTupleSize st'.page i = GetTupleSize pg i)
    ∧ (∀ i, i < GetTupleCount pg → i ≠ rid.slot_id →
        GetTupleOffset st'.page i
          = if GetTupleSize pg i ≠ 0 ∧ GetTupleOffset pg i < GetTupleOffset pg rid.slot_id
            then add32 (GetTupleOffset pg i) (trueSize (GetTupleSize pg rid.slot_id))
            else GetTupleOffset pg i)
    ∧ (∀ x, 24 + 8 * GetTupleCount pg ≤ x →
        st'.page x = memmove pg
          (GetFreeSpacePointer pg + trueSize (GetTupleSize pg rid.slot_id))
          (GetFreeSpacePointer pg)
          (sub32 (GetTupleOffset pg rid.slot_id) (GetFreeSpacePointer pg)) x) := by
  obtain ⟨hp, hs, h0, mk, st, hlog, _, _, hpage⟩ := ApplyDelete_inv pg rid txn lm st' h
  have hU : U32 = 4294967296 := rfl
  have hE : ∀ j, slotEntry j = 24 + 8 * j := fun j => rfl
  obtain ⟨hP, hdir, hfspP, hslots⟩ := hwf
  unfold SIZE_TABLE_PAGE_HEADER SIZE_SLOT at hdir
  have hfr := logBlock_frame _ _ _ _ _ hlog
  obtain ⟨f1, f2, f3, f4, f5⟩ := fields_of_lsn_frame _ _ hfr
  generalize hts : trueSize (GetTupleSize pg rid.slot_id) = ts at *
  generalize hoffk : GetTupleOffset pg rid.slot_id = off at *
  have hub : GetFreeSpacePointer pg + ts < U32 := by
    by_cases hz : ts = 0
    · have := get_u32_lt pg 16
      unfold GetFreeSpacePointer
      omega
    · have hown : OwnsPayload pg rid.slot_id := by
        unfold OwnsPayload; rw [hts]; exact hz
      obtain ⟨⟨a, b⟩, _⟩ := hslots rid.slot_id hs hown
      rw [hts, hoffk] at b
      rw [hoffk] at a
      omega
  have hke : ∀ i, i < GetTupleCount pg → slotEntry i + 8 ≤ GetFreeSpacePointer st.page := by
    intro i hi
    rw [hE, f2]; omega
  obtain ⟨w1, w2, w3, w4, w5, w6⟩ :=
    deleteWrites_fields st.page rid.slot_id off ts (hke _ hs) (by rw [f2]; exact hub)
  have hloop : deletePage st.page rid.slot_id off ts
      = offsetLoop (GetTupleCount pg) (fun o => decide (o < off)) (fun o => add32 o ts)
          (GetTupleCount pg) 0 (deleteWrites st.page rid.slot_id off ts) := by
    unfold deletePage
    simp only [w4, f3]
    exact deleteOffsets_eq_offsetLoop _ _ _ _ _ _
  obtain ⟨l1, l2⟩ := offsetLoop_spec (GetTupleCount pg) (fun o => decide (o < off))
    (fun o => add32 o ts) (GetTupleCount pg) 0 (deleteWrites st.page rid.slot_id off ts)
  rw [← hloop, ← hpage] at l1 l2
  have hout : ∀ x, (x < 24 ∨ 24 + 8 * GetTupleCount pg ≤ x ∨ (x - 24) % 8 ≥ 4) →
      st'.page x = deleteWrites st.page rid.slot_id off ts x := by
    intro x hx
    apply l1
    intro j _ hj _
    rw [hE]
    omega
  have hsize : ∀ i, i < GetTupleCount pg →
      GetTupleSize st'.page i = GetTupleSize (deleteWrites st.page rid.slot_id off ts) i := by
    intro i hi
    exact get_u32_congr _ _ _ (fun x hx1 hx2 => hout x (by rw [hE] at hx1 hx2; omega))
  refine ⟨hp, hs, h0, ?_, ?_, ?_, ?_, ?_, ?_, ?_, ?_⟩
  · rw [← f1, ← w5]
    exact get_u32_congr _ _ _ (fun x hx1 hx2 => hout x (by omega))
  · rw [← f2, ← w1]
    exact get_u32_congr _ _ _ (fun x hx1 hx2 => hout x (by omega))
  · rw [← f3, ← w4]
    exact get_u32_congr _ _ _ (fun x hx1 hx2 => hout x (by omega))
  · rw [hsize _ hs, w2]
  · rw [l2 _ (Nat.zero_le _) hs (by omega), w2]
    simp only [ne_eq, not_true_eq_false, false_and, if_false]
    exact w3
  · intro i hi hik
    rw [hsize _ hi, (w6 i (hke i hi) hik).2, f5]
  · intro i hi hik
    rw [l2 i (Nat.zero_le _) hi (by omega), (w6 i (hke i hi) hik).1, (w6 i (hke i hi) hik).2,
      f4, f5]
    simp only [decide_eq_true_eq]
    rw [Nat.mod_eq_of_lt (add32_lt _ _)]
  · intro x hx
    rw [hout x (by omega),
      deleteWrites_high st.page rid.slot_id off ts x (by rw [hE]; omega), f2]
    unfold memmove
    split
    · exact hfr _ (by omega)
    · exact hfr _ (by omega)


/-! ## Reachable pages are well-formed -/

/-- Well-formedness is preserved by `ApplyDelete`. -/
theorem ApplyDelete_wf (page_size : Nat) (pg : TablePage) (rid : RID)
    (txn : Option TransactionContext) (lm : Option LogManager) (st' : PageState)
    (hwf : WellFormed page_size pg) (h : ApplyDelete pg rid txn lm = some st') :
    WellFormed page_size st'.page := by
  obtain ⟨_, hs, h0, _, e1, e2, e3, _, e5, e6, _⟩ :=
    ApplyDelete_spec page_size pg rid txn lm st' hwf h
  obtain ⟨hP, hdir, hfspP, hslots⟩ := hwf
  unfold SIZE_TABLE_PAGE_HEADER SIZE_SLOT at hdir
  have hU : U32 = 4294967296 := rfl
  -- bounds of the deleted slot
  have hk : trueSize (GetTupleSize pg rid.slot_id) ≠ 0 →
      GetFreeSpacePointer pg ≤ GetTupleOffset pg rid.slot_id
      ∧ GetTupleOffset pg rid.slot_id + trueSize (GetTupleSize pg rid.slot_id) ≤ page_size :=
    fun hz => (hslots rid.slot_id hs hz).1
  -- where the other payload-owning slots end up
  have hpos : ∀ i, i < GetTupleCount pg → OwnsPayload st'.page i →
      i ≠ rid.slot_id ∧ OwnsPayload pg i ∧ GetTupleSize st'.page i = GetTupleSize pg i
      ∧ ((GetTupleOffset pg i + trueSize (GetTupleSize pg i) ≤ GetTupleOffset pg rid.slot_id
          ∧ GetTupleOffset st'.page i
              = GetTupleOffset pg i + trueSize (GetTupleSize pg rid.slot_id))
        ∨ (GetTupleOffset pg rid.slot_id + trueSize (GetTupleSize pg rid.slot_id)
              ≤ GetTupleOffset pg i
          ∧ GetTupleOffset st'.page i = GetTupleOffset pg i)
        ∨ (trueSize (GetTupleSize pg rid.slot_id) = 0
          ∧ GetTupleOffset st'.page i = GetTupleOffset pg i)) := by
    intro i hi hown
    have hik : i ≠ rid.slot_id := by
      intro hc
      unfold OwnsPayload at hown
      rw [hc, e3] at hown
      exact hown rfl
    have hsz := e5 i hi hik
    have howni : OwnsPayload pg i := by
      unfold OwnsPayload at hown ⊢
      rw [← hsz]; exact hown
    have hnz := size_ne_zero_of_owns _ _ howni
    have hoffi := e6 i hi hik
    obtain ⟨⟨hloi, hhii⟩, hdisj⟩ := hslots i hi howni
    refine ⟨hik, howni, hsz, ?_⟩
    by_cases hz : trueSize (GetTupleSize pg rid.slot_id) = 0
    · right; right
      refine ⟨hz, ?_⟩
      rw [hoffi, hz]
      split
      · have := get_u32_lt pg (slotEntry i)
        exact add32_eq _ _ (by unfold GetTupleOffset; omega)
      · rfl
    · have hd := hdisj rid.slot_id hs hik hz
      unfold SlotsDisjoint at hd
      obtain ⟨ka, kb⟩ := hk hz
      unfold OwnsPayload at howni
      by_cases hlt : GetTupleOffset pg i < GetTupleOffset pg rid.slot_id
      · left
        rw [if_pos ⟨hnz, hlt⟩, add32_eq _ _ (by omega)] at hoffi
        exact ⟨by omega, hoffi⟩
      · right; left
        rw [if_neg (fun hc => hlt hc.2)] at hoffi
        exact ⟨by omega, hoffi⟩
  refine ⟨hP, ?_, ?_, ?_⟩
  · rw [e1, e2]; unfold SIZE_TABLE_PAGE_HEADER SIZE_SLOT; omega
  · rw [e1]
    by_cases hz : trueSize (GetTupleSize pg rid.slot_id) = 0
    · omega
    · have := hk hz; omega
  · intro i hi hown
    rw [e2] at hi
    obtain ⟨hik, howni, hsz, hcase⟩ := hpos i hi hown
    obtain ⟨⟨hloi, hhii⟩, hdisj⟩ := hslots i hi howni
    refine ⟨?_, ?_⟩
    · rw [e1, hsz]
      rcases hcase with ⟨a, b⟩ | ⟨a, b⟩ | ⟨a, b⟩
      · have hz : trueSize (GetTupleSize pg rid.slot_id) ≠ 0 ∨
            trueSize (GetTupleSize pg rid.slot_id) = 0 := by omega
        rcases hz with hz | hz
        · have := hk hz; omega
        · omega
      · omega
      · omega
    · intro j hj hij hownj
      rw [e2] at hj
      obtain ⟨hjk, hownj', hszj, hcasej⟩ := hpos j hj hownj
      have hd := hdisj j hj hij hownj'
      unfold SlotsDisjoint at hd ⊢
      unfold OwnsPayload at howni hownj'
      rw [hsz, hszj]
      rcases hcase with ⟨a, b⟩ | ⟨a, b⟩ | ⟨a, b⟩ <;>
      rcases hcasej with ⟨a', b'⟩ | ⟨a', b'⟩ | ⟨a', b'⟩ <;> omega

/-- Every page reachable from `Init(page_size)`, for a page size that has room
for the header, is well-formed. -/
theorem Reachable_wf (page_size : Nat) (pg : TablePage) (h24 : 24 ≤ page_size)
    (hP : page_size < U32) (hr : Reachable page_size pg) : WellFormed page_size pg := by
  induction hr with
  | init pg page_id prev_page_id txn lm => exact Init_wf pg page_id page_size prev_page_id txn lm h24 hP
  | insert tuple txn lm r _ h ih => exact InsertTuple_wf page_size _ tuple txn lm r ih h
  | markDelete rid txn lm r _ h ih => exact MarkDelete_wf page_size _ rid txn lm r ih h
  | update new_tuple old_tuple rid txn lm r _ h ih =>
    exact UpdateTuple_wf page_size _ new_tuple old_tuple rid txn lm r ih h
  | applyDelete rid txn lm st _ h ih => exact ApplyDelete_wf page_size _ rid txn lm st ih h
  | rollbackDelete rid txn lm st _ h ih =>
    exact RollbackDelete_wf page_size _ rid txn lm st ih h


/-! ## Fit check of UpdateTuple and maximum tuple size -/

/-- The fit check of `UpdateTuple` on a live slot of a well-formed page: the
call returns, it succeeds exactly when the new tuple is no larger than the free
bytes plus the old size, and a success leaves that difference as free bytes. -/
theorem UpdateTuple_fit (page_size : Nat) (pg : TablePage) (new_tuple old_tuple : Tuple)
    (rid : RID) (txn : Option TransactionContext) (lm : Option LogManager)
    (hwf : WellFormed page_size pg) (hlive : LiveSlot pg rid) (hpos : 0 < new_tuple.size)
    (hctx : CtxOk txn lm) :
    ∃ r, UpdateTuple pg new_tuple old_tuple rid txn lm = some r
      ∧ (r.ok = true ↔ new_tuple.size ≤ freeBytes pg + GetTupleSize pg rid.slot_id)
      ∧ (r.ok = true →
          freeBytes r.state.page + new_tuple.size
            = freeBytes pg + GetTupleSize pg rid.slot_id) := by
  obtain ⟨r, hr⟩ := UpdateTuple_isSome pg new_tuple old_tuple rid txn lm hlive hpos hctx
  have hwf' := hwf
  obtain ⟨hP, hdir, hfspP, hslots⟩ := hwf
  obtain ⟨hp, hs, h0, h1⟩ := hlive
  obtain ⟨hown, hts⟩ := OwnsPayload_of_live pg rid.slot_id h0 h1
  obtain ⟨⟨hoff, hend⟩, _⟩ := hslots rid.slot_id hs hown
  rw [hts] at hend
  have hfree := GetFreeSpaceRemaining_eq pg hdir
  have hfb : freeBytes pg + (24 + 8 * GetTupleCount pg) = GetFreeSpacePointer pg := by
    unfold freeBytes SIZE_TABLE_PAGE_HEADER SIZE_SLOT at *; omega
  refine ⟨r, hr, ?_, ?_⟩
  · obtain ⟨_, _, hcase⟩ := UpdateTuple_inv pg new_tuple old_tuple rid txn lm r hr
    rcases hcase with ⟨hf, _, _, _, _, hwhy⟩ | ⟨ht, _, _, _, hfit, _⟩
    · constructor
      · intro ht; rw [hf] at ht; exact absurd ht (by simp)
      · intro hle
        exfalso
        rcases hwhy with hc | hc | ⟨_, _, _, hc⟩
        · omega
        · exact h0 hc
        · rw [hfree, add32_eq _ _ (by omega)] at hc
          omega
    · rw [hfree, add32_eq _ _ (by omega)] at hfit
      exact ⟨fun _ => by omega, fun _ => ht⟩
  · intro hok
    obtain ⟨_, _, hfit, _, e1, e2, _⟩ :=
      UpdateTuple_true_spec page_size pg new_tuple old_tuple rid txn lm r hwf' hr hok
    unfold freeBytes
    rw [e1, e2]
    unfold freeBytes at hfb
    unfold SIZE_TABLE_PAGE_HEADER SIZE_SLOT at *
    omega

/-- C9. Update fit check: on a well-formed page, for a rid naming a live slot of
current size `old_size` and a new tuple of size `n > 0`, `UpdateTuple` returns a
result; it returns false if and only if `free_bytes + old_size < n`; otherwise
it returns true and the new free bytes are `free_bytes + old_size - n`. -/
theorem update_fit_check (page_size : Nat) (pg : TablePage) (new_tuple old_tuple : Tuple)
    (rid : RID) (txn : Option TransactionContext) (lm : Option LogManager)
    (hwf : WellFormed page_size pg) (hlive : LiveSlot pg rid) (hpos : 0 < new_tuple.size)
    (hctx : CtxOk txn lm) :
    ∃ r, UpdateTuple pg new_tuple old_tuple rid txn lm = some r
      ∧ (r.ok = false ↔ freeBytes pg + GetTupleSize pg rid.slot_id < new_tuple.size)
      ∧ (¬ freeBytes pg + GetTupleSize pg rid.slot_id < new_tuple.size →
          r.ok = true
          ∧ freeBytes r.state.page
              = freeBytes pg + GetTupleSize pg rid.slot_id - new_tuple.size) := by
  obtain ⟨r, hr, hiff, hfb⟩ :=
    UpdateTuple_fit page_size pg new_tuple old_tuple rid txn lm hwf hlive hpos hctx
  refine ⟨r, hr, ?_, ?_⟩
  · constructor
    · intro hf
      by_contra hc
      have := hiff.2 (by omega)
      rw [hf] at this
      exact absurd this (by simp)
    · intro hlt
      cases hb : r.ok with
      | false => rfl
      | true =>
        have := hiff.1 hb
        omega
  · intro hfit
    have hok : r.ok = true := hiff.2 (by omega)
    have := hfb hok
    exact ⟨hok, by omega⟩

/-- A concrete instance of the update fit check: shrinking the 8-byte tuple of a
one-tuple page to 6 bytes. -/
theorem update_fit_check_witness :
    WellFormed 4096 (pageAfterInsert examplePage exampleTuple)
    ∧ LiveSlot (pageAfterInsert examplePage exampleTuple) ⟨7, 0⟩
    ∧ ∃ r, UpdateTuple (pageAfterInsert examplePage exampleTuple) exampleTuple6 Tuple.default
        ⟨7, 0⟩ none none = some r
      ∧ (r.ok = false ↔ freeBytes (pageAfterInsert examplePage exampleTuple)
          + GetTupleSize (pageAfterInsert examplePage exampleTuple) 0 < 6)
      ∧ (¬ freeBytes (pageAfterInsert examplePage exampleTuple)
          + GetTupleSize (pageAfterInsert examplePage exampleTuple) 0 < 6 →
          r.ok = true
          ∧ freeBytes r.state.page = freeBytes (pageAfterInsert examplePage exampleTuple)
              + GetTupleSize (pageAfterInsert examplePage exampleTuple) 0 - 6) :=
  ⟨by decide, by decide,
    update_fit_check 4096 (pageAfterInsert examplePage exampleTuple) exampleTuple6
      Tuple.default ⟨7, 0⟩ none none (by decide) (by decide) (by decide) (by decide)⟩

/-- C7. Maximum tuple size: on every page reachable from `Init(page_size)` by
the page operations, `InsertTuple` of a tuple whose size exceeds
`page_size - 24 - 8` returns false and leaves the page, the transaction context
and the log manager as they were. -/
theorem max_tuple_size (page_size : Nat) (pg : TablePage) (tuple : Tuple)
    (txn : Option TransactionContext) (lm : Option LogManager)
    (h24 : 24 ≤ page_size) (hP : page_size < U32) (hr : Reachable page_size pg)
    (hbig : page_size - 24 - 8 < tuple.size) :
    ∃ r, InsertTuple pg tuple txn lm = some r ∧ r.ok = false ∧ r.rid = none
      ∧ r.state.page = pg ∧ r.state.txn = txn ∧ r.state.log_manager = lm := by
  obtain ⟨_, hdir, hfspP, _⟩ := Reachable_wf page_size pg h24 hP hr
  have hfree := GetFreeSpaceRemaining_eq pg hdir
  have hfb : freeBytes pg + (24 + 8 * GetTupleCount pg) = GetFreeSpacePointer pg := by
    unfold freeBytes SIZE_TABLE_PAGE_HEADER SIZE_SLOT at *; omega
  have hU : U32 = 4294967296 := rfl
  obtain ⟨_, hkle, _, _⟩ :=
    findFreeSlot_spec pg (GetTupleCount pg) (GetTupleCount pg) 0 (by omega)
  unfold InsertTuple
  simp only [Tuple.GetSize, gt_iff_lt, show 0 < tuple.size by omega, not_true_eq_false,
    if_false, hfree]
  by_cases h1 : freeBytes pg < tuple.size
  · rw [if_pos h1]
    exact ⟨_, rfl, rfl, rfl, rfl, rfl, rfl⟩
  · rw [if_neg h1, if_pos]
    · exact ⟨_, rfl, rfl, rfl, rfl, rfl, rfl⟩
    · constructor
      · omega
      · rw [add32_eq _ _ (by unfold SIZE_SLOT; omega)]
        unfold SIZE_SLOT
        omega

/-- A concrete instance of the maximum tuple size: a 4065-byte tuple does not go
into a fresh 4096-byte page. -/
theorem max_tuple_size_witness :
    Reachable 4096 examplePage ∧ 4096 - 24 - 8 < (constTuple 4065 0).size
    ∧ ∃ r, InsertTuple examplePage (constTuple 4065 0) none none = some r ∧ r.ok = false
      ∧ r.rid = none ∧ r.state.page = examplePage ∧ r.state.txn = none
      ∧ r.state.log_manager = none :=
  ⟨Reachable.init _ _ _ _ _, by decide,
    max_tuple_size 4096 examplePage (constTuple 4065 0) none none (by decide) (by decide)
      (Reachable.init _ _ _ _ _) (by decide)⟩


/-! ## Seed scenario 4 and the stored bytes of a tuple -/

/-- Two updates in a row on the same live slot: when the first one fits, the slot
is still live afterwards with the new size, and the second one is decided by
the free bytes left by the first. -/
theorem UpdateTuple_twice (page_size : Nat) (pg : TablePage) (t1 t2 old1 old2 : Tuple)
    (rid : RID) (txn txn2 : Option TransactionContext) (lm lm2 : Option LogManager)
    (hwf : WellFormed page_size pg) (hlive : LiveSlot pg rid)
    (hp1 : 0 < t1.size) (hp2 : 0 < t2.size) (hlt1 : t1.size < DELETE_MASK)
    (hfit1 : t1.size ≤ freeBytes pg + GetTupleSize pg rid.slot_id)
    (hctx : CtxOk txn lm) (hctx2 : CtxOk txn2 lm2) :
    ∃ r1 r2, UpdateTuple pg t1 old1 rid txn lm = some r1 ∧ r1.ok = true
      ∧ freeBytes r1.state.page + t1.size = freeBytes pg + GetTupleSize pg rid.slot_id
      ∧ UpdateTuple r1.state.page t2 old2 rid txn2 lm2 = some r2
      ∧ (r2.ok = true ↔ t2.size ≤ freeBytes pg + GetTupleSize pg rid.slot_id) := by
  obtain ⟨r1, hr1, hiff1, hfree1⟩ :=
    UpdateTuple_fit page_size pg t1 old1 rid txn lm hwf hlive hp1 hctx
  have hok1 : r1.ok = true := hiff1.2 hfit1
  have hfb1 := hfree1 hok1
  obtain ⟨⟨hp, hs, _, _⟩, _, _, e0, _, e2, e3, _⟩ :=
    UpdateTuple_true_spec page_size pg t1 old1 rid txn lm r1 hwf hr1 hok1
  have hwf1 := UpdateTuple_wf page_size pg t1 old1 rid txn lm r1 hwf hr1
  have hlive1 : LiveSlot r1.state.page rid :=
    ⟨by rw [e0]; exact hp, by rw [e2]; exact hs, by rw [e3]; omega, by rw [e3]; exact hlt1⟩
  obtain ⟨r2, hr2, hiff, _⟩ :=
    UpdateTuple_fit page_size r1.state.page t2 old2 rid txn2 lm2 hwf1 hlive1 hp2 hctx2
  refine ⟨r1, r2, hr1, hok1, hfb1, hr2, ?_⟩
  rw [hiff, e3, hfb1]

/-- C10 (amended). Seed scenario 4 as the code runs it: on a well-formed page
where the rid names a live 200-byte tuple and 250 bytes are free, `UpdateTuple`
to a 150-byte tuple succeeds in place and leaves 300 free bytes, and the
subsequent `UpdateTuple` to a 300-byte tuple succeeds as well, because
`free_bytes + old_size = 300 + 150` is not below 300. -/
theorem seed_scenario4_amended (page_size : Nat) (pg : TablePage) (t150 t300 old1 old2 : Tuple)
    (rid : RID) (txn txn2 : Option TransactionContext) (lm lm2 : Option LogManager)
    (hwf : WellFormed page_size pg) (hlive : LiveSlot pg rid)
    (h200 : GetTupleSize pg rid.slot_id = 200) (h250 : freeBytes pg = 250)
    (h150 : t150.size = 150) (h300 : t300.size = 300)
    (hctx : CtxOk txn lm) (hctx2 : CtxOk txn2 lm2) :
    ∃ r1 r2, UpdateTuple pg t150 old1 rid txn lm = some r1 ∧ r1.ok = true
      ∧ freeBytes r1.state.page = 300
      ∧ UpdateTuple r1.state.page t300 old2 rid txn2 lm2 = some r2 ∧ r2.ok = true := by
  obtain ⟨r1, r2, hr1, hok1, hfb1, hr2, hiff⟩ :=
    UpdateTuple_twice page_size pg t150 t300 old1 old2 rid txn txn2 lm lm2 hwf hlive
      (by omega) (by omega) (by rw [h150]; decide) (by omega) hctx hctx2
  exact ⟨r1, r2, hr1, hok1, by omega, hr2, hiff.2 (by omega)⟩

/-- A concrete instance of the amended scenario: the 482-byte page holding one
200-byte tuple. -/
theorem seed_scenario4_amended_witness :
    WellFormed 482 (pageAfterInsert smallPage (constTuple 200 1))
    ∧ LiveSlot (pageAfterInsert smallPage (constTuple 200 1)) ⟨7, 0⟩
    ∧ GetTupleSize (pageAfterInsert smallPage (constTuple 200 1)) 0 = 200
    ∧ freeBytes (pageAfterInsert smallPage (constTuple 200 1)) = 250
    ∧ ∃ r1 r2, UpdateTuple (pageAfterInsert smallPage (constTuple 200 1)) (constTuple 150 2)
          Tuple.default ⟨7, 0⟩ none none = some r1 ∧ r1.ok = true
      ∧ freeBytes r1.state.page = 300
      ∧ UpdateTuple r1.state.page (constTuple 300 3) Tuple.default ⟨7, 0⟩ none none = some r2
      ∧ r2.ok = true :=
  ⟨by decide, by decide, by decide, by decide,
    seed_scenario4_amended 482 (pageAfterInsert smallPage (constTuple 200 1))
      (constTuple 150 2) (constTuple 300 3) Tuple.default Tuple.default ⟨7, 0⟩ none none
      none none (by decide) (by decide) (by decide) (by decide) rfl rfl (by decide)
      (by decide)⟩

/-- C10 (counterexample). On the 482-byte page that holds one live 200-byte tuple
and has 250 free bytes, the update to 150 bytes succeeds and the following
update to 300 bytes is not rejected: it returns true. -/
theorem seed_scenario4_counterexample :
    LiveSlot (pageAfterInsert smallPage (constTuple 200 1)) ⟨7, 0⟩
    ∧ GetTupleSize (pageAfterInsert smallPage (constTuple 200 1)) 0 = 200
    ∧ freeBytes (pageAfterInsert smallPage (constTuple 200 1)) = 250
    ∧ (UpdateTuple (pageAfterInsert smallPage (constTuple 200 1)) (constTuple 150 2)
        Tuple.default ⟨7, 0⟩ none none).map (fun r => r.ok) = some true
    ∧ ¬ ((UpdateTuple
        (pageAfterUpdate (pageAfterInsert smallPage (constTuple 200 1)) (constTuple 150 2)
          ⟨7, 0⟩)
        (constTuple 300 3) Tuple.default ⟨7, 0⟩ none none).map (fun r => r.ok)
        = some false) := by
  decide

/-- C1 (the code at the failing input). Inserting the 8-byte tuple
`[1, 2, 3, 4, 5, 6, 7, 8]` into a fresh 4096-byte page returns true with rid
`(7, 0)`, and `GetTuple` on that rid returns true with size 8 and rid `(7, 0)`,
but with the payload `[8, 0, 0, 0, 1, 2, 3, 4]`: the slot holds the 4-byte
length prefix written by `SerializeTo` followed by the first 4 payload bytes. -/
theorem insert_then_get_at_failing_input :
    (InsertTuple examplePage exampleTuple none none).map (fun r => (r.ok, r.rid))
      = some (true, some ⟨7, 0⟩)
    ∧ GetTuple (pageAfterInsert examplePage exampleTuple) ⟨7, 0⟩ Tuple.default
      = some (true, ⟨true, ⟨7, 0⟩, 8, [8, 0, 0, 0, 1, 2, 3, 4]⟩)
    ∧ exampleTuple.data = [1, 2, 3, 4, 5, 6, 7, 8] := by
  decide

/-- C2 (the code at the failing input). On the page holding the 8-byte tuple at
rid `(7, 0)`, `UpdateTuple` with the 6-byte tuple `[9, 9, 9, 9, 9, 9]` returns
true and hands back as old tuple exactly what `GetTuple` returned before, but
`GetTuple` after the update yields the payload `[6, 0, 0, 0, 9, 9]` instead of
the new tuple's bytes. -/
theorem update_then_get_at_failing_input :
    LiveSlot (pageAfterInsert examplePage exampleTuple) ⟨7, 0⟩
    ∧ (UpdateTuple (pageAfterInsert examplePage exampleTuple) exampleTuple6 Tuple.default
        ⟨7, 0⟩ none none).map (fun r => (r.ok, r.old_tuple))
      = some (true, ⟨true, ⟨7, 0⟩, 8, [8, 0, 0, 0, 1, 2, 3, 4]⟩)
    ∧ GetTuple (pageAfterInsert examplePage exampleTuple) ⟨7, 0⟩ Tuple.default
      = some (true, ⟨true, ⟨7, 0⟩, 8, [8, 0, 0, 0, 1, 2, 3, 4]⟩)
    ∧ GetTuple (pageAfterUpdate (pageAfterInsert examplePage exampleTuple) exampleTuple6
        ⟨7, 0⟩) ⟨7, 0⟩ Tuple.default
      = some (true, ⟨true, ⟨7, 0⟩, 6, [6, 0, 0, 0, 9, 9]⟩)
    ∧ exampleTuple6.data = [9, 9, 9, 9, 9, 9] := by
  decide


/-! ## Concrete instances -/

/-- A concrete instance of mark-then-rollback: the one-tuple page. -/
theorem mark_then_rollback_witness :
    WellFormed 4096 (pageAfterInsert examplePage exampleTuple)
    ∧ LiveSlot (pageAfterInsert examplePage exampleTuple) ⟨7, 0⟩
    ∧ ∃ r1 st2 t, MarkDelete (pageAfterInsert examplePage exampleTuple) ⟨7, 0⟩ none none
          = some r1 ∧ r1.ok = true
      ∧ RollbackDelete r1.state.page ⟨7, 0⟩ none none = some st2
      ∧ GetTuple (pageAfterInsert examplePage exampleTuple) ⟨7, 0⟩ Tuple.default
          = some (true, t)
      ∧ GetTuple st2.page ⟨7, 0⟩ Tuple.default = some (true, t)
      ∧ GetTupleOffset st2.page 0 = GetTupleOffset (pageAfterInsert examplePage exampleTuple) 0
      ∧ GetTupleSize st2.page 0 = GetTupleSize (pageAfterInsert examplePage exampleTuple) 0 :=
  ⟨by decide, by decide,
    mark_then_rollback 4096 (pageAfterInsert examplePage exampleTuple) ⟨7, 0⟩ none none none
      none Tuple.default (by decide) (by decide) (by decide) (by decide)⟩

/-- A concrete instance of the insert fit check: an 8-byte tuple and a fresh
4096-byte page. -/
theorem insert_fit_check_witness :
    WellFormed 4096 examplePage ∧ 0 < exampleTuple.size
    ∧ ∃ r, InsertTuple examplePage exampleTuple none none = some r
      ∧ (r.ok = true ↔
          (HasFreeSlot examplePage ∧ exampleTuple.size ≤ freeBytes examplePage)
          ∨ (¬ HasFreeSlot examplePage ∧ exampleTuple.size + 8 ≤ freeBytes examplePage))
      ∧ (HasFreeSlot examplePage → exampleTuple.size = freeBytes examplePage → r.ok = true)
      ∧ (¬ HasFreeSlot examplePage → exampleTuple.size + 1 = freeBytes examplePage →
          r.ok = false) :=
  ⟨by decide, by decide,
    insert_fit_check 4096 examplePage exampleTuple none none (by decide) (by decide)
      (by decide)⟩

/-- The insert of the 8-byte tuple into the fresh page returns a result. -/
theorem exampleInsert_isSome :
    (InsertTuple examplePage exampleTuple none none).isSome = true := by decide

/-- A concrete instance of the slot selection: the first insert into a fresh
page goes to slot 0 and makes the tuple count 1. -/
theorem insert_slot_selection_witness :
    WellFormed 4096 examplePage
    ∧ ((InsertTuple examplePage exampleTuple none none).get exampleInsert_isSome).ok = true
    ∧ ∃ k, ((InsertTuple examplePage exampleTuple none none).get exampleInsert_isSome).rid
          = some ⟨GetPageId examplePage, k⟩
      ∧ IsFirstFreeSlot examplePage k
      ∧ GetTupleCount
          ((InsertTuple examplePage exampleTuple none none).get exampleInsert_isSome).state.page
          = (if k = GetTupleCount examplePage then GetTupleCount examplePage + 1
            else GetTupleCount examplePage) :=
  ⟨by decide, by decide,
    (insert_slot_selection 4096 examplePage exampleTuple none none
      ((InsertTuple examplePage exampleTuple none none).get exampleInsert_isSome)
      (by decide) (Option.some_get exampleInsert_isSome).symm (by decide)).1⟩

/-- A concrete instance of the page capacity: of 38 inserts of 100-byte tuples
into a fresh 4096-byte page, the first 37 return true and the last returns
false. -/
theorem page_capacity_witness :
    (∀ t, t ∈ List.replicate 38 (constTuple 100 1) → t.size = 100)
    ∧ ∃ st', insertMany ⟨Init (fun _ => 0) 7 4096 INVALID_PAGE_ID none none, none, none⟩
        (List.replicate 38 (constTuple 100 1))
        = some ((List.range (List.replicate 38 (constTuple 100 1)).length).map
            (fun i => decide (i < (4096 - 24) / (100 + 8))), st') :=
  ⟨by decide,
    (page_capacity (fun _ => 0) 7 4096 INVALID_PAGE_ID none none none none
      (List.replicate 38 (constTuple 100 1)) 100 (by decide) (by decide) (by decide)
      (by decide) (by decide)).1⟩

/-! ## What GetTuple reads back after InsertTuple and UpdateTuple -/

theorem readBytes_take (m : RawMem) (a n k : Nat) :
    readBytes m a n = (readBytes m a (n + k)).take n := by
  rw [readBytes_append, List.take_append_of_le_length (by rw [readBytes_length]),
    List.take_of_length_le (by rw [readBytes_length])]

/-- The first `n` bytes at the place `SerializeTo` wrote to are the first `n`
bytes of the length field followed by the payload. -/
theorem SerializeTo_readBytes (t : Tuple) (m : RawMem) (a n : Nat) (hn : n ≤ 4 + t.size) :
    readBytes (t.SerializeTo m a) a n = (le32 t.size ++ t.payload).take n := by
  obtain ⟨k, hk⟩ : ∃ k, 4 + t.size = n + k := ⟨4 + t.size - n, by omega⟩
  rw [readBytes_take _ _ n k, ← hk, readBytes_append, SerializeTo_size, SerializeTo_payload]

/-- What `GetTuple` reads back after a successful `InsertTuple` on a well-formed
page (for a size below the delete mark): the size and the rid of the inserted
tuple, and as payload the first `size` bytes of the 4-byte length field
followed by the tuple's payload. -/
theorem InsertTuple_then_GetTuple (page_size : Nat) (pg : TablePage) (tuple : Tuple)
    (txn : Option TransactionContext) (lm : Option LogManager) (r : InsertResult) (t0 : Tuple)
    (hwf : WellFormed page_size pg) (h : InsertTuple pg tuple txn lm = some r)
    (hok : r.ok = true) (hlt : tuple.size < DELETE_MASK) :
    ∃ rid, r.rid = some rid
      ∧ GetTuple r.state.page rid t0
        = some (true, ⟨true, rid, tuple.size,
            (le32 tuple.size ++ tuple.payload).take tuple.size⟩) := by
  obtain ⟨hpos, _⟩ := InsertTuple_inv pg tuple txn lm r h
  obtain ⟨_, _, e0, e1, _, e2, e3, e4, _, e5⟩ :=
    InsertTuple_true_spec pg tuple txn lm r hwf.2.1 h hok
  obtain ⟨_, hkle, _, _⟩ :=
    findFreeSlot_spec pg (GetTupleCount pg) (GetTupleCount pg) 0 (by omega)
  generalize findFreeSlot pg (GetTupleCount pg) (GetTupleCount pg) 0 = k at *
  have hlive : LiveSlot r.state.page ⟨GetPageId pg, k⟩ := by
    refine ⟨e1.symm, ?_, by rw [e4]; omega, by rw [e4]; exact hlt⟩
    show k < GetTupleCount r.state.page
    rw [e2]
    split <;> omega
  refine ⟨_, e0, ?_⟩
  rw [GetTuple_live _ _ t0 hlive]
  show some (true, (⟨true, _, GetTupleSize r.state.page k,
    readBytes r.state.page (GetTupleOffset r.state.page k) (GetTupleSize r.state.page k)⟩
    : Tuple)) = _
  rw [e3, e4, readBytes_congr _ _ _ _ (fun x hx _ => e5 x hx),
    SerializeTo_readBytes _ _ _ _ (by omega)]

/-- What `UpdateTuple` hands back and what `GetTuple` reads afterwards, on a
well-formed page (for a new size below the delete mark): the old tuple is what
`GetTuple` returned before, and the tuple read back has the new size and the
rid, and as payload the first `size` bytes of the 4-byte length field followed
by the new tuple's payload. -/
theorem UpdateTuple_then_GetTuple (page_size : Nat) (pg : TablePage)
    (new_tuple old_tuple : Tuple) (rid : RID) (txn : Option TransactionContext)
    (lm : Option LogManager) (r : UpdateResult) (t0 : Tuple)
    (hwf : WellFormed page_size pg)
    (h : UpdateTuple pg new_tuple old_tuple rid txn lm = some r) (hok : r.ok = true)
    (hlt : new_tuple.size < DELETE_MASK) :
    GetTuple pg rid old_tuple = some (true, r.old_tuple)
    ∧ GetTuple r.state.page rid t0
      = some (true, ⟨true, rid, new_tuple.size,
          (le32 new_tuple.size ++ new_tuple.payload).take new_tuple.size⟩) := by
  obtain ⟨hlive, hpos, hfit, e0, e1, e2, e3, _, _, e6, hold⟩ :=
    UpdateTuple_true_spec page_size pg new_tuple old_tuple rid txn lm r hwf h hok
  have hU : DELETE_MASK = 2147483648 := rfl
  have hown : OwnsPayload r.state.page rid.slot_id := by
    unfold OwnsPayload trueSize
    rw [e3, Nat.mod_eq_of_lt hlt]; omega
  have hposk := UpdateTuple_slot_pos page_size pg new_tuple old_tuple rid txn lm r hwf h hok
    rid.slot_id hlive.2.1 hown
  have hoff : GetTupleOffset r.state.page rid.slot_id + new_tuple.size
      = GetTupleOffset pg rid.slot_id + GetTupleSize pg rid.slot_id := by
    rcases hposk with ⟨_, _, a⟩ | ⟨a, _⟩ | ⟨a, _⟩
    · exact a
    · exact absurd rfl a
    · exact absurd rfl a
  obtain ⟨hp, hs, h0, h1⟩ := hlive
  obtain ⟨_, hdir, _, hslots⟩ := hwf
  obtain ⟨hownk, hts⟩ := OwnsPayload_of_live pg rid.slot_id h0 h1
  obtain ⟨⟨hlo, _⟩, _⟩ := hslots rid.slot_id hs hownk
  have hlive' : LiveSlot r.state.page rid :=
    ⟨by rw [e0]; exact hp, by rw [e2]; exact hs, by rw [e3]; omega, by rw [e3]; exact hlt⟩
  constructor
  · rw [GetTuple_live pg rid old_tuple ⟨hp, hs, h0, h1⟩, hold]
    rfl
  · rw [GetTuple_live _ _ t0 hlive', e3]
    have hoffeq : GetTupleOffset r.state.page rid.slot_id
        = GetTupleOffset pg rid.slot_id + GetTupleSize pg rid.slot_id - new_tuple.size := by
      omega
    rw [hoffeq, readBytes_congr _ _ _ _ (fun x hx _ => e6 x (by omega)),
      SerializeTo_readBytes _ _ _ _ (by omega)]


/-! ## Failure atomicity -/

/-- C11. Failure atomicity: whenever `InsertTuple`, `MarkDelete` or `UpdateTuple`
returns false, the page bytes (header with LSN, slot directory, payload) are
unchanged, the log manager is unchanged (no record appended) and the
transaction context, hence its prev-LSN, is unchanged. -/
theorem failure_atomicity (pg : TablePage) (txn : Option TransactionContext)
    (lm : Option LogManager) (call : FlagCall) (r : BoolResult)
    (h : call.run pg txn lm = some r) (hf : r.ok = false) :
    r.state.page = pg ∧ r.state.txn = txn ∧ r.state.log_manager = lm := by
  cases call with
  | insert tuple =>
    simp only [FlagCall.run, Option.map_eq_some'] at h
    obtain ⟨r', hr', hrr⟩ := h
    subst hrr
    obtain ⟨_, hcase⟩ := InsertTuple_inv pg tuple txn lm r' hr'
    rcases hcase with ⟨_, _, a, b, c, _⟩ | ⟨ht, _⟩
    · exact ⟨a, b, c⟩
    · simp only at hf; rw [hf] at ht; exact absurd ht (by simp)
  | markDelete rid =>
    simp only [FlagCall.run] at h
    obtain ⟨_, hcase⟩ := MarkDelete_inv pg rid txn lm r h
    rcases hcase with ⟨_, a, b, c, _⟩ | ⟨ht, _⟩
    · exact ⟨a, b, c⟩
    · rw [hf] at ht; exact absurd ht (by simp)
  | update new_tuple old_tuple rid =>
    simp only [FlagCall.run, Option.map_eq_some'] at h
    obtain ⟨r', hr', hrr⟩ := h
    subst hrr
    obtain ⟨_, _, hcase⟩ := UpdateTuple_inv pg new_tuple old_tuple rid txn lm r' hr'
    rcases hcase with ⟨_, _, a, b, c, _⟩ | ⟨ht, _⟩
    · exact ⟨a, b, c⟩
    · simp only at hf; rw [hf] at ht; exact absurd ht (by simp)

/-- A concrete instance of failure atomicity: a 4065-byte tuple is refused by a
fresh 4096-byte page, with logging switched on. -/
theorem failure_atomicity_witness :
    (FlagCall.insert (constTuple 4065 0)).run examplePage (some ⟨1, 0⟩) (some ⟨[], 5⟩)
      = some ⟨false, ⟨examplePage, some ⟨1, 0⟩, some ⟨[], 5⟩⟩⟩
    ∧ examplePage = examplePage
    ∧ (some ⟨1, 0⟩ : Option TransactionContext) = some ⟨1, 0⟩
    ∧ (some ⟨[], 5⟩ : Option LogManager) = some ⟨[], 5⟩ :=
  ⟨rfl, failure_atomicity examplePage (some ⟨1, 0⟩) (some ⟨[], 5⟩)
    (FlagCall.insert (constTuple 4065 0)) ⟨false, ⟨examplePage, some ⟨1, 0⟩, some ⟨[], 5⟩⟩⟩
    rfl rfl⟩


/-! ## Slot enumeration -/

theorem IsDeleted_eq_false_iff_live (pg : TablePage) (i : Nat) (hi : i < GetTupleCount pg) :
    IsDeleted (GetTupleSize pg i) = false ↔ LiveAt pg i := by
  rw [IsDeleted_false_iff (GetTupleSize pg i) (get_u32_lt _ _)]
  unfold LiveAt
  constructor
  · exact fun h => ⟨hi, h⟩
  · exact fun h => h.2

/-- The scan loop returns the first slot at or after its start that readers
see, or nothing when there is none; the fuel must cover the rest of the
directory. -/
theorem findTuple_spec (pg : TablePage) :
    ∀ fuel i, GetTupleCount pg ≤ i + fuel →
      (∃ k, findTuple pg (GetTupleCount pg) fuel i = some k ∧ IsFirstLiveFrom pg i k)
      ∨ (findTuple pg (GetTupleCount pg) fuel i = none ∧ NoLiveFrom pg i) := by
  intro fuel
  induction fuel with
  | zero =>
    intro i hi
    right
    refine ⟨rfl, fun j hj hl => ?_⟩
    have := hl.1
    omega
  | succ n ih =>
    intro i hi
    simp only [findTuple]
    by_cases hic : i < GetTupleCount pg
    · rw [if_pos hic]
      cases hd : IsDeleted (GetTupleSize pg i) with
      | false =>
        left
        simp only [Bool.false_eq_true, not_false_eq_true, if_true]
        exact ⟨i, rfl, le_refl _, (IsDeleted_eq_false_iff_live pg i hic).1 hd,
          fun j h1 h2 => by omega⟩
      | true =>
        simp only [not_true_eq_false, if_false]
        have hnl : ¬ LiveAt pg i := by
          intro hl
          have := (IsDeleted_eq_false_iff_live pg i hic).2 hl
          rw [hd] at this
          exact absurd this (by simp)
        rcases ih (i + 1) (by omega) with ⟨k, hk, h1, h2, h3⟩ | ⟨hn, hno⟩
        · left
          refine ⟨k, hk, by omega, h2, ?_⟩
          intro j hj1 hj2
          by_cases hji : j = i
          · rw [hji]; exact hnl
          · exact h3 j (by omega) hj2
        · right
          refine ⟨hn, ?_⟩
          intro j hj
          by_cases hji : j = i
          · rw [hji]; exact hnl
          · exact hno j (by omega)
    · rw [if_neg hic]
      right
      refine ⟨rfl, fun j hj hl => ?_⟩
      have := hl.1
      omega

/-- The result of `GetFirstTupleRid`. -/
theorem GetFirstTupleRid_spec (pg : TablePage) :
    (∃ k, GetFirstTupleRid pg = (true, ⟨GetPageId pg, k⟩) ∧ IsFirstLiveFrom pg 0 k)
    ∨ (GetFirstTupleRid pg = (false, ⟨INVALID_PAGE_ID, 0⟩) ∧ NoLiveFrom pg 0) := by
  unfold GetFirstTupleRid
  rcases findTuple_spec pg (GetTupleCount pg) 0 (by omega) with ⟨k, hk, hf⟩ | ⟨hn, hno⟩
  · left; exact ⟨k, by simp only [hk], hf⟩
  · right; exact ⟨by simp only [hn], hno⟩

/-- C12. Slot enumeration: `GetFirstTupleRid` returns true with `(page_id, k)`
where `k` is the smallest slot of the directory that is neither free nor
marked-deleted; `GetNextTupleRid(cur)`, for a `cur` of this page, does the same
for the smallest such `k` strictly greater than the slot id of `cur`; when no
such slot exists each returns false and sets the page id of the output rid to
the invalid page id.  The slot id of `cur` is one a directory can hold: the
tuple count is a `uint32_t`, so slot ids are below `2^32 - 1`. -/
theorem slot_enumeration (pg : TablePage) (cur_rid : RID)
    (hp : cur_rid.page_id = GetPageId pg) (hs : cur_rid.slot_id + 1 < U32) :
    ((∃ k, GetFirstTupleRid pg = (true, ⟨GetPageId pg, k⟩) ∧ IsFirstLiveFrom pg 0 k)
      ∨ (GetFirstTupleRid pg = (false, ⟨INVALID_PAGE_ID, 0⟩) ∧ NoLiveFrom pg 0))
    ∧ ((∃ k, GetNextTupleRid pg cur_rid = some (true, ⟨GetPageId pg, k⟩)
          ∧ cur_rid.slot_id < k ∧ IsFirstLiveFrom pg (cur_rid.slot_id + 1) k)
        ∨ (GetNextTupleRid pg cur_rid = some (false, ⟨INVALID_PAGE_ID, 0⟩)
          ∧ NoLiveFrom pg (cur_rid.slot_id + 1))) := by
  refine ⟨GetFirstTupleRid_spec pg, ?_⟩
  unfold GetNextTupleRid
  simp only [hp, ne_eq, not_true_eq_false, if_false]
  rw [add32_eq _ _ hs]
  rcases findTuple_spec pg (GetTupleCount pg) (cur_rid.slot_id + 1) (by omega) with
    ⟨k, hk, hf⟩ | ⟨hn, hno⟩
  · left; exact ⟨k, by simp only [hk], hf.1, hf⟩
  · right; exact ⟨by simp only [hn], hno⟩

/-- A rid that names a slot of the directory has a slot id below `2^32 - 1`. -/
theorem slot_id_succ_lt (pg : TablePage) (rid : RID) (h : rid.slot_id < GetTupleCount pg) :
    rid.slot_id + 1 < U32 := by
  have hlt : GetTupleCount pg < U32 := get_u32_lt pg 20
  omega

/-- A concrete instance of the slot enumeration: the three-tuple page, asked
for its first tuple and for the tuple after slot 0. -/
theorem slot_enumeration_witness :
    (⟨7, 0⟩ : RID).page_id = GetPageId threeTuplePage
    ∧ (⟨7, 0⟩ : RID).slot_id + 1 < U32
    ∧ GetFirstTupleRid threeTuplePage = (true, ⟨7, 0⟩)
    ∧ GetNextTupleRid threeTuplePage ⟨7, 0⟩ = some (true, ⟨7, 1⟩)
    ∧ ((∃ k, GetFirstTupleRid threeTuplePage = (true, ⟨GetPageId threeTuplePage, k⟩)
          ∧ IsFirstLiveFrom threeTuplePage 0 k)
        ∨ (GetFirstTupleRid threeTuplePage = (false, ⟨INVALID_PAGE_ID, 0⟩)
          ∧ NoLiveFrom threeTuplePage 0))
    ∧ ((∃ k, GetNextTupleRid threeTuplePage ⟨7, 0⟩
            = some (true, ⟨GetPageId threeTuplePage, k⟩)
          ∧ (⟨7, 0⟩ : RID).slot_id < k
          ∧ IsFirstLiveFrom threeTuplePage ((⟨7, 0⟩ : RID).slot_id + 1) k)
        ∨ (GetNextTupleRid threeTuplePage ⟨7, 0⟩ = some (false, ⟨INVALID_PAGE_ID, 0⟩)
          ∧ NoLiveFrom threeTuplePage ((⟨7, 0⟩ : RID).slot_id + 1))) :=
  ⟨by decide, slot_id_succ_lt threeTuplePage ⟨7, 0⟩ (by decide), by decide, by decide,
    slot_enumeration threeTuplePage ⟨7, 0⟩ (by decide)
      (slot_id_succ_lt threeTuplePage ⟨7, 0⟩ (by decide))⟩

/-- Outside the slot ids a directory can hold the hypothesis on the slot id
cannot be dropped: for the slot id `4294967295` the `uint32_t` loop counter
`slot_id + 1` of `GetNextTupleRid` is 0, and on the one-tuple page the scan
returns `(7, 0)`. -/
theorem GetNextTupleRid_at_max_slot_id :
    GetTupleCount (pageAfterInsert examplePage exampleTuple) = 1
    ∧ GetNextTupleRid (pageAfterInsert examplePage exampleTuple) ⟨7, 4294967295⟩
        = some (true, ⟨7, 0⟩) := by
  decide


/-! ## Read failure cases -/

/-- Fields of a page whose size field of slot `k` was rewritten after the
logging block: everything but that size (and the LSN) is as before. -/
theorem SetTupleSize_fields (pg stp : TablePage) (k v : Nat)
    (hfr : ∀ x, x < 4 ∨ 8 ≤ x → stp x = pg x) :
    GetPageId (SetTupleSize stp k v) = GetPageId pg
    ∧ GetFreeSpacePointer (SetTupleSize stp k v) = GetFreeSpacePointer pg
    ∧ GetTupleCount (SetTupleSize stp k v) = GetTupleCount pg
    ∧ GetTupleSize (SetTupleSize stp k v) k = v % U32
    ∧ (∀ i, GetTupleOffset (SetTupleSize stp k v) i = GetTupleOffset pg i)
    ∧ (∀ i, i ≠ k → GetTupleSize (SetTupleSize stp k v) i = GetTupleSize pg i)
    ∧ (∀ x, (x < 4 ∨ 8 ≤ x) → (x < slotEntry k + 4 ∨ slotEntry k + 8 ≤ x) →
        SetTupleSize stp k v x = pg x) := by
  have hE : ∀ j, slotEntry j = 24 + 8 * j := fun j => rfl
  have hfr' : ∀ x, (x < 4 ∨ 8 ≤ x) → (x < slotEntry k + 4 ∨ slotEntry k + 8 ≤ x) →
      SetTupleSize stp k v x = pg x := by
    intro x hx1 hx2
    unfold SetTupleSize
    rw [set_u32_outside _ _ _ _ (by omega)]
    exact hfr x hx1
  have hEk := hE k
  refine ⟨?_, ?_, ?_, get_set_u32_same _ _ _, ?_, ?_, hfr'⟩
  · exact get_u32_congr _ _ _ (fun x h1 h2 => hfr' x (by omega) (by omega))
  · exact get_u32_congr _ _ _ (fun x h1 h2 => hfr' x (by omega) (by omega))
  · exact get_u32_congr _ _ _ (fun x h1 h2 => hfr' x (by omega) (by omega))
  · intro i
    have hEi := hE i
    exact get_u32_congr _ _ _ (fun x h1 h2 => hfr' x (by omega) (by omega))
  · intro i hik
    have hEi := hE i
    exact get_u32_congr _ _ _ (fun x h1 h2 => hfr' x (by omega) (by omega))

/-- The outcome of `GetTuple` in terms of the slot. -/
theorem GetTuple_cases (pg : TablePage) (rid : RID) (t0 : Tuple)
    (hp : rid.page_id = GetPageId pg) :
    (GetTuple pg rid t0 = some (false, t0)
      ∧ (GetTupleCount pg ≤ rid.slot_id ∨ GetTupleSize pg rid.slot_id = 0
        ∨ DELETE_MASK ≤ GetTupleSize pg rid.slot_id))
    ∨ (LiveSlot pg rid ∧ GetTuple pg rid t0 = some (true,
        ⟨true, rid, GetTupleSize pg rid.slot_id,
          readBytes pg (GetTupleOffset pg rid.slot_id) (GetTupleSize pg rid.slot_id)⟩)) := by
  by_cases h1 : GetTupleCount pg ≤ rid.slot_id
  · left
    refine ⟨?_, Or.inl h1⟩
    unfold GetTuple
    simp only [hp, ne_eq, not_true_eq_false, if_false, ge_iff_le, h1, if_true]
  · cases hd : IsDeleted (GetTupleSize pg rid.slot_id) with
    | true =>
      left
      constructor
      · unfold GetTuple
        simp only [hp, ne_eq, not_true_eq_false, if_false, ge_iff_le, h1, hd, if_true]
      · by_contra hc
        have := (IsDeleted_false_iff (GetTupleSize pg rid.slot_id) (get_u32_lt _ _)).2
          ⟨by omega, by omega⟩
        rw [hd] at this
        exact absurd this (by simp)
    | false =>
      right
      obtain ⟨h0, hlt⟩ := (IsDeleted_false_iff (GetTupleSize pg rid.slot_id)
        (get_u32_lt _ _)).1 hd
      have hlive : LiveSlot pg rid := ⟨hp, by omega, h0, hlt⟩
      exact ⟨hlive, GetTuple_live pg rid t0 hlive⟩

/-- C13. Read failure cases: for a rid of this page, `GetTuple` returns false
exactly when the slot id is at or beyond the tuple count, the slot is free
(size 0) or the slot is marked-deleted, and returns true otherwise; in
particular `GetTuple(rid)` returns false after a successful `MarkDelete(rid)` and
after `ApplyDelete(rid)`. -/
theorem read_failure_cases (pg : TablePage) (rid : RID) (t0 : Tuple)
    (hp : rid.page_id = GetPageId pg) :
    (∃ b t, GetTuple pg rid t0 = some (b, t)
      ∧ (b = false ↔ (GetTupleCount pg ≤ rid.slot_id ∨ GetTupleSize pg rid.slot_id = 0
          ∨ DELETE_MASK ≤ GetTupleSize pg rid.slot_id)))
    ∧ (∀ (txn : Option TransactionContext) (lm : Option LogManager) (r : BoolResult),
        MarkDelete pg rid txn lm = some r → r.ok = true →
        GetTuple r.state.page rid t0 = some (false, t0))
    ∧ (∀ (page_size : Nat) (txn : Option TransactionContext) (lm : Option LogManager)
        (st : PageState), WellFormed page_size pg → ApplyDelete pg rid txn lm = some st →
        GetTuple st.page rid t0 = some (false, t0)) := by
  have hU : U32 = 4294967296 ∧ DELETE_MASK = 2147483648 := ⟨rfl, rfl⟩
  refine ⟨?_, ?_, ?_⟩
  · rcases GetTuple_cases pg rid t0 hp with ⟨hg, hwhy⟩ | ⟨⟨_, hs, h0, hlt⟩, hg⟩
    · exact ⟨false, t0, hg, fun _ => hwhy, fun _ => rfl⟩
    · refine ⟨true, _, hg, fun hc => absurd hc (by simp), fun hc => ?_⟩
      exfalso
      omega
  · intro txn lm r hr hok
    obtain ⟨_, hcase⟩ := MarkDelete_inv pg rid txn lm r hr
    rcases hcase with ⟨hf, _⟩ | ⟨_, hs, h0, hdel, mk, st, hlog, hpage, _, _⟩
    · rw [hok] at hf; exact absurd hf (by simp)
    obtain ⟨_, hlt⟩ := (IsDeleted_false_iff (GetTupleSize pg rid.slot_id)
      (get_u32_lt _ _)).1 hdel
    obtain ⟨f1, _, f3, f4, _, _, _⟩ := SetTupleSize_fields pg st.page rid.slot_id
      (SetDeletedFlag (GetTupleSize pg rid.slot_id)) (logBlock_frame _ _ _ _ _ hlog)
    rw [← hpage] at f1 f3 f4
    rw [SetDeletedFlag_live _ hlt] at f4
    rcases GetTuple_cases r.state.page rid t0 (by rw [f1]; exact hp) with
      ⟨hg, _⟩ | ⟨⟨_, _, _, hl⟩, _⟩
    · exact hg
    · exfalso
      rw [f4, hU.1, hU.2] at hl
      omega
  · intro page_size txn lm st hwf hst
    obtain ⟨_, hs, _, e0, _, e2, e3, _⟩ := ApplyDelete_spec page_size pg rid txn lm st hwf hst
    rcases GetTuple_cases st.page rid t0 (by rw [e0]; exact hp) with
      ⟨hg, _⟩ | ⟨⟨_, _, hnz, _⟩, _⟩
    · exact hg
    · exact absurd e3 hnz

/-- A concrete instance of the read failure cases: the one-tuple page. -/
theorem read_failure_cases_witness :
    (⟨7, 0⟩ : RID).page_id = GetPageId (pageAfterInsert examplePage exampleTuple)
    ∧ ∃ b t, GetTuple (pageAfterInsert examplePage exampleTuple) ⟨7, 0⟩ Tuple.default
        = some (b, t)
      ∧ (b = false ↔
        (GetTupleCount (pageAfterInsert examplePage exampleTuple) ≤ 0
          ∨ GetTupleSize (pageAfterInsert examplePage exampleTuple) 0 = 0
          ∨ DELETE_MASK ≤ GetTupleSize (pageAfterInsert examplePage exampleTuple) 0)) :=
  ⟨by decide,
    (read_failure_cases (pageAfterInsert examplePage exampleTuple) ⟨7, 0⟩ Tuple.default
      (by decide)).1⟩


/-! ## ApplyDelete: frame -/

/-- Two pages on which a slot has the same size and designates the same bytes
give the same answer to `GetTuple`. -/
theorem GetTuple_congr (pg pg' : TablePage) (rid : RID) (t0 : Tuple)
    (hid : GetPageId pg' = GetPageId pg) (hcnt : GetTupleCount pg' = GetTupleCount pg)
    (hsz : GetTupleSize pg' rid.slot_id = GetTupleSize pg rid.slot_id)
    (hbytes : readBytes pg' (GetTupleOffset pg' rid.slot_id)
        (trueSize (GetTupleSize pg rid.slot_id))
      = readBytes pg (GetTupleOffset pg rid.slot_id) (trueSize (GetTupleSize pg rid.slot_id))) :
    GetTuple pg' rid t0 = GetTuple pg rid t0 := by
  by_cases hp : rid.page_id = GetPageId pg
  · rcases GetTuple_cases pg rid t0 hp with ⟨hg, hwhy⟩ | ⟨⟨_, hs, h0, hlt⟩, hg⟩
    · rcases GetTuple_cases pg' rid t0 (by rw [hid]; exact hp) with
        ⟨hg', _⟩ | ⟨⟨_, hs', h0', hlt'⟩, _⟩
      · rw [hg, hg']
      · exfalso
        rw [hcnt] at hs'
        rw [hsz] at h0' hlt'
        rcases hwhy with hc | hc | hc <;> omega
    · have hlive' : LiveSlot pg' rid :=
        ⟨by rw [hid]; exact hp, by rw [hcnt]; exact hs, by rw [hsz]; exact h0,
          by rw [hsz]; exact hlt⟩
      rw [hg, GetTuple_live pg' rid t0 hlive', hsz]
      have hts : trueSize (GetTupleSize pg rid.slot_id) = GetTupleSize pg rid.slot_id :=
        Nat.mod_eq_of_lt hlt
      rw [hts] at hbytes
      rw [hbytes]
  · unfold GetTuple
    rw [if_pos hp, if_pos (by rw [hid]; exact hp)]

/-- Where a payload-owning slot other than the deleted one ends up after
`ApplyDelete`: a slot below the deleted tuple has moved up by its size, a slot
above it has stayed in place. -/
theorem ApplyDelete_slot_pos (page_size : Nat) (pg : TablePage) (rid : RID)
    (txn : Option TransactionContext) (lm : Option LogManager) (st' : PageState)
    (hwf : WellFormed page_size pg) (h : ApplyDelete pg rid txn lm = some st')
    (i : Nat) (hi : i < GetTupleCount pg) (hik : i ≠ rid.slot_id) (hown : OwnsPayload pg i) :
    GetTupleSize st'.page i = GetTupleSize pg i
    ∧ GetFreeSpacePointer pg ≤ GetTupleOffset pg i
    ∧ ((trueSize (GetTupleSize pg rid.slot_id) ≠ 0
        ∧ GetFreeSpacePointer pg ≤ GetTupleOffset pg rid.slot_id
        ∧ GetTupleOffset pg i + trueSize (GetTupleSize pg i) ≤ GetTupleOffset pg rid.slot_id
        ∧ GetTupleOffset st'.page i
            = GetTupleOffset pg i + trueSize (GetTupleSize pg rid.slot_id))
      ∨ (trueSize (GetTupleSize pg rid.slot_id) ≠ 0
        ∧ GetFreeSpacePointer pg ≤ GetTupleOffset pg rid.slot_id
        ∧ GetTupleOffset pg rid.slot_id + trueSize (GetTupleSize pg rid.slot_id)
            ≤ GetTupleOffset pg i
        ∧ GetTupleOffset st'.page i = GetTupleOffset pg i)
      ∨ (trueSize (GetTupleSize pg rid.slot_id) = 0
        ∧ GetTupleOffset st'.page i = GetTupleOffset pg i)) := by
  obtain ⟨_, hs, h0, _, e1, e2, e3, _, e5, e6, _⟩ :=
    ApplyDelete_spec page_size pg rid txn lm st' hwf h
  obtain ⟨hP, hdir, hfspP, hslots⟩ := hwf
  have hU : U32 = 4294967296 := rfl
  have hsz := e5 i hi hik
  have hnz := size_ne_zero_of_owns _ _ hown
  have hoffi := e6 i hi hik
  obtain ⟨⟨hloi, hhii⟩, hdisj⟩ := hslots i hi hown
  refine ⟨hsz, hloi, ?_⟩
  by_cases hz : trueSize (GetTupleSize pg rid.slot_id) = 0
  · right; right
    refine ⟨hz, ?_⟩
    rw [hoffi, hz]
    split
    · have := get_u32_lt pg (slotEntry i)
      exact add32_eq _ _ (by unfold GetTupleOffset; omega)
    · rfl
  · have hd := hdisj rid.slot_id hs hik hz
    unfold SlotsDisjoint at hd
    obtain ⟨⟨ka, kb⟩, _⟩ := hslots rid.slot_id hs hz
    unfold OwnsPayload at hown
    by_cases hlt : GetTupleOffset pg i < GetTupleOffset pg rid.slot_id
    · left
      rw [if_pos ⟨hnz, hlt⟩, add32_eq _ _ (by omega)] at hoffi
      exact ⟨hz, ka, by omega, hoffi⟩
    · right; left
      rw [if_neg (fun hc => hlt hc.2)] at hoffi
      exact ⟨hz, ka, by omega, hoffi⟩

/-- After `ApplyDelete`, every other slot designates the bytes it designated
before. -/
theorem ApplyDelete_bytes (page_size : Nat) (pg : TablePage) (rid : RID)
    (txn : Option TransactionContext) (lm : Option LogManager) (st' : PageState)
    (hwf : WellFormed page_size pg) (h : ApplyDelete pg rid txn lm = some st')
    (i : Nat) (hi : i < GetTupleCount pg) (hik : i ≠ rid.slot_id) :
    readBytes st'.page (GetTupleOffset st'.page i) (trueSize (GetTupleSize pg i))
      = readBytes pg (GetTupleOffset pg i) (trueSize (GetTupleSize pg i)) := by
  by_cases hown : OwnsPayload pg i
  · obtain ⟨_, hlo, hcase⟩ :=
      ApplyDelete_slot_pos page_size pg rid txn lm st' hwf h i hi hik hown
    obtain ⟨_, _, _, _, _, _, _, _, _, _, ebytes⟩ :=
      ApplyDelete_spec page_size pg rid txn lm st' hwf h
    have hdir := hwf.2.1
    unfold SIZE_TABLE_PAGE_HEADER SIZE_SLOT at hdir
    have hlt : GetTupleOffset pg rid.slot_id < U32 := get_u32_lt _ _
    unfold readBytes
    apply List.map_congr_left
    intro j hj
    rw [List.mem_range] at hj
    rcases hcase with ⟨hz, hk, hbelow, hoff⟩ | ⟨hz, hk, habove, hoff⟩ | ⟨hz, hoff⟩
    · rw [hoff, ebytes _ (by omega), sub32_eq _ _ hk hlt]
      unfold memmove
      rw [if_pos (by omega)]
      congr 1
      omega
    · rw [hoff, ebytes _ (by omega), sub32_eq _ _ hk hlt]
      unfold memmove
      rw [if_neg (by omega)]
    · rw [hoff, ebytes _ (by omega), hz]
      unfold memmove
      split
      · congr 1; omega
      · rfl
  · unfold OwnsPayload at hown
    have hz : trueSize (GetTupleSize pg i) = 0 := by omega
    rw [hz]
    rfl

/-- C14. ApplyDelete frame: on a well-formed page, for a rid naming a non-free
slot, `ApplyDelete(r)` completes and afterwards the tuple count is unchanged and
every other non-free slot keeps its slot id, its size field (delete mark
included) and bytewise the same payload, read at its possibly shifted offset;
`GetTuple` on every other slot answers as before. -/
theorem apply_delete_frame (page_size : Nat) (pg : TablePage) (rid : RID)
    (txn : Option TransactionContext) (lm : Option LogManager)
    (hwf : WellFormed page_size pg) (hp : rid.page_id = GetPageId pg)
    (hs : rid.slot_id < GetTupleCount pg) (h0 : GetTupleSize pg rid.slot_id ≠ 0)
    (hctx : CtxOk txn lm) :
    ∃ st, ApplyDelete pg rid txn lm = some st
      ∧ GetTupleCount st.page = GetTupleCount pg
      ∧ ∀ i, i < GetTupleCount pg → i ≠ rid.slot_id → GetTupleSize pg i ≠ 0 →
          GetTupleSize st.page i = GetTupleSize pg i
          ∧ readBytes st.page (GetTupleOffset st.page i) (trueSize (GetTupleSize pg i))
              = readBytes pg (GetTupleOffset pg i) (trueSize (GetTupleSize pg i))
          ∧ ∀ t0, GetTuple st.page ⟨rid.page_id, i⟩ t0 = GetTuple pg ⟨rid.page_id, i⟩ t0 := by
  obtain ⟨st, hst⟩ := ApplyDelete_isSome pg rid txn lm hp hs h0 hctx
  obtain ⟨_, _, _, e0, _, e2, _, _, e5, _, _⟩ :=
    ApplyDelete_spec page_size pg rid txn lm st hwf hst
  refine ⟨st, hst, e2, ?_⟩
  intro i hi hik _
  have hb := ApplyDelete_bytes page_size pg rid txn lm st hwf hst i hi hik
  exact ⟨e5 i hi hik, hb,
    fun t0 => GetTuple_congr pg st.page ⟨rid.page_id, i⟩ t0 e0 e2 (e5 i hi hik) hb⟩


/-! ## ApplyDelete: reclaimed space -/

/-- A concrete instance of the ApplyDelete frame: deleting the middle one of
three tuples. -/
theorem apply_delete_frame_witness :
    WellFormed 4096 threeTuplePage
    ∧ (⟨7, 1⟩ : RID).page_id = GetPageId threeTuplePage
    ∧ 1 < GetTupleCount threeTuplePage
    ∧ GetTupleSize threeTuplePage 1 ≠ 0
    ∧ ∃ st, ApplyDelete threeTuplePage ⟨7, 1⟩ none none = some st
      ∧ GetTupleCount st.page = GetTupleCount threeTuplePage
      ∧ ∀ i, i < GetTupleCount threeTuplePage → i ≠ 1 → GetTupleSize threeTuplePage i ≠ 0 →
          GetTupleSize st.page i = GetTupleSize threeTuplePage i
          ∧ readBytes st.page (GetTupleOffset st.page i)
              (trueSize (GetTupleSize threeTuplePage i))
            = readBytes threeTuplePage (GetTupleOffset threeTuplePage i)
              (trueSize (GetTupleSize threeTuplePage i))
          ∧ ∀ t0, GetTuple st.page ⟨7, i⟩ t0 = GetTuple threeTuplePage ⟨7, i⟩ t0 :=
  ⟨by decide, by decide, by decide, by decide,
    apply_delete_frame 4096 threeTuplePage ⟨7, 1⟩ none none (by decide) (by decide)
      (by decide) (by decide) (by decide)⟩

/-- C15. ApplyDelete reclaims space for reuse: on a well-formed page, for a rid
`(page_id, k)` naming a non-free slot whose size with the delete bit stripped is
`s`, `ApplyDelete` sets the offset and the size of slot `k` to 0 and increases
the free space pointer and the free bytes by exactly `s`; a following
`InsertTuple` of a tuple of at most `s` bytes succeeds, and it is placed in slot
`k` when no lower-numbered slot is free. -/
theorem apply_delete_reclaims (page_size : Nat) (pg : TablePage) (rid : RID)
    (txn : Option TransactionContext) (lm : Option LogManager)
    (hwf : WellFormed page_size pg) (hp : rid.page_id = GetPageId pg)
    (hs : rid.slot_id < GetTupleCount pg) (h0 : GetTupleSize pg rid.slot_id ≠ 0)
    (hctx : CtxOk txn lm) :
    ∃ st, ApplyDelete pg rid txn lm = some st
      ∧ GetTupleOffset st.page rid.slot_id = 0
      ∧ GetTupleSize st.page rid.slot_id = 0
      ∧ GetFreeSpacePointer st.page
          = GetFreeSpacePointer pg + trueSize (GetTupleSize pg rid.slot_id)
      ∧ freeBytes st.page = freeBytes pg + trueSize (GetTupleSize pg rid.slot_id)
      ∧ ∀ (tuple : Tuple) (txn2 : Option TransactionContext) (lm2 : Option LogManager),
          0 < tuple.size → tuple.size ≤ trueSize (GetTupleSize pg rid.slot_id) →
          CtxOk txn2 lm2 →
          ∃ r, InsertTuple st.page tuple txn2 lm2 = some r ∧ r.ok = true
            ∧ ((∀ j, j < rid.slot_id → GetTupleSize pg j ≠ 0) →
                r.rid = some ⟨rid.page_id, rid.slot_id⟩) := by
  obtain ⟨st, hst⟩ := ApplyDelete_isSome pg rid txn lm hp hs h0 hctx
  obtain ⟨_, _, _, e0, e1, e2, e3, e4, e5, _, _⟩ :=
    ApplyDelete_spec page_size pg rid txn lm st hwf hst
  have hwf' := ApplyDelete_wf page_size pg rid txn lm st hwf hst
  have hdir := hwf.2.1
  have hfb : freeBytes st.page = freeBytes pg + trueSize (GetTupleSize pg rid.slot_id) := by
    unfold freeBytes
    rw [e1, e2]
    unfold SIZE_TABLE_PAGE_HEADER SIZE_SLOT at *
    omega
  refine ⟨st, hst, e4, e3, e1, hfb, ?_⟩
  intro tuple txn2 lm2 hpos hle hctx2
  obtain ⟨r, hr⟩ := InsertTuple_isSome st.page tuple txn2 lm2 hpos hctx2
  have hfree : HasFreeSlot st.page := ⟨rid.slot_id, by rw [e2]; exact hs, e3⟩
  have hne : findFreeSlot st.page (GetTupleCount st.page) (GetTupleCount st.page) 0
      ≠ GetTupleCount st.page :=
    fun hc => (findFreeSlot_eq_count_iff st.page).1 hc hfree
  have hok : r.ok = true :=
    (InsertTuple_ok_iff st.page tuple txn2 lm2 r hwf'.2.1 hr).2
      ⟨by omega, fun hc => absurd hc hne⟩
  refine ⟨r, hr, hok, ?_⟩
  intro hlow
  obtain ⟨_, _, hrid, _⟩ := InsertTuple_true_spec st.page tuple txn2 lm2 r hwf'.2.1 hr hok
  have hfirst : IsFirstFreeSlot st.page rid.slot_id := by
    refine ⟨?_, Or.inl ⟨by rw [e2]; exact hs, e3⟩⟩
    intro j hj _
    rw [e5 j (by omega) (by omega)]
    exact hlow j hj
  have hk := IsFirstFreeSlot_unique st.page _ _ (findFreeSlot_isFirst st.page) hfirst
  rw [hrid, hk, e0, hp]

/-- A concrete instance of the reclaiming: deleting the middle one of three
tuples and inserting a tuple of the same size. -/
theorem apply_delete_reclaims_witness :
    WellFormed 4096 threeTuplePage
    ∧ (⟨7, 1⟩ : RID).page_id = GetPageId threeTuplePage
    ∧ 1 < GetTupleCount threeTuplePage
    ∧ GetTupleSize threeTuplePage 1 = 6
    ∧ ∃ st, ApplyDelete threeTuplePage ⟨7, 1⟩ none none = some st
      ∧ GetTupleOffset st.page 1 = 0
      ∧ GetTupleSize st.page 1 = 0
      ∧ GetFreeSpacePointer st.page
          = GetFreeSpacePointer threeTuplePage + trueSize (GetTupleSize threeTuplePage 1)
      ∧ freeBytes st.page
          = freeBytes threeTuplePage + trueSize (GetTupleSize threeTuplePage 1)
      ∧ ∀ (tuple : Tuple) (txn2 : Option TransactionContext) (lm2 : Option LogManager),
          0 < tuple.size → tuple.size ≤ trueSize (GetTupleSize threeTuplePage 1) →
          CtxOk txn2 lm2 →
          ∃ r, InsertTuple st.page tuple txn2 lm2 = some r ∧ r.ok = true
            ∧ ((∀ j, j < 1 → GetTupleSize threeTuplePage j ≠ 0) →
                r.rid = some ⟨7, 1⟩) :=
  ⟨by decide, by decide, by decide, by decide,
    apply_delete_reclaims 4096 threeTuplePage ⟨7, 1⟩ none none (by decide) (by decide)
      (by decide) (by decide) (by decide)⟩


/-! ## Layout bounds and disjointness on reachable pages -/

theorem Reachable_pageAfterInsert (page_size : Nat) (pg : TablePage) (t : Tuple)
    (h : Reachable page_size pg) : Reachable page_size (pageAfterInsert pg t) := by
  unfold pageAfterInsert
  split
  · rename_i r hr
    exact Reachable.insert t none none r h hr
  · exact h

theorem Reachable_pageAfterMark (page_size : Nat) (pg : TablePage) (rid : RID)
    (h : Reachable page_size pg) : Reachable page_size (pageAfterMark pg rid) := by
  unfold pageAfterMark
  split
  · rename_i r hr
    exact Reachable.markDelete rid none none r h hr
  · exact h

theorem Reachable_threeTuplePage : Reachable 4096 threeTuplePage :=
  Reachable_pageAfterInsert _ _ _ (Reachable_pageAfterInsert _ _ _
    (Reachable_pageAfterInsert _ _ _ (Reachable.init _ _ _ _ _)))

/-- A slot that readers see owns its payload, and its true size is its size. -/
theorem LiveAt_owns (pg : TablePage) (i : Nat) (h : LiveAt pg i) :
    OwnsPayload pg i ∧ trueSize (GetTupleSize pg i) = GetTupleSize pg i :=
  OwnsPayload_of_live pg i h.2.1 h.2.2

/-- C16. Layout bounds invariant: on every page reachable from `Init(page_size)`
by the five page operations, `24 + 8 * tuple_count ≤ free_space_pointer ≤
page_size`, and every live slot `(off, sz)` satisfies `free_space_pointer ≤ off`
and `off + sz ≤ page_size`. -/
theorem layout_bounds (page_size : Nat) (pg : TablePage) (h24 : 24 ≤ page_size)
    (hP : page_size < U32) (hr : Reachable page_size pg) :
    24 + 8 * GetTupleCount pg ≤ GetFreeSpacePointer pg
    ∧ GetFreeSpacePointer pg ≤ page_size
    ∧ ∀ i, LiveAt pg i →
        GetFreeSpacePointer pg ≤ GetTupleOffset pg i
        ∧ GetTupleOffset pg i + GetTupleSize pg i ≤ page_size := by
  obtain ⟨_, hdir, hfsp, hslots⟩ := Reachable_wf page_size pg h24 hP hr
  refine ⟨hdir, hfsp, ?_⟩
  intro i hi
  obtain ⟨hown, hts⟩ := LiveAt_owns pg i hi
  have := (hslots i hi.1 hown).1
  rw [hts] at this
  exact this

/-- A concrete instance of the layout bounds: the page with three tuples. -/
theorem layout_bounds_witness :
    Reachable 4096 threeTuplePage
    ∧ 24 + 8 * GetTupleCount threeTuplePage ≤ GetFreeSpacePointer threeTuplePage
    ∧ GetFreeSpacePointer threeTuplePage ≤ 4096
    ∧ ∀ i, LiveAt threeTuplePage i →
        GetFreeSpacePointer threeTuplePage ≤ GetTupleOffset threeTuplePage i
        ∧ GetTupleOffset threeTuplePage i + GetTupleSize threeTuplePage i ≤ 4096 :=
  ⟨Reachable_threeTuplePage,
    layout_bounds 4096 threeTuplePage (by decide) (by decide) Reachable_threeTuplePage⟩

/-- C17. Disjointness invariant: on every page reachable from `Init(page_size)`
by the five page operations, two distinct live slots `(off1, sz1)` and
`(off2, sz2)` occupy disjoint payload byte ranges `[off1, off1 + sz1)` and
`[off2, off2 + sz2)`. -/
theorem live_slots_disjoint (page_size : Nat) (pg : TablePage) (h24 : 24 ≤ page_size)
    (hP : page_size < U32) (hr : Reachable page_size pg) (i j : Nat)
    (hi : LiveAt pg i) (hj : LiveAt pg j) (hij : i ≠ j) :
    GetTupleOffset pg i + GetTupleSize pg i ≤ GetTupleOffset pg j
    ∨ GetTupleOffset pg j + GetTupleSize pg j ≤ GetTupleOffset pg i := by
  obtain ⟨_, _, _, hslots⟩ := Reachable_wf page_size pg h24 hP hr
  obtain ⟨howni, htsi⟩ := LiveAt_owns pg i hi
  obtain ⟨hownj, htsj⟩ := LiveAt_owns pg j hj
  have := (hslots i hi.1 howni).2 j hj.1 hij hownj
  unfold SlotsDisjoint at this
  rw [htsi, htsj] at this
  exact this

/-- A concrete instance of the disjointness: slots 0 and 2 of the page with
three tuples. -/
theorem live_slots_disjoint_witness :
    Reachable 4096 threeTuplePage ∧ LiveAt threeTuplePage 0 ∧ LiveAt threeTuplePage 2
    ∧ (GetTupleOffset threeTuplePage 0 + GetTupleSize threeTuplePage 0
        ≤ GetTupleOffset threeTuplePage 2
      ∨ GetTupleOffset threeTuplePage 2 + GetTupleSize threeTuplePage 2
        ≤ GetTupleOffset threeTuplePage 0) :=
  ⟨Reachable_threeTuplePage, by decide, by decide,
    live_slots_disjoint 4096 threeTuplePage (by decide) (by decide) Reachable_threeTuplePage
      0 2 (by decide) (by decide) (by decide)⟩


/-! ## Space accounting -/

theorem sumSlots_congr (f g : Nat → Nat) :
    ∀ n, (∀ i, i < n → f i = g i) → sumSlots f n = sumSlots g n := by
  intro n
  induction n with
  | zero => intro _; rfl
  | succ m ih =>
    intro h
    simp only [sumSlots]
    rw [ih (fun i hi => h i (by omega)), h m (by omega)]

/-- Changing one summand changes the sum by the difference. -/
theorem sumSlots_update (f g : Nat → Nat) (k : Nat) :
    ∀ n, k < n → (∀ i, i < n → i ≠ k → f i = g i) →
      sumSlots f n + g k = sumSlots g n + f k := by
  intro n
  induction n with
  | zero => intro hk; omega
  | succ m ih =>
    intro hk h
    simp only [sumSlots]
    by_cases hkm : k = m
    · subst hkm
      rw [sumSlots_congr f g k (fun i hi => h i (by omega) (by omega))]
      omega
    · have := ih (by omega) (fun i hi hik => h i (by omega) hik)
      rw [h m (by omega) (fun hc => hkm hc.symm)]
      omega

theorem trueSize_of_lt (sz : Nat) (h : sz < DELETE_MASK) : trueSize sz = sz :=
  Nat.mod_eq_of_lt h

theorem trueSize_zero : trueSize 0 = 0 := rfl

/-- Accounting after `Init`. -/
theorem Init_accounted (pg : TablePage) (page_id page_size prev_page_id : Nat)
    (txn : Option TransactionContext) (lm : Option LogManager) (hP : page_size < U32) :
    usedBytes (Init pg page_id page_size prev_page_id txn lm)
      + GetFreeSpacePointer (Init pg page_id page_size prev_page_id txn lm) = page_size := by
  obtain ⟨_, h2, h3⟩ := Init_fields pg page_id page_size prev_page_id txn lm
  unfold usedBytes
  rw [h3, h2, Nat.mod_eq_of_lt hP]
  simp only [sumSlots, Nat.zero_add]

/-- Accounting is preserved by `InsertTuple` on pages below 2 GiB. -/
theorem InsertTuple_accounted (page_size : Nat) (pg : TablePage) (tuple : Tuple)
    (txn : Option TransactionContext) (lm : Option LogManager) (r : InsertResult)
    (hwf : WellFormed page_size pg) (hsmall : page_size < DELETE_MASK)
    (hacc : usedBytes pg + GetFreeSpacePointer pg = page_size)
    (h : InsertTuple pg tuple txn lm = some r) :
    usedBytes r.state.page + GetFreeSpacePointer r.state.page = page_size := by
  cases hok : r.ok with
  | false =>
    obtain ⟨_, hcase⟩ := InsertTuple_inv pg tuple txn lm r h
    rcases hcase with ⟨_, _, hpg, _⟩ | ⟨ht, _⟩
    · rw [hpg]; exact hacc
    · rw [hok] at ht; exact absurd ht (by simp)
  | true =>
    obtain ⟨hP, hdir, hfspP, hslots⟩ := hwf
    obtain ⟨s1, s2, _, _, e1, e2, e3, e4, e5, _⟩ :=
      InsertTuple_true_spec pg tuple txn lm r hdir h hok
    obtain ⟨_, hkle, _, hfreek⟩ :=
      findFreeSlot_spec pg (GetTupleCount pg) (GetTupleCount pg) 0 (by omega)
    generalize findFreeSlot pg (GetTupleCount pg) (GetTupleCount pg) 0 = k at *
    have hfb : freeBytes pg + (24 + 8 * GetTupleCount pg) = GetFreeSpacePointer pg := by
      unfold freeBytes SIZE_TABLE_PAGE_HEADER SIZE_SLOT at *; omega
    have hts : trueSize tuple.size = tuple.size := trueSize_of_lt _ (by omega)
    unfold usedBytes at hacc ⊢
    rw [e1, e2]
    by_cases hk : k = GetTupleCount pg
    · rw [if_pos hk]
      simp only [sumSlots]
      rw [sumSlots_congr _ (fun i => trueSize (GetTupleSize pg i)) (GetTupleCount pg)
        (fun i hi => by rw [(e5 i hi (by omega)).2])]
      rw [hk] at e4
      rw [e4, hts]
      omega
    · rw [if_neg hk]
      have hklt : k < GetTupleCount pg := by omega
      have hupd := sumSlots_update (fun i => trueSize (GetTupleSize pg i))
        (fun i => trueSize (GetTupleSize r.state.page i)) k (GetTupleCount pg) hklt
        (fun i hi hik => by simp only; rw [(e5 i hi hik).2])
      simp only at hupd
      rw [e4, hts, hfreek hklt, trueSize_zero] at hupd
      omega

/-- Accounting is preserved when one size field is rewritten with a value of
the same true size after the logging block. -/
theorem setSize_accounted (pg stp : TablePage) (k v : Nat)
    (hfr : ∀ x, x < 4 ∨ 8 ≤ x → stp x = pg x)
    (hv : trueSize (v % U32) = trueSize (GetTupleSize pg k)) :
    usedBytes (SetTupleSize stp k v) + GetFreeSpacePointer (SetTupleSize stp k v)
      = usedBytes pg + GetFreeSpacePointer pg := by
  obtain ⟨_, f2, f3, f4, _, f6, _⟩ := SetTupleSize_fields pg stp k v hfr
  unfold usedBytes
  rw [f2, f3]
  congr 1
  apply sumSlots_congr
  intro i _
  by_cases hik : i = k
  · subst hik; rw [f4, hv]
  · rw [f6 i hik]

/-- Accounting is preserved by `MarkDelete`. -/
theorem MarkDelete_accounted (pg : TablePage) (rid : RID)
    (txn : Option TransactionContext) (lm : Option LogManager) (r : BoolResult)
    (h : MarkDelete pg rid txn lm = some r) :
    usedBytes r.state.page + GetFreeSpacePointer r.state.page
      = usedBytes pg + GetFreeSpacePointer pg := by
  obtain ⟨_, hcase⟩ := MarkDelete_inv pg rid txn lm r h
  rcases hcase with ⟨_, hpg, _⟩ | ⟨_, _, _, _, mk, st, hlog, hpage, _, _⟩
  · rw [hpg]
  · rw [hpage]
    exact setSize_accounted pg st.page _ _ (logBlock_frame _ _ _ _ _ hlog)
      (trueSize_SetDeletedFlag _)

/-- Accounting is preserved by `RollbackDelete`. -/
theorem RollbackDelete_accounted (pg : TablePage) (rid : RID)
    (txn : Option TransactionContext) (lm : Option LogManager) (st' : PageState)
    (h : RollbackDelete pg rid txn lm = some st') :
    usedBytes st'.page + GetFreeSpacePointer st'.page
      = usedBytes pg + GetFreeSpacePointer pg := by
  obtain ⟨_, _, mk, st, hlog, _, _, hpage⟩ := RollbackDelete_inv pg rid txn lm st' h
  have hfr := logBlock_frame _ _ _ _ _ hlog
  rw [hpage]
  split
  · exact setSize_accounted pg st.page _ _ hfr (trueSize_UnsetDeletedFlag _ (get_u32_lt _ _))
  · obtain ⟨_, f2, f3, _, f5⟩ := fields_of_lsn_frame _ _ hfr
    unfold usedBytes
    rw [f2, f3]
    congr 1
    exact sumSlots_congr _ _ _ (fun i _ => by rw [f5 i])

/-- Accounting is preserved by `UpdateTuple` on pages below 2 GiB. -/
theorem UpdateTuple_accounted (page_size : Nat) (pg : TablePage) (new_tuple old_tuple : Tuple)
    (rid : RID) (txn : Option TransactionContext) (lm : Option LogManager) (r : UpdateResult)
    (hwf : WellFormed page_size pg) (hsmall : page_size < DELETE_MASK)
    (hacc : usedBytes pg + GetFreeSpacePointer pg = page_size)
    (h : UpdateTuple pg new_tuple old_tuple rid txn lm = some r) :
    usedBytes r.state.page + GetFreeSpacePointer r.state.page = page_size := by
  cases hok : r.ok with
  | false =>
    obtain ⟨_, _, hcase⟩ := UpdateTuple_inv pg new_tuple old_tuple rid txn lm r h
    rcases hcase with ⟨_, _, hpg, _⟩ | ⟨ht, _⟩
    · rw [hpg]; exact hacc
    · rw [hok] at ht; exact absurd ht (by simp)
  | true =>
    obtain ⟨⟨_, hs, h0, h1⟩, hnpos, hfit, _, e1, e2, e3, e4, _, _, _⟩ :=
      UpdateTuple_true_spec page_size pg new_tuple old_tuple rid txn lm r hwf h hok
    obtain ⟨hP, hdir, hfspP, hslots⟩ := hwf
    obtain ⟨hownk, hts⟩ := OwnsPayload_of_live pg rid.slot_id h0 h1
    obtain ⟨⟨hoff, hend⟩, _⟩ := hslots rid.slot_id hs hownk
    rw [hts] at hend
    have htn : trueSize new_tuple.size = new_tuple.size := trueSize_of_lt _ (by omega)
    unfold usedBytes at hacc ⊢
    rw [e1, e2]
    have hupd := sumSlots_update (fun i => trueSize (GetTupleSize pg i))
      (fun i => trueSize (GetTupleSize r.state.page i)) rid.slot_id (GetTupleCount pg) hs
      (fun i hi hik => by simp only; rw [e4 i hi hik])
    simp only at hupd
    rw [e3, htn, hts] at hupd
    omega

/-- Accounting is preserved by `ApplyDelete`. -/
theorem ApplyDelete_accounted (page_size : Nat) (pg : TablePage) (rid : RID)
    (txn : Option TransactionContext) (lm : Option LogManager) (st' : PageState)
    (hwf : WellFormed page_size pg)
    (hacc : usedBytes pg + GetFreeSpacePointer pg = page_size)
    (h : ApplyDelete pg rid txn lm = some st') :
    usedBytes st'.page + GetFreeSpacePointer st'.page = page_size := by
  obtain ⟨_, hs, _, _, e1, e2, e3, _, e5, _, _⟩ :=
    ApplyDelete_spec page_size pg rid txn lm st' hwf h
  unfold usedBytes at hacc ⊢
  rw [e1, e2]
  have hupd := sumSlots_update (fun i => trueSize (GetTupleSize pg i))
    (fun i => trueSize (GetTupleSize st'.page i)) rid.slot_id (GetTupleCount pg) hs
    (fun i hi hik => by simp only; rw [e5 i hi hik])
  simp only at hupd
  rw [e3, trueSize_zero] at hupd
  omega

/-- On every page reachable from `Init(page_size)`, for a page size below 2 GiB,
the bytes owned by the slots and the free space pointer add up to the page
size. -/
theorem Reachable_accounted (page_size : Nat) (pg : TablePage) (h24 : 24 ≤ page_size)
    (hsmall : page_size < DELETE_MASK) (hr : Reachable page_size pg) :
    usedBytes pg + GetFreeSpacePointer pg = page_size := by
  have hP : page_size < U32 := by
    have hU : U32 = 4294967296 ∧ DELETE_MASK = 2147483648 := ⟨rfl, rfl⟩
    omega
  induction hr with
  | init pg page_id prev_page_id txn lm =>
    exact Init_accounted pg page_id page_size prev_page_id txn lm hP
  | insert tuple txn lm r hr' h ih =>
    exact InsertTuple_accounted page_size _ tuple txn lm r
      (Reachable_wf page_size _ h24 hP hr') hsmall ih h
  | markDelete rid txn lm r _ h ih =>
    rw [MarkDelete_accounted _ rid txn lm r h]; exact ih
  | update new_tuple old_tuple rid txn lm r hr' h ih =>
    exact UpdateTuple_accounted page_size _ new_tuple old_tuple rid txn lm r
      (Reachable_wf page_size _ h24 hP hr') hsmall ih h
  | applyDelete rid txn lm st hr' h ih =>
    exact ApplyDelete_accounted page_size _ rid txn lm st
      (Reachable_wf page_size _ h24 hP hr') ih h
  | rollbackDelete rid txn lm st _ h ih =>
    rw [RollbackDelete_accounted _ rid txn lm st h]; exact ih

/-- With no slot marked deleted the live bytes are all the owned bytes. -/
theorem liveBytes_eq_usedBytes (pg : TablePage)
    (h : ∀ i, i < GetTupleCount pg → GetTupleSize pg i < DELETE_MASK) :
    liveBytes pg = usedBytes pg := by
  unfold liveBytes usedBytes
  apply sumSlots_congr
  intro i hi
  rw [if_pos (h i hi), trueSize_of_lt _ (h i hi)]

/-- C18 (amended). Space accounting: on every page reachable from
`Init(page_size)` by the five page operations, for `24 ≤ page_size < 2^31`, the
sizes of all non-free slots, live or marked-deleted and with the delete bit
stripped, plus `free_bytes` plus the header and directory size
`24 + 8 * tuple_count` equal `page_size`; when no slot is marked-deleted the
same holds for the sum over the live slots alone. -/
theorem space_accounting (page_size : Nat) (pg : TablePage) (h24 : 24 ≤ page_size)
    (hsmall : page_size < DELETE_MASK) (hr : Reachable page_size pg) :
    usedBytes pg + freeBytes pg + (24 + 8 * GetTupleCount pg) = page_size
    ∧ ((∀ i, i < GetTupleCount pg → GetTupleSize pg i < DELETE_MASK) →
        liveBytes pg + freeBytes pg + (24 + 8 * GetTupleCount pg) = page_size) := by
  have hP : page_size < U32 := by
    have hU : U32 = 4294967296 ∧ DELETE_MASK = 2147483648 := ⟨rfl, rfl⟩
    omega
  obtain ⟨_, hdir, _, _⟩ := Reachable_wf page_size pg h24 hP hr
  have hacc := Reachable_accounted page_size pg h24 hsmall hr
  have hfb : freeBytes pg + (24 + 8 * GetTupleCount pg) = GetFreeSpacePointer pg := by
    unfold freeBytes SIZE_TABLE_PAGE_HEADER SIZE_SLOT at *; omega
  refine ⟨by omega, fun h => ?_⟩
  rw [liveBytes_eq_usedBytes pg h]
  omega

theorem space_accounting_witness :
    Reachable 4096 (pageAfterMark threeTuplePage ⟨7, 1⟩)
    ∧ usedBytes (pageAfterMark threeTuplePage ⟨7, 1⟩)
        + freeBytes (pageAfterMark threeTuplePage ⟨7, 1⟩)
        + (24 + 8 * GetTupleCount (pageAfterMark threeTuplePage ⟨7, 1⟩)) = 4096
    ∧ ((∀ i, i < GetTupleCount (pageAfterMark threeTuplePage ⟨7, 1⟩) →
          GetTupleSize (pageAfterMark threeTuplePage ⟨7, 1⟩) i < DELETE_MASK) →
        liveBytes (pageAfterMark threeTuplePage ⟨7, 1⟩)
          + freeBytes (pageAfterMark threeTuplePage ⟨7, 1⟩)
          + (24 + 8 * GetTupleCount (pageAfterMark threeTuplePage ⟨7, 1⟩)) = 4096) :=
  ⟨Reachable_pageAfterMark _ _ _ Reachable_threeTuplePage,
    space_accounting 4096 (pageAfterMark threeTuplePage ⟨7, 1⟩) (by decide) (by decide)
      (Reachable_pageAfterMark _ _ _ Reachable_threeTuplePage)⟩

/-- C18, as stated, fails: after `Init(4096)`, a successful insert of an 8-byte
tuple and a successful `MarkDelete` of it, the page has no live slot, 4056 free
bytes and 32 bytes of header and directory, which add up to 4088. -/
theorem space_accounting_counterexample :
    Reachable 4096 (pageAfterMark (pageAfterInsert examplePage exampleTuple) ⟨7, 0⟩)
    ∧ (MarkDelete (pageAfterInsert examplePage exampleTuple) ⟨7, 0⟩ none none).map
        (fun r => r.ok) = some true
    ∧ liveBytes (pageAfterMark (pageAfterInsert examplePage exampleTuple) ⟨7, 0⟩) = 0
    ∧ freeBytes (pageAfterMark (pageAfterInsert examplePage exampleTuple) ⟨7, 0⟩) = 4056
    ∧ 24 + 8 * GetTupleCount
        (pageAfterMark (pageAfterInsert examplePage exampleTuple) ⟨7, 0⟩) = 32
    ∧ liveBytes (pageAfterMark (pageAfterInsert examplePage exampleTuple) ⟨7, 0⟩)
        + freeBytes (pageAfterMark (pageAfterInsert examplePage exampleTuple) ⟨7, 0⟩)
        + (24 + 8 * GetTupleCount
            (pageAfterMark (pageAfterInsert examplePage exampleTuple) ⟨7, 0⟩)) ≠ 4096 :=
  ⟨Reachable_pageAfterMark _ _ _ (Reachable_pageAfterInsert _ _ _ (Reachable.init _ _ _ _ _)),
    by decide, by decide, by decide, by decide, by decide⟩


/-! ## LSN stamping -/

/-- The logging block with both pointers non-null: the record built by `mk` is
appended and its LSN is stamped on the page and on the transaction. -/
theorem logBlock_some (pg : TablePage) (t : TransactionContext) (l : LogManager)
    (mk : TransactionContext → LogRecord) :
    logBlock pg (some t) (some l) mk
      = some ⟨SetLSN pg l.next_lsn, some ⟨t.txn_id, l.next_lsn⟩,
          some ⟨l.records ++ [mk t], l.next_lsn + 1⟩⟩ := rfl

theorem GetLSN_SetLSN (pg : TablePage) (v : Nat) (h : v < U32) : GetLSN (SetLSN pg v) = v := by
  show get_u32 (set_u32 pg 4 v) 4 = v
  rw [get_set_u32_same, Nat.mod_eq_of_lt h]

/-- The LSN field depends only on bytes 4 to 7. -/
theorem GetLSN_congr (pg pg' : TablePage) (h : ∀ x, 4 ≤ x → x < 8 → pg' x = pg x) :
    GetLSN pg' = GetLSN pg :=
  get_u32_congr pg pg' 4 (fun x h1 h2 => h x h1 (by omega))

theorem GetLSN_SetTupleSize (pg : TablePage) (k v : Nat) :
    GetLSN (SetTupleSize pg k v) = GetLSN pg := by
  have hE : slotEntry k = 24 + 8 * k := rfl
  exact get_set_u32_disj pg _ 4 v (by omega)

/-- The record of a successful `InsertTuple`. -/
theorem InsertTuple_log (pg : TablePage) (tuple : Tuple) (txn : Option TransactionContext)
    (lm : Option LogManager) (r : InsertResult)
    (h : InsertTuple pg tuple txn lm = some r) (hok : r.ok = true) :
    ∃ rid, r.rid = some rid
      ∧ logBlock (insertPage pg tuple
          (findFreeSlot pg (GetTupleCount pg) (GetTupleCount pg) 0) (GetTupleCount pg)) txn lm
          (fun t => ⟨t.txn_id, t.prev_lsn, LogRecordType.INSERT, rid, [tuple]⟩)
        = some r.state := by
  have hpid : ∀ k c, GetPageId (insertPage pg tuple k c) = GetPageId (insertWrites pg tuple k) := by
    intro k c
    unfold insertPage
    split
    · exact get_set_u32_disj _ 20 0 _ (by omega)
    · rfl
  unfold InsertTuple at h
  simp only [Tuple.GetSize, gt_iff_lt] at h
  by_cases hpos : 0 < tuple.size
  · simp only [hpos, not_true_eq_false, if_false] at h
    by_cases h1 : GetFreeSpaceRemaining pg < tuple.size
    · rw [if_pos h1] at h
      simp only [Option.some.injEq] at h
      subst h
      exact absurd hok (by simp)
    · rw [if_neg h1] at h
      by_cases h2 : findFreeSlot pg (GetTupleCount pg) (GetTupleCount pg) 0 = GetTupleCount pg
          ∧ GetFreeSpaceRemaining pg < add32 tuple.size SIZE_SLOT
      · rw [if_pos h2] at h
        simp only [Option.some.injEq] at h
        subst h
        exact absurd hok (by simp)
      · rw [if_neg h2] at h
        split at h
        · exact absurd h (by simp)
        · rename_i st hst
          simp only [Option.some.injEq] at h
          subst h
          refine ⟨_, rfl, ?_⟩
          show logBlock _ txn lm (fun t => ⟨t.txn_id, t.prev_lsn, LogRecordType.INSERT,
            ⟨GetPageId (insertWrites pg tuple
              (findFreeSlot pg (GetTupleCount pg) (GetTupleCount pg) 0)),
              findFreeSlot pg (GetTupleCount pg) (GetTupleCount pg) 0⟩, [tuple]⟩) = some st
          rw [← hpid _ (GetTupleCount pg)]
          exact hst
  · simp only [hpos, not_false_eq_true, if_true] at h
    exact absurd h (by simp)

/-- The record of a successful `MarkDelete`. -/
theorem MarkDelete_log (pg : TablePage) (rid : RID) (txn : Option TransactionContext)
    (lm : Option LogManager) (r : BoolResult)
    (h : MarkDelete pg rid txn lm = some r) (hok : r.ok = true) :
    ∃ st, logBlock pg txn lm
        (fun t => ⟨t.txn_id, t.prev_lsn, LogRecordType.MARKDELETE, rid, [Tuple.default]⟩) = some st
      ∧ r.state.page = SetTupleSize st.page rid.slot_id
          (SetDeletedFlag (GetTupleSize pg rid.slot_id))
      ∧ r.state.txn = st.txn ∧ r.state.log_manager = st.log_manager := by
  unfold MarkDelete at h
  by_cases hp : rid.page_id = GetPageId pg
  · simp only [hp, ne_eq, not_true_eq_false, if_false, ge_iff_le] at h
    by_cases h1 : GetTupleCount pg ≤ rid.slot_id
    · rw [if_pos h1] at h
      simp only [Option.some.injEq] at h
      subst h
      exact absurd hok (by simp)
    · rw [if_neg h1] at h
      by_cases h2 : GetTupleSize pg rid.slot_id = 0
      · rw [if_pos h2] at h
        simp only [Option.some.injEq] at h
        subst h
        exact absurd hok (by simp)
      · rw [if_neg h2] at h
        cases h3 : IsDeleted (GetTupleSize pg rid.slot_id) with
        | true => simp [h3] at h
        | false =>
          simp only [h3, Bool.false_eq_true, if_false] at h
          split at h
          · exact absurd h (by simp)
          · rename_i st hst
            simp only [Option.some.injEq] at h
            subst h
            exact ⟨st, hst, rfl, rfl, rfl⟩
  · simp only [ne_eq, hp, not_false_eq_true, if_true] at h
    exact absurd h (by simp)

/-- The record of a successful `UpdateTuple`. -/
theorem UpdateTuple_log (pg : TablePage) (new_tuple old_tuple : Tuple) (rid : RID)
    (txn : Option TransactionContext) (lm : Option LogManager) (r : UpdateResult)
    (h : UpdateTuple pg new_tuple old_tuple rid txn lm = some r) (hok : r.ok = true) :
    logBlock (updatePage pg new_tuple rid.slot_id) txn lm
        (fun t => ⟨t.txn_id, t.prev_lsn, LogRecordType.UPDATE, rid, [r.old_tuple, new_tuple]⟩)
      = some r.state := by
  unfold UpdateTuple at h
  by_cases hp : rid.page_id = GetPageId pg
  · simp only [hp, ne_eq, not_true_eq_false, if_false, ge_iff_le, Tuple.GetSize, gt_iff_lt] at h
    by_cases hpos : 0 < new_tuple.size
    · simp only [hpos, not_true_eq_false, if_false] at h
      by_cases h1 : GetTupleCount pg ≤ rid.slot_id
      · rw [if_pos h1] at h
        simp only [Option.some.injEq] at h
        subst h
        exact absurd hok (by simp)
      · rw [if_neg h1] at h
        by_cases h2 : GetTupleSize pg rid.slot_id = 0
        · rw [if_pos h2] at h
          simp only [Option.some.injEq] at h
          subst h
          exact absurd hok (by simp)
        · rw [if_neg h2] at h
          cases h3 : IsDeleted (GetTupleSize pg rid.slot_id) with
          | true => simp [h3] at h
          | false =>
            simp only [h3, Bool.false_eq_true, if_false] at h
            by_cases h4 : add32 (GetFreeSpaceRemaining pg) (GetTupleSize pg rid.slot_id)
                < new_tuple.size
            · rw [if_pos h4] at h
              simp only [Option.some.injEq] at h
              subst h
              exact absurd hok (by simp)
            · rw [if_neg h4] at h
              split at h
              · exact absurd h (by simp)
              · rename_i st hst
                simp only [Option.some.injEq] at h
                subst h
                exact hst
    · simp only [hpos, not_false_eq_true, if_true] at h
      exact absurd h (by simp)
  · simp only [ne_eq, hp, not_false_eq_true, if_true] at h
    exact absurd h (by simp)

/-- The record of `ApplyDelete`. -/
theorem ApplyDelete_log (pg : TablePage) (rid : RID) (txn : Option TransactionContext)
    (lm : Option LogManager) (st' : PageState) (h : ApplyDelete pg rid txn lm = some st') :
    ∃ st, logBlock pg txn lm
        (fun t => ⟨t.txn_id, t.prev_lsn, LogRecordType.APPLYDELETE, rid,
          [Tuple.DeserializeFromSized pg (GetTupleOffset pg rid.slot_id)
            (trueSize (GetTupleSize pg rid.slot_id))]⟩) = some st
      ∧ st'.txn = st.txn ∧ st'.log_manager = st.log_manager
      ∧ st'.page = deletePage st.page rid.slot_id (GetTupleOffset pg rid.slot_id)
          (trueSize (GetTupleSize pg rid.slot_id)) := by
  unfold ApplyDelete at h
  by_cases hp : rid.page_id = GetPageId pg
  · simp only [hp, ne_eq, not_true_eq_false, if_false] at h
    by_cases h1 : rid.slot_id < GetTupleCount pg
    · simp only [h1, not_true_eq_false, if_false] at h
      by_cases h2 : GetTupleSize pg rid.slot_id = 0
      · simp [IsValid, h2] at h
      · simp only [IsValid, ne_eq, h2, not_false_eq_true, decide_True, not_true_eq_false,
          if_false] at h
        rw [stripped_eq_trueSize _ h2 (get_u32_lt _ _)] at h
        split at h
        · exact absurd h (by simp)
        · rename_i st hst
          simp only [Option.some.injEq] at h
          subst h
          exact ⟨st, hst, rfl, rfl, rfl⟩
    · simp only [h1, not_false_eq_true, if_true] at h
      exact absurd h (by simp)
  · simp only [ne_eq, hp, not_false_eq_true, if_true] at h
    exact absurd h (by simp)

/-- The record of `RollbackDelete`. -/
theorem RollbackDelete_log (pg : TablePage) (rid : RID) (txn : Option TransactionContext)
    (lm : Option LogManager) (st' : PageState) (h : RollbackDelete pg rid txn lm = some st') :
    ∃ st, logBlock pg txn lm
        (fun t => ⟨t.txn_id, t.prev_lsn, LogRecordType.ROLLBACKDELETE, rid, [Tuple.default]⟩)
        = some st
      ∧ st'.txn = st.txn ∧ st'.log_manager = st.log_manager
      ∧ st'.page = (if IsDeleted (GetTupleSize pg rid.slot_id) then
          SetTupleSize st.page rid.slot_id (UnsetDeletedFlag (GetTupleSize pg rid.slot_id))
        else st.page) := by
  unfold RollbackDelete at h
  by_cases hp : rid.page_id = GetPageId pg
  · simp only [hp, ne_eq, not_true_eq_false, if_false] at h
    by_cases h1 : rid.slot_id < GetTupleCount pg
    · simp only [h1, not_true_eq_false, if_false] at h
      split at h
      · exact absurd h (by simp)
      · rename_i st hst
        refine ⟨st, hst, ?_⟩
        split at h
        · rename_i hd
          simp only [Option.some.injEq] at h
          subst h
          simp only [hd, if_true, and_self]
        · rename_i hd
          simp only [Option.some.injEq] at h
          subst h
          simp only [hd, if_false, and_self, Bool.false_eq_true]
    · simp only [h1, not_false_eq_true, if_true] at h
      exact absurd h (by simp)
  · simp only [ne_eq, hp, not_false_eq_true, if_true] at h
    exact absurd h (by simp)


/-- After its logging block `ApplyDelete` does not write to the LSN field, as
long as the payload region starts behind the header. -/
theorem deletePage_lsn (pg : TablePage) (k off ts : Nat)
    (h8 : 8 ≤ GetFreeSpacePointer pg + ts) :
    GetLSN (deletePage pg k off ts) = GetLSN pg := by
  have hE : ∀ j, slotEntry j = 24 + 8 * j := fun j => rfl
  apply GetLSN_congr
  intro x h1 h2
  unfold deletePage
  rw [deleteOffsets_eq_offsetLoop]
  rw [(offsetLoop_spec _ _ _ _ 0 _).1 x (fun j _ _ _ => Or.inl (by have := hE j; omega))]
  exact deleteWrites_low pg k off ts x (by omega) (Or.inl (by omega))
    (Or.inl (by have := hE k; omega))

/-- Stamp left by the logging block when it is the last thing an operation
does. -/
theorem Stamped_of_logBlock (pg : TablePage) (t : TransactionContext) (l : LogManager)
    (ty : LogRecordType) (rid : RID) (tuples : List Tuple) (st : PageState)
    (hl : l.next_lsn < U32)
    (h : logBlock pg (some t) (some l)
        (fun t => ⟨t.txn_id, t.prev_lsn, ty, rid, tuples⟩) = some st) :
    Stamped t l ty rid st := by
  rw [logBlock_some] at h
  simp only [Option.some.injEq] at h
  subst h
  exact ⟨tuples, rfl, rfl, GetLSN_SetLSN pg _ hl, rfl⟩

/-- Stamp left by the logging block when the operation goes on to write the
page without touching the LSN field. -/
theorem Stamped_of_logBlock_then (pg : TablePage) (t : TransactionContext) (l : LogManager)
    (ty : LogRecordType) (rid : RID) (tuples : List Tuple) (st st' : PageState)
    (hl : l.next_lsn < U32)
    (h : logBlock pg (some t) (some l)
        (fun t => ⟨t.txn_id, t.prev_lsn, ty, rid, tuples⟩) = some st)
    (htxn : st'.txn = st.txn) (hlm : st'.log_manager = st.log_manager)
    (hlsn : GetLSN st'.page = GetLSN st.page) :
    Stamped t l ty rid st' := by
  obtain ⟨tuples', e1, e2, e3, e4⟩ := Stamped_of_logBlock pg t l ty rid tuples st hl h
  exact ⟨tuples', by rw [hlm]; exact e1, e2, by rw [hlsn]; exact e3, by rw [htxn]; exact e4⟩

/-- C19. LSN stamping: with a non-null log manager and transaction, every
successful `InsertTuple`, `MarkDelete`, `UpdateTuple`, `ApplyDelete` and
`RollbackDelete` (also on a slot that is not marked-deleted) appends exactly
one log record whose type matches the operation, whose rid is the operated rid
and whose `txn_id` and `prev_lsn` are the transaction's values at entry; the LSN
returned for that record is afterwards both the page header's LSN and the
transaction's prev-LSN.  LSNs are 32-bit values, and for `ApplyDelete` the slot
directory lies below the free space pointer. -/
theorem lsn_stamping (op : PageOp) (pg : TablePage) (t : TransactionContext) (l : LogManager)
    (out : OpResult) (hl : l.next_lsn < U32)
    (hdir : op.isApplyDelete = true →
      24 + 8 * GetTupleCount pg ≤ GetFreeSpacePointer pg)
    (h : op.run pg (some t) (some l) = some out) (hok : out.ok = true) :
    ∃ rid, out.rid = some rid ∧ Stamped t l op.recordType rid out.state := by
  cases op with
  | insert tuple =>
    simp only [PageOp.run, Option.map_eq_some'] at h
    obtain ⟨r, hr, hout⟩ := h
    subst hout
    obtain ⟨rid, hrid, hlog⟩ := InsertTuple_log pg tuple _ _ r hr hok
    exact ⟨rid, hrid, Stamped_of_logBlock _ t l _ rid _ _ hl hlog⟩
  | markDelete rid =>
    simp only [PageOp.run, Option.map_eq_some'] at h
    obtain ⟨r, hr, hout⟩ := h
    subst hout
    obtain ⟨st, hlog, hpage, htxn, hlm⟩ := MarkDelete_log pg rid _ _ r hr hok
    refine ⟨rid, rfl, Stamped_of_logBlock_then pg t l _ rid _ st _ hl hlog htxn hlm ?_⟩
    show GetLSN r.state.page = _
    rw [hpage, GetLSN_SetTupleSize]
  | update new_tuple old_tuple rid =>
    simp only [PageOp.run, Option.map_eq_some'] at h
    obtain ⟨r, hr, hout⟩ := h
    subst hout
    exact ⟨rid, rfl, Stamped_of_logBlock _ t l _ rid _ _ hl
      (UpdateTuple_log pg new_tuple old_tuple rid _ _ r hr hok)⟩
  | applyDelete rid =>
    simp only [PageOp.run, Option.map_eq_some'] at h
    obtain ⟨st', hr, hout⟩ := h
    subst hout
    obtain ⟨st, hlog, htxn, hlm, hpage⟩ := ApplyDelete_log pg rid _ _ st' hr
    refine ⟨rid, rfl, Stamped_of_logBlock_then pg t l _ rid _ st _ hl hlog htxn hlm ?_⟩
    show GetLSN st'.page = _
    have hfsp := (fields_of_lsn_frame pg st.page (logBlock_frame _ _ _ _ _ hlog)).2.1
    have hd := hdir rfl
    rw [hpage]
    exact deletePage_lsn _ _ _ _ (by omega)
  | rollbackDelete rid =>
    simp only [PageOp.run, Option.map_eq_some'] at h
    obtain ⟨st', hr, hout⟩ := h
    subst hout
    obtain ⟨st, hlog, htxn, hlm, hpage⟩ := RollbackDelete_log pg rid _ _ st' hr
    refine ⟨rid, rfl, Stamped_of_logBlock_then pg t l _ rid _ st _ hl hlog htxn hlm ?_⟩
    show GetLSN st'.page = _
    rw [hpage]
    split
    · exact GetLSN_SetTupleSize _ _ _
    · rfl

theorem lsn_stamping_witness :
    (5 : Nat) < U32
    ∧ 24 + 8 * GetTupleCount threeTuplePage ≤ GetFreeSpacePointer threeTuplePage
    ∧ ∃ out, (PageOp.applyDelete ⟨7, 1⟩).run threeTuplePage (some ⟨1, 0⟩) (some ⟨[], 5⟩)
          = some out
      ∧ out.ok = true
      ∧ ∃ rid, out.rid = some rid
        ∧ Stamped ⟨1, 0⟩ ⟨[], 5⟩ LogRecordType.APPLYDELETE rid out.state := by
  have hsome : ((PageOp.applyDelete ⟨7, 1⟩).run threeTuplePage (some ⟨1, 0⟩)
      (some ⟨[], 5⟩)).isSome = true := by decide
  exact ⟨by decide, by decide, Option.get _ hsome, (Option.some_get hsome).symm, rfl,
    lsn_stamping (PageOp.applyDelete ⟨7, 1⟩) threeTuplePage ⟨1, 0⟩ ⟨[], 5⟩ _ (by decide)
      (fun _ => by decide) (Option.some_get hsome).symm rfl⟩


/-! ## Order of logging and page writes -/

theorem runEffects_append (es fs : List Effect) :
    ∀ fr, runEffects (es ++ fs) fr = runEffects fs (runEffects es fr) := by
  induction es with
  | nil => intro fr; rfl
  | cons e es ih => intro fr; exact ih (e.run fr)

/-- The statements of the logging block do what the logging block does. -/
theorem runEffects_logEffects (pg : TablePage) (txn : Option TransactionContext)
    (lm : Option LogManager) (mk : TablePage → TransactionContext → LogRecord)
    (st : PageState) (lsn0 : Nat) (h : logBlock pg txn lm (mk pg) = some st) :
    (runEffects (logEffects lm mk) ⟨⟨pg, txn, lm⟩, lsn0⟩).state = st := by
  unfold logBlock at h
  cases lm with
  | none =>
    simp only [Option.some.injEq] at h
    rw [← h]; rfl
  | some l =>
    cases txn with
    | none => simp at h
    | some t =>
      simp only [Option.some.injEq] at h
      rw [← h]; rfl

/-- Replaying the statements of `InsertTuple` gives the state it leaves. -/
theorem InsertTuple_replay (pg : TablePage) (tuple : Tuple) (txn : Option TransactionContext)
    (lm : Option LogManager) (r : InsertResult) (h : InsertTuple pg tuple txn lm = some r) :
    (runEffects (InsertTupleEffects pg tuple lm) ⟨⟨pg, txn, lm⟩, 0⟩).state = r.state := by
  unfold InsertTuple at h
  unfold InsertTupleEffects
  simp only [Tuple.GetSize, gt_iff_lt] at h ⊢
  by_cases hpos : 0 < tuple.size
  · simp only [hpos, not_true_eq_false, if_false] at h
    by_cases h1 : GetFreeSpaceRemaining pg < tuple.size
    · rw [if_pos h1] at h ⊢
      simp only [Option.some.injEq] at h
      subst h
      rfl
    · rw [if_neg h1] at h ⊢
      by_cases h2 : findFreeSlot pg (GetTupleCount pg) (GetTupleCount pg) 0 = GetTupleCount pg
          ∧ GetFreeSpaceRemaining pg < add32 tuple.size SIZE_SLOT
      · rw [if_pos h2] at h ⊢
        simp only [Option.some.injEq] at h
        subst h
        rfl
      · rw [if_neg h2] at h ⊢
        split at h
        · exact absurd h (by simp)
        · rename_i st hst
          simp only [Option.some.injEq] at h
          subst h
          rw [runEffects_append]
          by_cases hk : findFreeSlot pg (GetTupleCount pg) (GetTupleCount pg) 0 = GetTupleCount pg
          · rw [if_pos hk] at hst ⊢
            exact runEffects_logEffects _ txn lm _ st 0 hst
          · rw [if_neg hk] at hst ⊢
            exact runEffects_logEffects _ txn lm _ st 0 hst
  · simp only [hpos, not_false_eq_true, if_true] at h
    exact absurd h (by simp)

/-- State after the logging block and then page writes: only the page differs
from the state the logging block left. -/
theorem runEffects_log_then (pg : TablePage) (txn : Option TransactionContext)
    (lm : Option LogManager) (mk : TablePage → TransactionContext → LogRecord)
    (st : PageState) (ws : List Effect) (f : TablePage → TablePage)
    (h : logBlock pg txn lm (mk pg) = some st)
    (hws : ∀ fr, (runEffects ws fr).state = { fr.state with page := f fr.state.page }) :
    (runEffects (logEffects lm mk ++ ws) ⟨⟨pg, txn, lm⟩, 0⟩).state
      = { st with page := f st.page } := by
  rw [runEffects_append, hws, runEffects_logEffects pg txn lm mk st 0 h]

/-- Replaying the statements of `MarkDelete` gives the state it leaves. -/
theorem MarkDelete_replay (pg : TablePage) (rid : RID) (txn : Option TransactionContext)
    (lm : Option LogManager) (r : BoolResult) (h : MarkDelete pg rid txn lm = some r) :
    (runEffects (MarkDeleteEffects pg rid lm) ⟨⟨pg, txn, lm⟩, 0⟩).state = r.state := by
  unfold MarkDelete at h
  unfold MarkDeleteEffects
  by_cases hp : rid.page_id = GetPageId pg
  · simp only [hp, ne_eq, not_true_eq_false, if_false, ge_iff_le] at h ⊢
    by_cases h1 : GetTupleCount pg ≤ rid.slot_id
    · rw [if_pos h1] at h ⊢
      simp only [Option.some.injEq] at h
      subst h
      rfl
    · rw [if_neg h1] at h ⊢
      by_cases h2 : GetTupleSize pg rid.slot_id = 0
      · rw [if_pos h2] at h ⊢
        simp only [Option.some.injEq] at h
        subst h
        rfl
      · rw [if_neg h2] at h ⊢
        cases h3 : IsDeleted (GetTupleSize pg rid.slot_id) with
        | true => simp [h3] at h
        | false =>
          simp only [h3, Bool.false_eq_true, if_false] at h ⊢
          split at h
          · exact absurd h (by simp)
          · rename_i st hst
            simp only [Option.some.injEq] at h
            subst h
            exact runEffects_log_then pg txn lm _ st _
              (fun p => SetTupleSize p rid.slot_id (SetDeletedFlag (GetTupleSize pg rid.slot_id)))
              hst (by intro fr; rfl)
  · simp only [ne_eq, hp, not_false_eq_true, if_true] at h
    exact absurd h (by simp)

/-- Replaying the statements of `UpdateTuple` gives the state it leaves. -/
theorem UpdateTuple_replay (pg : TablePage) (new_tuple old_tuple : Tuple) (rid : RID)
    (txn : Option TransactionContext) (lm : Option LogManager) (r : UpdateResult)
    (h : UpdateTuple pg new_tuple old_tuple rid txn lm = some r) :
    (runEffects (UpdateTupleEffects pg new_tuple old_tuple rid lm) ⟨⟨pg, txn, lm⟩, 0⟩).state
      = r.state := by
  unfold UpdateTuple at h
  unfold UpdateTupleEffects
  by_cases hp : rid.page_id = GetPageId pg
  · simp only [hp, ne_eq, not_true_eq_false, if_false, ge_iff_le, Tuple.GetSize, gt_iff_lt]
      at h ⊢
    by_cases hpos : 0 < new_tuple.size
    · simp only [hpos, not_true_eq_false, if_false] at h
      by_cases h1 : GetTupleCount pg ≤ rid.slot_id
      · rw [if_pos h1] at h ⊢
        simp only [Option.some.injEq] at h
        subst h
        rfl
      · rw [if_neg h1] at h ⊢
        by_cases h2 : GetTupleSize pg rid.slot_id = 0
        · rw [if_pos h2] at h ⊢
          simp only [Option.some.injEq] at h
          subst h
          rfl
        · rw [if_neg h2] at h ⊢
          cases h3 : IsDeleted (GetTupleSize pg rid.slot_id) with
          | true => simp [h3] at h
          | false =>
            simp only [h3, Bool.false_eq_true, if_false] at h ⊢
            by_cases h4 : add32 (GetFreeSpaceRemaining pg) (GetTupleSize pg rid.slot_id)
                < new_tuple.size
            · rw [if_pos h4] at h ⊢
              simp only [Option.some.injEq] at h
              subst h
              rfl
            · rw [if_neg h4] at h ⊢
              split at h
              · exact absurd h (by simp)
              · rename_i st hst
                simp only [Option.some.injEq] at h
                subst h
                rw [runEffects_append]
                exact runEffects_logEffects _ txn lm _ st 0 hst
    · simp only [hpos, not_false_eq_true, if_true] at h
      exact absurd h (by simp)
  · simp only [ne_eq, hp, not_false_eq_true, if_true] at h
    exact absurd h (by simp)

/-- Replaying the statements of `ApplyDelete` gives the state it leaves. -/
theorem ApplyDelete_replay (pg : TablePage) (rid : RID) (txn : Option TransactionContext)
    (lm : Option LogManager) (st' : PageState) (h : ApplyDelete pg rid txn lm = some st') :
    (runEffects (ApplyDeleteEffects pg rid lm) ⟨⟨pg, txn, lm⟩, 0⟩).state = st' := by
  unfold ApplyDelete at h
  unfold ApplyDeleteEffects
  by_cases hp : rid.page_id = GetPageId pg
  · simp only [hp, ne_eq, not_true_eq_false, if_false] at h
    by_cases h1 : rid.slot_id < GetTupleCount pg
    · simp only [h1, not_true_eq_false, if_false] at h ⊢
      by_cases h2 : GetTupleSize pg rid.slot_id = 0
      · simp [IsValid, h2] at h
      · simp only [IsValid, ne_eq, h2, not_false_eq_true, decide_True, not_true_eq_false,
          if_false] at h ⊢
        split at h
        · exact absurd h (by simp)
        · rename_i st hst
          simp only [Option.some.injEq] at h
          subst h
          have hfsp : GetFreeSpacePointer st.page = GetFreeSpacePointer pg :=
            (fields_of_lsn_frame pg st.page (logBlock_frame _ _ _ _ _ hst)).2.1
          generalize hts : (if IsDeleted (GetTupleSize pg rid.slot_id) = true then
            UnsetDeletedFlag (GetTupleSize pg rid.slot_id) else GetTupleSize pg rid.slot_id)
            = ts at hst ⊢
          refine (runEffects_log_then pg txn lm
            (fun _ t => ⟨t.txn_id, t.prev_lsn, LogRecordType.APPLYDELETE, rid,
              [Tuple.DeserializeFromSized pg (GetTupleOffset pg rid.slot_id) ts]⟩) st _
            (fun p => deleteOffsets
              (GetTupleCount (SetFreeSpacePointer (SetTupleOffset (SetTupleSize
                (memmove p (GetFreeSpacePointer pg + ts) (GetFreeSpacePointer pg)
                  (sub32 (GetTupleOffset pg rid.slot_id) (GetFreeSpacePointer pg)))
                rid.slot_id 0) rid.slot_id 0) (add32 (GetFreeSpacePointer pg) ts)))
              (GetTupleOffset pg rid.slot_id) ts
              (GetTupleCount (SetFreeSpacePointer (SetTupleOffset (SetTupleSize
                (memmove p (GetFreeSpacePointer pg + ts) (GetFreeSpacePointer pg)
                  (sub32 (GetTupleOffset pg rid.slot_id) (GetFreeSpacePointer pg)))
                rid.slot_id 0) rid.slot_id 0) (add32 (GetFreeSpacePointer pg) ts))) 0
              (SetFreeSpacePointer (SetTupleOffset (SetTupleSize
                (memmove p (GetFreeSpacePointer pg + ts) (GetFreeSpacePointer pg)
                  (sub32 (GetTupleOffset pg rid.slot_id) (GetFreeSpacePointer pg)))
                rid.slot_id 0) rid.slot_id 0) (add32 (GetFreeSpacePointer pg) ts)))
            hst (by intro fr; rfl)).trans ?_
          rw [hfsp]
    · simp only [h1, not_false_eq_true, if_true] at h
      exact absurd h (by simp)
  · simp only [ne_eq, hp, not_false_eq_true, if_true] at h
    exact absurd h (by simp)

/-- Replaying the statements of `RollbackDelete` gives the state it leaves. -/
theorem RollbackDelete_replay (pg : TablePage) (rid : RID) (txn : Option TransactionContext)
    (lm : Option LogManager) (st' : PageState) (h : RollbackDelete pg rid txn lm = some st') :
    (runEffects (RollbackDeleteEffects pg rid lm) ⟨⟨pg, txn, lm⟩, 0⟩).state = st' := by
  unfold RollbackDelete at h
  unfold RollbackDeleteEffects
  by_cases hp : rid.page_id = GetPageId pg
  · simp only [hp, ne_eq, not_true_eq_false, if_false] at h
    by_cases h1 : rid.slot_id < GetTupleCount pg
    · simp only [h1, not_true_eq_false, if_false] at h ⊢
      split at h
      · exact absurd h (by simp)
      · rename_i st hst
        split at h
        · rename_i hd
          simp only [Option.some.injEq] at h
          subst h
          rw [if_pos hd]
          exact runEffects_log_then pg txn lm _ st _
            (fun p => SetTupleSize p rid.slot_id
              (UnsetDeletedFlag (GetTupleSize pg rid.slot_id)))
            hst (by intro fr; rfl)
        · rename_i hd
          simp only [Option.some.injEq] at h
          subst h
          rw [if_neg hd, List.append_nil]
          exact runEffects_logEffects pg txn lm _ _ 0 hst
    · simp only [h1, not_false_eq_true, if_true] at h
      exact absurd h (by simp)
  · simp only [ne_eq, hp, not_false_eq_true, if_true] at h
    exact absurd h (by simp)



/-- The statements of `InsertTuple`, by outcome. -/
theorem InsertTuple_kinds (pg : TablePage) (tuple : Tuple) (txn : Option TransactionContext)
    (l : LogManager) (r : InsertResult) (h : InsertTuple pg tuple txn (some l) = some r) :
    (r.ok = false → InsertTupleEffects pg tuple (some l) = [])
    ∧ (r.ok = true →
        effectKinds (InsertTupleEffects pg tuple (some l))
          = List.replicate
              (if findFreeSlot pg (GetTupleCount pg) (GetTupleCount pg) 0 = GetTupleCount pg
                then 5 else 4) EffectKind.pageWrite
            ++ [EffectKind.appendLog, EffectKind.stampLSN, EffectKind.setPrevLSN]) := by
  obtain ⟨_, hcase⟩ := InsertTuple_inv pg tuple txn (some l) r h
  unfold InsertTupleEffects
  simp only [Tuple.GetSize]
  rcases hcase with ⟨hf, _, _, _, _, hc⟩ | ⟨ht, h1, h2, _⟩
  · refine ⟨fun _ => ?_, fun hok => by rw [hf] at hok; exact absurd hok (by simp)⟩
    rcases hc with h1 | h2
    · rw [if_pos h1]
    · split
      · rfl
      · rfl
  · refine ⟨fun hok => by rw [ht] at hok; exact absurd hok (by simp), fun _ => ?_⟩
    rw [if_neg h1, if_neg h2]
    by_cases hk : findFreeSlot pg (GetTupleCount pg) (GetTupleCount pg) 0 = GetTupleCount pg
    · rw [if_pos hk, if_pos hk]; rfl
    · rw [if_neg hk, if_neg hk]; rfl

/-- The statements of `MarkDelete`, by outcome. -/
theorem MarkDelete_kinds (pg : TablePage) (rid : RID) (txn : Option TransactionContext)
    (l : LogManager) (r : BoolResult) (h : MarkDelete pg rid txn (some l) = some r) :
    (r.ok = false → MarkDeleteEffects pg rid (some l) = [])
    ∧ (r.ok = true →
        effectKinds (MarkDeleteEffects pg rid (some l))
          = [EffectKind.appendLog, EffectKind.stampLSN, EffectKind.setPrevLSN,
              EffectKind.pageWrite]) := by
  obtain ⟨_, hcase⟩ := MarkDelete_inv pg rid txn (some l) r h
  unfold MarkDeleteEffects
  simp only [ge_iff_le]
  rcases hcase with ⟨hf, _, _, _, hc⟩ | ⟨ht, h1, h2, h3, _⟩
  · refine ⟨fun _ => ?_, fun hok => by rw [hf] at hok; exact absurd hok (by simp)⟩
    rcases hc with h1 | h2
    · rw [if_pos h1]
    · split
      · rfl
      · rfl
  · refine ⟨fun hok => by rw [ht] at hok; exact absurd hok (by simp), fun _ => ?_⟩
    rw [if_neg (by omega), if_neg h2, h3]
    rfl

/-- The statements of `UpdateTuple`, by outcome. -/
theorem UpdateTuple_kinds (pg : TablePage) (new_tuple old_tuple : Tuple) (rid : RID)
    (txn : Option TransactionContext) (l : LogManager) (r : UpdateResult)
    (h : UpdateTuple pg new_tuple old_tuple rid txn (some l) = some r) :
    (r.ok = false → UpdateTupleEffects pg new_tuple old_tuple rid (some l) = [])
    ∧ (r.ok = true →
        effectKinds (UpdateTupleEffects pg new_tuple old_tuple rid (some l))
          = List.replicate 5 EffectKind.pageWrite
            ++ [EffectKind.appendLog, EffectKind.stampLSN, EffectKind.setPrevLSN]) := by
  obtain ⟨_, _, hcase⟩ := UpdateTuple_inv pg new_tuple old_tuple rid txn (some l) r h
  unfold UpdateTupleEffects
  simp only [ge_iff_le, Tuple.GetSize]
  rcases hcase with ⟨hf, _, _, _, _, hc⟩ | ⟨ht, h1, h2, h3, h4, _⟩
  · refine ⟨fun _ => ?_, fun hok => by rw [hf] at hok; exact absurd hok (by simp)⟩
    rcases hc with h1 | h2 | ⟨h1, h2, h3, h4⟩
    · rw [if_pos h1]
    · split
      · rfl
      · rfl
    · rw [if_neg (by omega), if_neg h2, h3]
      simp only [Bool.false_eq_true, if_false]
      rw [if_pos h4]
  · refine ⟨fun hok => by rw [ht] at hok; exact absurd hok (by simp), fun _ => ?_⟩
    rw [if_neg (by omega), if_neg h2, h3]
    simp only [Bool.false_eq_true, if_false]
    rw [if_neg h4]
    rfl

/-- The statements of `ApplyDelete` when it returns. -/
theorem ApplyDelete_kinds (pg : TablePage) (rid : RID) (txn : Option TransactionContext)
    (l : LogManager) (st' : PageState) (h : ApplyDelete pg rid txn (some l) = some st') :
    effectKinds (ApplyDeleteEffects pg rid (some l))
      = [EffectKind.appendLog, EffectKind.stampLSN, EffectKind.setPrevLSN]
        ++ List.replicate 5 EffectKind.pageWrite := by
  obtain ⟨_, h1, h2, _⟩ := ApplyDelete_inv pg rid txn (some l) st' h
  unfold ApplyDeleteEffects
  simp only [h1, not_true_eq_false, if_false, IsValid, ne_eq, h2, not_false_eq_true,
    decide_True]
  rfl

/-- The statements of `RollbackDelete` when it returns. -/
theorem RollbackDelete_kinds (pg : TablePage) (rid : RID) (txn : Option TransactionContext)
    (l : LogManager) (st' : PageState) (h : RollbackDelete pg rid txn (some l) = some st') :
    effectKinds (RollbackDeleteEffects pg rid (some l))
      = [EffectKind.appendLog, EffectKind.stampLSN, EffectKind.setPrevLSN]
        ++ List.replicate (if IsDeleted (GetTupleSize pg rid.slot_id) then 1 else 0)
            EffectKind.pageWrite := by
  obtain ⟨_, h1, _⟩ := RollbackDelete_inv pg rid txn (some l) st' h
  unfold RollbackDeleteEffects
  simp only [h1, not_true_eq_false, if_false]
  split
  · rfl
  · rfl

/-- C20 (amended). Order of logging and page writes: in every mutating page
operation run with a non-null log manager and transaction, replaying the
operation's statements in source order gives the state the operation leaves; a
call that returns `false` executes none of them; a successful `MarkDelete`,
`ApplyDelete` or `RollbackDelete` appends the log record, stamps the LSN and
sets the prev-LSN before its first page write, whereas a successful
`InsertTuple` or `UpdateTuple` first performs all its header, slot-directory
and payload writes and only then appends the record, stamps the LSN and sets
the prev-LSN, so that there the append does not precede the page writes. -/
theorem wal_ordering (op : PageOp) (pg : TablePage) (t : TransactionContext) (l : LogManager)
    (out : OpResult) (h : op.run pg (some t) (some l) = some out) :
    (runEffects (op.effects pg (some l)) ⟨⟨pg, some t, some l⟩, 0⟩).state = out.state
    ∧ (out.ok = false → op.effects pg (some l) = [])
    ∧ (out.ok = true →
        (op.logsFirst = true →
          AppendThenWrites (effectKinds (op.effects pg (some l)))
          ∧ AppendFirst (effectKinds (op.effects pg (some l))))
        ∧ (op.logsFirst = false →
          WritesThenAppend (effectKinds (op.effects pg (some l)))
          ∧ ¬ AppendFirst (effectKinds (op.effects pg (some l))))) := by
  cases op with
  | insert tuple =>
    simp only [PageOp.run, Option.map_eq_some'] at h
    obtain ⟨r, hr, hout⟩ := h
    subst hout
    obtain ⟨k1, k2⟩ := InsertTuple_kinds pg tuple _ l r hr
    refine ⟨InsertTuple_replay pg tuple _ _ r hr, k1, fun hok => ⟨fun hc => (by cases hc), fun _ => ?_⟩⟩
    simp only [PageOp.effects]
    rw [k2 hok]
    split
    · decide
    · decide
  | markDelete rid =>
    simp only [PageOp.run, Option.map_eq_some'] at h
    obtain ⟨r, hr, hout⟩ := h
    subst hout
    obtain ⟨k1, k2⟩ := MarkDelete_kinds pg rid _ l r hr
    refine ⟨MarkDelete_replay pg rid _ _ r hr, k1, fun hok => ⟨fun _ => ?_, fun hc => (by cases hc)⟩⟩
    simp only [PageOp.effects]
    rw [k2 hok]
    decide
  | update new_tuple old_tuple rid =>
    simp only [PageOp.run, Option.map_eq_some'] at h
    obtain ⟨r, hr, hout⟩ := h
    subst hout
    obtain ⟨k1, k2⟩ := UpdateTuple_kinds pg new_tuple old_tuple rid _ l r hr
    refine ⟨UpdateTuple_replay pg new_tuple old_tuple rid _ _ r hr, k1,
      fun hok => ⟨fun hc => (by cases hc), fun _ => ?_⟩⟩
    simp only [PageOp.effects]
    rw [k2 hok]
    decide
  | applyDelete rid =>
    simp only [PageOp.run, Option.map_eq_some'] at h
    obtain ⟨st, hr, hout⟩ := h
    subst hout
    refine ⟨ApplyDelete_replay pg rid _ _ st hr, fun hc => (by cases hc),
      fun _ => ⟨fun _ => ?_, fun hc => (by cases hc)⟩⟩
    simp only [PageOp.effects]
    rw [ApplyDelete_kinds pg rid _ l st hr]
    decide
  | rollbackDelete rid =>
    simp only [PageOp.run, Option.map_eq_some'] at h
    obtain ⟨st, hr, hout⟩ := h
    subst hout
    refine ⟨RollbackDelete_replay pg rid _ _ st hr, fun hc => (by cases hc),
      fun _ => ⟨fun _ => ?_, fun hc => (by cases hc)⟩⟩
    simp only [PageOp.effects]
    rw [RollbackDelete_kinds pg rid _ l st hr]
    split
    · decide
    · decide

theorem wal_ordering_witness :
    ∃ out, (PageOp.update exampleTuple6 Tuple.default ⟨7, 0⟩).run
          (pageAfterInsert examplePage exampleTuple) (some ⟨1, 0⟩) (some ⟨[], 5⟩) = some out
      ∧ out.ok = true
      ∧ (runEffects ((PageOp.update exampleTuple6 Tuple.default ⟨7, 0⟩).effects
            (pageAfterInsert examplePage exampleTuple) (some ⟨[], 5⟩))
          ⟨⟨pageAfterInsert examplePage exampleTuple, some ⟨1, 0⟩, some ⟨[], 5⟩⟩, 0⟩).state
          = out.state
      ∧ WritesThenAppend (effectKinds ((PageOp.update exampleTuple6 Tuple.default ⟨7, 0⟩).effects
          (pageAfterInsert examplePage exampleTuple) (some ⟨[], 5⟩))) := by
  have hsome : ((PageOp.update exampleTuple6 Tuple.default ⟨7, 0⟩).run
      (pageAfterInsert examplePage exampleTuple) (some ⟨1, 0⟩) (some ⟨[], 5⟩)).isSome = true := by
    decide
  have hw := wal_ordering (PageOp.update exampleTuple6 Tuple.default ⟨7, 0⟩)
    (pageAfterInsert examplePage exampleTuple) ⟨1, 0⟩ ⟨[], 5⟩ _ (Option.some_get hsome).symm
  exact ⟨_, (Option.some_get hsome).symm, rfl, hw.1, ((hw.2.2 rfl).2 rfl).1⟩

/-- C20, as stated, fails: a successful `InsertTuple` of an 8-byte tuple into a
fresh 4096-byte page with a log manager performs its five page writes (free
space pointer, payload, slot offset, slot size, tuple count) before it appends
the log record. -/
theorem wal_ordering_counterexample :
    ((PageOp.insert exampleTuple).run examplePage (some ⟨1, 0⟩) (some ⟨[], 5⟩)).map
        (fun o => o.ok) = some true
    ∧ effectKinds ((PageOp.insert exampleTuple).effects examplePage (some ⟨[], 5⟩))
        = [EffectKind.pageWrite, EffectKind.pageWrite, EffectKind.pageWrite,
            EffectKind.pageWrite, EffectKind.pageWrite, EffectKind.appendLog,
            EffectKind.stampLSN, EffectKind.setPrevLSN]
    ∧ ¬ AppendFirst
        (effectKinds ((PageOp.insert exampleTuple).effects examplePage (some ⟨[], 5⟩))) := by
  decide


/-! ## MarkDelete: result and frame -/

/-- The logging block with a null log manager leaves everything as it is. -/
theorem logBlock_none (pg : TablePage) (txn : Option TransactionContext)
    (mk : TransactionContext → LogRecord) :
    logBlock pg txn none mk = some ⟨pg, txn, none⟩ := rfl

/-- A successful `MarkDelete` sets the high bit of the size field of its slot
and, apart from the LSN field, changes no other byte. -/
theorem MarkDelete_true_spec (pg : TablePage) (rid : RID) (txn : Option TransactionContext)
    (lm : Option LogManager) (r : BoolResult)
    (h : MarkDelete pg rid txn lm = some r) (hok : r.ok = true) :
    LiveSlot pg rid
    ∧ GetTupleSize r.state.page rid.slot_id = GetTupleSize pg rid.slot_id + DELETE_MASK
    ∧ GetPageId r.state.page = GetPageId pg
    ∧ GetFreeSpacePointer r.state.page = GetFreeSpacePointer pg
    ∧ GetTupleCount r.state.page = GetTupleCount pg
    ∧ (∀ i, GetTupleOffset r.state.page i = GetTupleOffset pg i)
    ∧ (∀ i, i ≠ rid.slot_id → GetTupleSize r.state.page i = GetTupleSize pg i)
    ∧ (∀ x, (x < 4 ∨ 8 ≤ x) →
        (x < slotEntry rid.slot_id + 4 ∨ slotEntry rid.slot_id + 8 ≤ x) →
        r.state.page x = pg x)
    ∧ (lm = none → ∀ x,
        (x < slotEntry rid.slot_id + 4 ∨ slotEntry rid.slot_id + 8 ≤ x) →
        r.state.page x = pg x) := by
  have hlt : GetTupleSize pg rid.slot_id < U32 := get_u32_lt _ _
  have hU : U32 = 4294967296 ∧ DELETE_MASK = 2147483648 := ⟨rfl, rfl⟩
  obtain ⟨hp, hcase⟩ := MarkDelete_inv pg rid txn lm r h
  rcases hcase with ⟨hf, _⟩ | ⟨_, hs, h0, hdel, mk, st, hlog, hpage, _, _⟩
  · rw [hok] at hf; exact absurd hf (by simp)
  have hlive := (IsDeleted_false_iff _ hlt).1 hdel
  have hfr := logBlock_frame _ _ _ _ _ hlog
  obtain ⟨f1, f2, f3, f4, f5, f6, f7⟩ :=
    SetTupleSize_fields pg st.page rid.slot_id (SetDeletedFlag (GetTupleSize pg rid.slot_id)) hfr
  rw [← hpage] at f1 f2 f3 f4 f5 f6 f7
  refine ⟨⟨hp, hs, hlive.1, hlive.2⟩, ?_, f1, f2, f3, f5, f6, f7, ?_⟩
  · rw [f4, SetDeletedFlag_live _ hlive.2]
    apply Nat.mod_eq_of_lt
    omega
  · intro hnone x hx
    subst hnone
    rw [logBlock_none] at hlog
    simp only [Option.some.injEq] at hlog
    subst hlog
    rw [hpage]
    unfold SetTupleSize
    exact set_u32_outside _ _ _ _ hx

/-- C22. MarkDelete result and frame: for a rid of this page, `MarkDelete`
returns false exactly when the slot id is at or beyond the tuple count or the
slot is free (size 0), and in these cases it does return; on an in-range live
slot it returns true and changes only the size field of that slot, by setting
its high bit, and the page LSN when logging is on: the free space pointer, the
tuple count, the free bytes, every slot offset, the size of every other slot
and all bytes from the end of the directory on (the payload) are unchanged, so
no space is reclaimed. -/
theorem mark_delete_frame (pg : TablePage) (rid : RID) (txn : Option TransactionContext)
    (lm : Option LogManager) (hp : rid.page_id = GetPageId pg) (hctx : CtxOk txn lm) :
    (∀ r, MarkDelete pg rid txn lm = some r →
      (r.ok = false ↔ (GetTupleCount pg ≤ rid.slot_id ∨ GetTupleSize pg rid.slot_id = 0)))
    ∧ ((GetTupleCount pg ≤ rid.slot_id ∨ GetTupleSize pg rid.slot_id = 0) →
        MarkDelete pg rid txn lm = some ⟨false, ⟨pg, txn, lm⟩⟩)
    ∧ (rid.slot_id < GetTupleCount pg → GetTupleSize pg rid.slot_id ≠ 0 →
        GetTupleSize pg rid.slot_id < DELETE_MASK →
        ∃ r, MarkDelete pg rid txn lm = some r ∧ r.ok = true
          ∧ GetTupleSize r.state.page rid.slot_id = GetTupleSize pg rid.slot_id + DELETE_MASK
          ∧ GetFreeSpacePointer r.state.page = GetFreeSpacePointer pg
          ∧ GetTupleCount r.state.page = GetTupleCount pg
          ∧ freeBytes r.state.page = freeBytes pg
          ∧ (∀ i, GetTupleOffset r.state.page i = GetTupleOffset pg i)
          ∧ (∀ i, i ≠ rid.slot_id → GetTupleSize r.state.page i = GetTupleSize pg i)
          ∧ (∀ x, 24 + 8 * GetTupleCount pg ≤ x → r.state.page x = pg x)
          ∧ (∀ x, (x < 4 ∨ 8 ≤ x) →
              (x < slotEntry rid.slot_id + 4 ∨ slotEntry rid.slot_id + 8 ≤ x) →
              r.state.page x = pg x)
          ∧ (lm = none → ∀ x,
              (x < slotEntry rid.slot_id + 4 ∨ slotEntry rid.slot_id + 8 ≤ x) →
              r.state.page x = pg x)) := by
  refine ⟨?_, ?_, ?_⟩
  · intro r hr
    obtain ⟨_, hcase⟩ := MarkDelete_inv pg rid txn lm r hr
    rcases hcase with ⟨hf, _, _, _, hwhy⟩ | ⟨ht, hs, h0, _⟩
    · exact ⟨fun _ => hwhy, fun _ => hf⟩
    · constructor
      · intro hf; rw [ht] at hf; exact absurd hf (by simp)
      · rintro (hc | hc)
        · omega
        · exact absurd hc h0
  · intro hwhy
    unfold MarkDelete
    simp only [hp, ne_eq, not_true_eq_false, if_false, ge_iff_le]
    by_cases h1 : GetTupleCount pg ≤ rid.slot_id
    · rw [if_pos h1]
    · rw [if_neg h1]
      rcases hwhy with hc | hc
      · exact absurd hc h1
      · rw [if_pos hc]
  · intro hs h0 h1
    obtain ⟨r, hr, hok⟩ := MarkDelete_isSome pg rid txn lm ⟨hp, hs, h0, h1⟩ hctx
    obtain ⟨_, e1, _, e2, e3, e4, e5, e6, e7⟩ := MarkDelete_true_spec pg rid txn lm r hr hok
    have hE : slotEntry rid.slot_id = 24 + 8 * rid.slot_id := rfl
    refine ⟨r, hr, hok, e1, e2, e3, ?_, e4, e5, ?_, e6, e7⟩
    · unfold freeBytes; rw [e2, e3]
    · intro x hx
      exact e6 x (by omega) (by omega)

theorem mark_delete_frame_witness :
    (⟨7, 1⟩ : RID).page_id = GetPageId threeTuplePage
    ∧ CtxOk (some ⟨1, 0⟩) (some ⟨[], 5⟩)
    ∧ ∃ r, MarkDelete threeTuplePage ⟨7, 1⟩ (some ⟨1, 0⟩) (some ⟨[], 5⟩) = some r
      ∧ r.ok = true
      ∧ GetTupleSize r.state.page 1 = GetTupleSize threeTuplePage 1 + DELETE_MASK
      ∧ GetFreeSpacePointer r.state.page = GetFreeSpacePointer threeTuplePage
      ∧ GetTupleCount r.state.page = GetTupleCount threeTuplePage
      ∧ freeBytes r.state.page = freeBytes threeTuplePage
      ∧ ∀ x, 24 + 8 * GetTupleCount threeTuplePage ≤ x → r.state.page x = threeTuplePage x := by
  obtain ⟨r, h1, h2, h3, h4, h5, h6, _, _, h9, _⟩ :=
    (mark_delete_frame threeTuplePage ⟨7, 1⟩ (some ⟨1, 0⟩) (some ⟨[], 5⟩) (by decide)
      (by decide)).2.2 (by decide) (by decide) (by decide)
  exact ⟨by decide, by decide, r, h1, h2, h3, h4, h5, h6, h9⟩


/-! ## Stored sizes and the delete mark -/

/-- A tuple of at least `2^31` bytes fails the first fit check of `InsertTuple`
on a well-formed page below 2 GiB. -/
theorem InsertTuple_reject_large (page_size : Nat) (pg : TablePage) (tuple : Tuple)
    (txn : Option TransactionContext) (lm : Option LogManager)
    (hwf : WellFormed page_size pg) (hsmall : page_size < DELETE_MASK)
    (hbig : DELETE_MASK ≤ tuple.size) :
    InsertTuple pg tuple txn lm = some ⟨false, none, ⟨pg, txn, lm⟩⟩ := by
  obtain ⟨_, hdir, hfspP, _⟩ := hwf
  have hfree := GetFreeSpaceRemaining_eq pg hdir
  have hD : DELETE_MASK = 2147483648 := rfl
  have hpos : 0 < tuple.size := by omega
  have hlt : GetFreeSpaceRemaining pg < tuple.size := by
    rw [hfree]; unfold freeBytes; omega
  unfold InsertTuple
  simp only [Tuple.GetSize, gt_iff_lt, hpos, not_true_eq_false, if_false]
  rw [if_pos hlt]

/-- A tuple of at least `2^31` bytes fails the fit check of `UpdateTuple` on a
live slot of a well-formed page below 2 GiB. -/
theorem UpdateTuple_reject_large (page_size : Nat) (pg : TablePage)
    (new_tuple old_tuple : Tuple) (rid : RID)
    (txn : Option TransactionContext) (lm : Option LogManager)
    (hwf : WellFormed page_size pg) (hsmall : page_size < DELETE_MASK)
    (hlive : LiveSlot pg rid) (hbig : DELETE_MASK ≤ new_tuple.size) :
    add32 (GetFreeSpaceRemaining pg) (GetTupleSize pg rid.slot_id)
        = freeBytes pg + GetTupleSize pg rid.slot_id
    ∧ UpdateTuple pg new_tuple old_tuple rid txn lm
        = some ⟨false, old_tuple, ⟨pg, txn, lm⟩⟩ := by
  obtain ⟨hp, hs, h0, h1⟩ := hlive
  obtain ⟨_, hdir, hfspP, hslots⟩ := hwf
  obtain ⟨hown, hts⟩ := OwnsPayload_of_live pg rid.slot_id h0 h1
  obtain ⟨⟨hoff, hend⟩, _⟩ := hslots rid.slot_id hs hown
  rw [hts] at hend
  have hfree := GetFreeSpaceRemaining_eq pg hdir
  have hD : DELETE_MASK = 2147483648 := rfl
  have hU : U32 = 4294967296 := rfl
  have hpos : 0 < new_tuple.size := by omega
  have hfb : freeBytes pg ≤ GetFreeSpacePointer pg := by unfold freeBytes; omega
  have hadd : add32 (GetFreeSpaceRemaining pg) (GetTupleSize pg rid.slot_id)
      = freeBytes pg + GetTupleSize pg rid.slot_id := by
    rw [hfree]; exact add32_eq _ _ (by omega)
  refine ⟨hadd, ?_⟩
  unfold UpdateTuple
  simp only [hp, ne_eq, not_true_eq_false, if_false, ge_iff_le, Tuple.GetSize, gt_iff_lt, hpos]
  rw [if_neg (by omega), if_neg h0, IsDeleted_live _ h0 h1]
  simp only [Bool.false_eq_true, if_false]
  rw [if_pos (by omega)]

/-- C23. Stored sizes never collide with the delete mark: on every page
reachable from `Init(page_size)` with `page_size < 2^31`, the fit checks do not
wrap around, `InsertTuple` and `UpdateTuple` reject every tuple of `2^31` bytes
or more, and a size field written by a successful `InsertTuple` or
`UpdateTuple` is the size of the tuple, has the high bit clear and is read back
by `GetTuple` as a live slot, never as marked-deleted. -/
theorem sizes_below_delete_mark (page_size : Nat) (pg : TablePage)
    (tuple old_tuple : Tuple) (rid : RID)
    (txn : Option TransactionContext) (lm : Option LogManager)
    (h24 : 24 ≤ page_size) (hsmall : page_size < DELETE_MASK)
    (hr : Reachable page_size pg) :
    GetFreeSpaceRemaining pg = freeBytes pg
    ∧ (DELETE_MASK ≤ tuple.size →
        InsertTuple pg tuple txn lm = some ⟨false, none, ⟨pg, txn, lm⟩⟩)
    ∧ (∀ r, InsertTuple pg tuple txn lm = some r → r.ok = true →
        tuple.size < DELETE_MASK
        ∧ ∃ k, r.rid = some ⟨GetPageId pg, k⟩
          ∧ GetTupleSize r.state.page k = tuple.size
          ∧ IsDeleted (GetTupleSize r.state.page k) = false
          ∧ ∃ t, GetTuple r.state.page ⟨GetPageId pg, k⟩ Tuple.default = some (true, t))
    ∧ (DELETE_MASK ≤ tuple.size →
        ∀ r, UpdateTuple pg tuple old_tuple rid txn lm = some r → r.ok = false)
    ∧ (LiveSlot pg rid → DELETE_MASK ≤ tuple.size →
        add32 (GetFreeSpaceRemaining pg) (GetTupleSize pg rid.slot_id)
            = freeBytes pg + GetTupleSize pg rid.slot_id
        ∧ UpdateTuple pg tuple old_tuple rid txn lm
            = some ⟨false, old_tuple, ⟨pg, txn, lm⟩⟩)
    ∧ (∀ r, UpdateTuple pg tuple old_tuple rid txn lm = some r → r.ok = true →
        tuple.size < DELETE_MASK
        ∧ GetTupleSize r.state.page rid.slot_id = tuple.size
        ∧ IsDeleted (GetTupleSize r.state.page rid.slot_id) = false
        ∧ ∃ t, GetTuple r.state.page rid Tuple.default = some (true, t)) := by
  have hD : DELETE_MASK = 2147483648 := rfl
  have hU : U32 = 4294967296 := rfl
  have hP : page_size < U32 := by omega
  have hwf := Reachable_wf page_size pg h24 hP hr
  have hwf' := hwf
  obtain ⟨_, hdir, hfspP, hslots⟩ := hwf'
  have hfb : freeBytes pg ≤ GetFreeSpacePointer pg := by unfold freeBytes; omega
  have hupd : ∀ r, UpdateTuple pg tuple old_tuple rid txn lm = some r → r.ok = true →
      tuple.size < DELETE_MASK
      ∧ GetTupleSize r.state.page rid.slot_id = tuple.size
      ∧ IsDeleted (GetTupleSize r.state.page rid.slot_id) = false
      ∧ ∃ t, GetTuple r.state.page rid Tuple.default = some (true, t) := by
    intro r h hok
    obtain ⟨⟨hp, hs, h0, h1⟩, hpos, hfit, e0, _, e2, e3, _⟩ :=
      UpdateTuple_true_spec page_size pg tuple old_tuple rid txn lm r hwf h hok
    obtain ⟨hown, hts⟩ := OwnsPayload_of_live pg rid.slot_id h0 h1
    obtain ⟨⟨hoff, hend⟩, _⟩ := hslots rid.slot_id hs hown
    rw [hts] at hend
    have hlt : tuple.size < DELETE_MASK := by omega
    have hlive : LiveSlot r.state.page rid :=
      ⟨by rw [e0]; exact hp, by rw [e2]; exact hs, by rw [e3]; omega, by rw [e3]; exact hlt⟩
    refine ⟨hlt, e3, ?_, _, GetTuple_live r.state.page rid Tuple.default hlive⟩
    rw [e3]
    exact IsDeleted_live _ (by omega) hlt
  refine ⟨GetFreeSpaceRemaining_eq pg hdir, ?_, ?_, ?_, ?_, hupd⟩
  · exact InsertTuple_reject_large page_size pg tuple txn lm hwf hsmall
  · intro r h hok
    obtain ⟨hpos, _⟩ := InsertTuple_inv pg tuple txn lm r h
    obtain ⟨s1, _, hrid, e0, _, e2, _, e4, _⟩ :=
      InsertTuple_true_spec pg tuple txn lm r hdir h hok
    obtain ⟨_, hkle, _, _⟩ :=
      findFreeSlot_spec pg (GetTupleCount pg) (GetTupleCount pg) 0 (by omega)
    generalize findFreeSlot pg (GetTupleCount pg) (GetTupleCount pg) 0 = k at *
    have hlt : tuple.size < DELETE_MASK := by omega
    have hcnt : k < GetTupleCount r.state.page := by
      rw [e2]; split <;> omega
    have hlive : LiveSlot r.state.page ⟨GetPageId pg, k⟩ :=
      ⟨e0.symm, hcnt, by show GetTupleSize r.state.page k ≠ 0; rw [e4]; omega,
        by show GetTupleSize r.state.page k < DELETE_MASK; rw [e4]; exact hlt⟩
    refine ⟨hlt, k, hrid, e4, ?_, _, GetTuple_live r.state.page _ Tuple.default hlive⟩
    rw [e4]
    exact IsDeleted_live _ (by omega) hlt
  · intro hbig r h
    cases hok : r.ok with
    | false => rfl
    | true =>
      have := (hupd r h hok).1
      omega
  · intro hlive hbig
    exact UpdateTuple_reject_large page_size pg tuple old_tuple rid txn lm hwf hsmall hlive hbig

theorem sizes_below_delete_mark_witness :
    Reachable 4096 threeTuplePage
    ∧ GetFreeSpaceRemaining threeTuplePage = freeBytes threeTuplePage
    ∧ ∃ r, InsertTuple threeTuplePage exampleTuple6 none none = some r ∧ r.ok = true
      ∧ exampleTuple6.size < DELETE_MASK
      ∧ ∃ k, r.rid = some ⟨GetPageId threeTuplePage, k⟩
        ∧ GetTupleSize r.state.page k = exampleTuple6.size
        ∧ IsDeleted (GetTupleSize r.state.page k) = false
        ∧ ∃ t, GetTuple r.state.page ⟨GetPageId threeTuplePage, k⟩ Tuple.default
            = some (true, t) := by
  have hsome : (InsertTuple threeTuplePage exampleTuple6 none none).isSome = true := by decide
  have hw := sizes_below_delete_mark 4096 threeTuplePage exampleTuple6 Tuple.default ⟨7, 2⟩
    none none (by decide) (by decide) Reachable_threeTuplePage
  exact ⟨Reachable_threeTuplePage, hw.1, _, (Option.some_get hsome).symm, rfl,
    hw.2.2.1 _ (Option.some_get hsome).symm rfl⟩


/-! ## UpdateTuple: frame -/

/-- The part of the update frame that holds: after a successful `UpdateTuple` on
a well-formed page the tuple count is unchanged, the updated slot sits at
`old_offset + old_size - new_size`, and every other slot that owns payload
keeps its size field; a slot below the updated tuple is shifted by
`old_size - new_size` and designates the same bytes, a slot above it keeps its
offset and its bytes except those among the 4 bytes that follow the updated
tuple, which `SerializeTo` overwrites. -/
theorem UpdateTuple_frame (page_size : Nat) (pg : TablePage) (new_tuple old_tuple : Tuple)
    (rid : RID) (txn : Option TransactionContext) (lm : Option LogManager) (r : UpdateResult)
    (hwf : WellFormed page_size pg)
    (h : UpdateTuple pg new_tuple old_tuple rid txn lm = some r) (hok : r.ok = true) :
    GetTupleCount r.state.page = GetTupleCount pg
    ∧ GetTupleOffset r.state.page rid.slot_id + new_tuple.size
        = GetTupleOffset pg rid.slot_id + GetTupleSize pg rid.slot_id
    ∧ ∀ i, i < GetTupleCount pg → i ≠ rid.slot_id → OwnsPayload pg i →
        GetTupleSize r.state.page i = GetTupleSize pg i
        ∧ ((GetTupleOffset pg i < GetTupleOffset pg rid.slot_id
            ∧ GetTupleOffset r.state.page i + new_tuple.size
                = GetTupleOffset pg i + GetTupleSize pg rid.slot_id
            ∧ readBytes r.state.page (GetTupleOffset r.state.page i)
                  (trueSize (GetTupleSize pg i))
                = readBytes pg (GetTupleOffset pg i) (trueSize (GetTupleSize pg i)))
          ∨ (GetTupleOffset pg rid.slot_id + GetTupleSize pg rid.slot_id
                ≤ GetTupleOffset pg i
            ∧ GetTupleOffset r.state.page i = GetTupleOffset pg i
            ∧ ∀ x, GetTupleOffset pg i ≤ x →
                GetTupleOffset pg rid.slot_id + GetTupleSize pg rid.slot_id + 4 ≤ x →
                r.state.page x = pg x)) := by
  obtain ⟨⟨_, hs, h0, h1⟩, hpos, hfit, _, _, ecnt, s1, s2, s3, ebytes, _⟩ :=
    UpdateTuple_true_spec page_size pg new_tuple old_tuple rid txn lm r hwf h hok
  have hwf' := hwf
  obtain ⟨hP, hdir, hfspP, hslots⟩ := hwf'
  unfold SIZE_TABLE_PAGE_HEADER SIZE_SLOT at hdir
  obtain ⟨hownk, hts⟩ := OwnsPayload_of_live pg rid.slot_id h0 h1
  obtain ⟨⟨hoff, hend⟩, _⟩ := hslots rid.slot_id hs hownk
  rw [hts] at hend
  have hU : U32 = 4294967296 := rfl
  refine ⟨ecnt, ?_, ?_⟩
  · have hoffk := s3 rid.slot_id hs
    rw [if_pos ⟨by rw [s1]; omega, by omega⟩, add32_eq _ _ (by omega),
      sub32_eq _ _ (by omega) (by omega)] at hoffk
    omega
  · intro i hi hik howni
    have hsz := s2 i hi hik
    have hown' : OwnsPayload r.state.page i := by
      unfold OwnsPayload at howni ⊢
      rw [hsz]; exact howni
    refine ⟨hsz, ?_⟩
    rcases UpdateTuple_slot_pos page_size pg new_tuple old_tuple rid txn lm r hwf h hok i hi hown'
      with ⟨hc, _⟩ | ⟨_, _, _, hbelow, hlo, hoffi⟩ | ⟨_, _, _, habove, _, hoffi⟩
    · exact absurd hc hik
    · left
      have hpos' : 0 < trueSize (GetTupleSize pg i) := by
        unfold OwnsPayload at howni; omega
      refine ⟨by omega, hoffi, ?_⟩
      unfold readBytes
      apply List.map_congr_left
      intro j hj
      rw [List.mem_range] at hj
      rw [ebytes _ (by omega), SerializeTo_outside _ _ _ _ (Or.inl (by omega))]
      unfold memmove
      rw [if_pos (by omega)]
      congr 1
      omega
    · right
      refine ⟨habove, hoffi, ?_⟩
      intro x hx1 hx2
      rw [ebytes _ (by omega), SerializeTo_outside _ _ _ _ (Or.inr (by omega)),
        memmove_outside _ _ _ _ _ (Or.inr (by omega))]

/-- C21 (the code at the failing input). On the well-formed page holding an
8-byte tuple in slot 0 (offset 4088) and the 6-byte tuple `[9, 9, 9, 9, 9, 9]`
in slot 1 (offset 4082), `UpdateTuple` of slot 1 with the 6-byte tuple
`[7, 7, 7, 7, 7, 7]` returns true and leaves the tuple count, the offset and
the size field of slot 0 as they were, but the bytes slot 0 designates change
from `[9, 9, 9, 9, 1, 2, 3, 4]` to `[7, 7, 7, 7, 1, 2, 3, 4]`. -/
theorem update_frame_at_failing_input :
    WellFormed 4096 twoTuplePage
    ∧ LiveSlot twoTuplePage ⟨7, 1⟩
    ∧ (constTuple 6 7).data = [7, 7, 7, 7, 7, 7]
    ∧ (UpdateTuple twoTuplePage (constTuple 6 7) Tuple.default ⟨7, 1⟩ none none).map
        (fun r => r.ok) = some true
    ∧ GetTupleCount twoTuplePage = 2
    ∧ GetTupleCount (pageAfterUpdate twoTuplePage (constTuple 6 7) ⟨7, 1⟩) = 2
    ∧ (GetTupleOffset twoTuplePage 0, GetTupleSize twoTuplePage 0) = (4088, 8)
    ∧ (GetTupleOffset (pageAfterUpdate twoTuplePage (constTuple 6 7) ⟨7, 1⟩) 0,
        GetTupleSize (pageAfterUpdate twoTuplePage (constTuple 6 7) ⟨7, 1⟩) 0) = (4088, 8)
    ∧ (GetTupleOffset twoTuplePage 1, GetTupleSize twoTuplePage 1) = (4082, 6)
    ∧ (GetTupleOffset (pageAfterUpdate twoTuplePage (constTuple 6 7) ⟨7, 1⟩) 1,
        GetTupleSize (pageAfterUpdate twoTuplePage (constTuple 6 7) ⟨7, 1⟩) 1) = (4082, 6)
    ∧ readBytes twoTuplePage 4088 8 = [9, 9, 9, 9, 1, 2, 3, 4]
    ∧ readBytes (pageAfterUpdate twoTuplePage (constTuple 6 7) ⟨7, 1⟩) 4088 8
        = [7, 7, 7, 7, 1, 2, 3, 4]
    ∧ GetTuple twoTuplePage ⟨7, 0⟩ Tuple.default
        = some (true, ⟨true, ⟨7, 0⟩, 8, [9, 9, 9, 9, 1, 2, 3, 4]⟩)
    ∧ GetTuple (pageAfterUpdate twoTuplePage (constTuple 6 7) ⟨7, 1⟩) ⟨7, 0⟩ Tuple.default
        = some (true, ⟨true, ⟨7, 0⟩, 8, [7, 7, 7, 7, 1, 2, 3, 4]⟩) := by
  decide

end TinyDB
